import Mathlib

/-!
# Aeron: the Image read path, the CnC layout, the driver proxy, the agent runner and the
data packet dispatcher

A shallow embedding of `aeron-client/src/main/cpp/Image.h` and of the parts of
`util/BitUtil.h` it uses, of `CncFileDescriptor.h`, `DriverProxy.h` and
`concurrent/AgentRunner.h`, and of `aeron-driver/src/main/cpp/DataPacketDispatcher.h` and
`media/InetAddress.h`.
Machine integers are mathematical integers that are wrapped explicitly to their two's
complement width after every arithmetic operation of the source.  The handler passed to a
poll is a state-passing function, and every observable step of a poll (reads of the term
buffer, handler invocations, stores to the subscriber position counter) is recorded in an
event trace, in program order.  Collaborators whose headers are not part of the sources
(the ring buffer, the term reader and scanner, the publication image) are parameters, and
the calls made on them are recorded in the same way.

An invocation of a handler returns, throws an exception that the `catch (std::exception ex)`
clause of the poll takes, or throws one that leaves the poll (an object that is not a
`std::exception`, or an exception thrown by the exception handler); the result of a poll
records which.  The accesses to the closed flag carry the memory order written in the
source, and the ordering they give between two threads is judged by the release/acquire
rules of the C++11 memory model.  A driver command is built in the 512-byte scratch buffer
of `DriverProxy::writeCommandToDriver`, and a record that does not fit it is not written.
-/

namespace Aeron

/-! ## Machine integers -/

/-- The value of an integer expression stored into a `std::int32_t`. -/
def wrap32 (x : Int) : Int := (x + 2147483648) % 4294967296 - 2147483648

/-- The value of an integer expression stored into a `std::int64_t`. -/
def wrap64 (x : Int) : Int :=
  (x + 9223372036854775808) % 18446744073709551616 - 9223372036854775808

/-- The bit pattern of a `std::int32_t`, as an unsigned number below `2 ^ 32`. -/
def toU32 (x : Int) : Nat := (x % 4294967296).toNat

/-- Bitwise `&` on `std::int32_t`. -/
def and32 (a b : Int) : Int := wrap32 ((toU32 a &&& toU32 b : Nat) : Int)

/-- Bitwise `~` on `std::int32_t`. -/
def not32 (a : Int) : Int := wrap32 ((toU32 a ^^^ 4294967295 : Nat) : Int)

/-! ## BitUtil.h -/

namespace BitUtil

/-- `BitUtil::align` at `value_t = std::int32_t`:
`(value + (alignment - 1)) & ~(alignment - 1)`. -/
def align (value alignment : Int) : Int :=
  and32 (wrap32 (value + wrap32 (alignment - 1))) (not32 (wrap32 (alignment - 1)))

end BitUtil

/-! ## Collaborators of Image.h that are declared in other headers -/

/-- Modelled from the spec: `FrameDescriptor::FRAME_ALIGNMENT`, declared in
`concurrent/logbuffer/FrameDescriptor.h`; the spec aligns every frame to 32 bytes. -/
def FRAME_ALIGNMENT : Int := 32

/-- Modelled from the spec: `LogBufferDescriptor::PARTITION_COUNT`, declared in
`concurrent/logbuffer/LogBufferDescriptor.h`; the spec fixes three term partitions. -/
def PARTITION_COUNT : Int := 3

/-- Modelled from the spec: `LogBufferDescriptor::indexByPosition`, declared in
`concurrent/logbuffer/LogBufferDescriptor.h`; the spec gives the partition index as
`(position >> k) mod 3`. -/
def indexByPosition (position : Int) (positionBitsToShift : Nat) : Nat :=
  ((position >>> positionBitsToShift) % PARTITION_COUNT).toNat

/-- `IMAGE_CLOSED`. -/
def IMAGE_CLOSED : Int := -1

/-- A term buffer as `Image` observes it through `AtomicBuffer` and `FrameDescriptor`:
its capacity, the frame length probed at an offset
(`FrameDescriptor::frameLengthVolatile`), the padding test at a frame offset
(`FrameDescriptor::isPaddingFrame`) and the term id field of the frame at an offset
(`getInt32(offset + DataFrameHeader::TERM_ID_FIELD_OFFSET)`). -/
structure TermBuffer where
  capacity : Int
  frameLengthVolatile : Int → Int
  isPaddingFrame : Int → Bool
  termIdAt : Int → Int

/-- `enum class ControlledPollAction`. -/
inductive ControlledPollAction where
  | ABORT
  | BREAK
  | COMMIT
  | CONTINUE
  deriving DecidableEq, Repr

/-- What one invocation of a user handler inside a poll comes to.  The polls call the
handler inside `try { ... } catch (std::exception ex) { m_exceptionHandler(ex); }`, so
there are three ways for the invocation to end.  It returns a value (`returns`).  It throws
an exception derived from `std::exception`, which the catch clause takes, and the
exception handler called with it returns (`throws`).  Or an exception leaves the poll
(`escapes`): either the object thrown is not derived from `std::exception`, as in
`throw 42`, so that the catch clause does not match and the exception handler is not
called (`exceptionHandlerCalled = false`), or it is derived from `std::exception` and the
exception handler called with it throws in its turn (`exceptionHandlerCalled = true`). -/
inductive Invocation (α : Type) where
  | returns (value : α)
  | throws
  | escapes (exceptionHandlerCalled : Bool)
  deriving DecidableEq, Repr

/-- `controlled_poll_fragment_handler_t`: called with the payload offset and length of a
fragment; `σ` is whatever state the closure owns. -/
abbrev controlled_poll_fragment_handler_t (σ : Type) :=
  σ → Int → Int → Invocation ControlledPollAction × σ

/-- `block_handler_t`: called with the block offset, its length, the session id and the
term id. -/
abbrev block_handler_t (σ : Type) := σ → Int → Int → Int → Int → Invocation Unit × σ

/-- Observable steps taken on a term buffer while it is being read.  A `handlerCall`
records the frame offset placed in the header and the payload offset and length passed to
the fragment handler; `handlerReturned` records the action it came back with, and
`exceptionHandled` the call of the exception handler after it threw. -/
inductive TermEvent where
  | frameLengthRead (offset : Int)
  | paddingCheck (offset : Int)
  | handlerCall (frameOffset offset length : Int)
  | handlerReturned (action : ControlledPollAction)
  | blockScan (offset limit : Int)
  | termIdRead (offset : Int)
  | blockHandlerCall (offset length sessionId termId : Int)
  | exceptionHandled
  deriving DecidableEq, Repr

/-- Observable steps of a poll: steps on the term buffer, and loads and ordered stores of
the subscriber position counter. -/
inductive Event where
  | term (e : TermEvent)
  | positionGet
  | positionSet (value : Int)
  deriving DecidableEq, Repr

/-- `TermReader::ReadOutcome`. -/
structure ReadOutcome where
  offset : Int
  fragmentsRead : Int
  deriving DecidableEq, Repr

/-- The signature of `TermReader::read` (declared in
`concurrent/logbuffer/TermReader.h`): from the term buffer, the term offset, the handler
state and the fragment limit to the read outcome, the new handler state and the steps it
took.  It is not given the subscriber position. -/
abbrev TermReaderRead (σ : Type) :=
  TermBuffer → Int → σ → Int → ReadOutcome × σ × List TermEvent

/-- The signature of `TermBlockScanner::scan` (declared in
`concurrent/logbuffer/TermBlockScanner.h`): from the term buffer, the term offset and the
limit to the resulting offset. -/
abbrev TermBlockScan := TermBuffer → Int → Int → Int

/-! ## Image.h -/

/-- The fields of `class Image` that the read path uses.  `subscriberPosition` is the
value held by the position counter `m_subscriberPosition`. -/
structure Image where
  termBuffers : Nat → TermBuffer
  subscriberPosition : Int
  isClosed : Bool
  sessionId : Int
  termLengthMask : Int
  positionBitsToShift : Nat

/-- What a poll leaves behind: the returned value, the image, the handler state and the
steps taken, in program order.  `escaped` tells that the call did not return because an
exception left it; no caller receives a value then, and `result` holds the count the call
had reached (the local `fragmentsRead` or `bytesConsumed`). -/
structure PollResult (σ : Type) where
  result : Int
  image : Image
  handlerState : σ
  trace : List Event
  escaped : Bool := false

namespace Image

/-- `Image::close`. -/
def close (img : Image) : Image := { img with isClosed := true }

/-- `Image::position`. -/
def position (img : Image) : Int :=
  if !img.isClosed then img.subscriberPosition else IMAGE_CLOSED

/-- The term offset every poll computes first:
`(std::int32_t) position & m_termLengthMask`. -/
def termOffset (img : Image) : Int :=
  and32 (wrap32 img.subscriberPosition) img.termLengthMask

/-- The term buffer every poll selects:
`m_termBuffers[LogBufferDescriptor::indexByPosition(position, m_positionBitsToShift)]`. -/
def termBuffer (img : Image) : TermBuffer :=
  img.termBuffers (indexByPosition img.subscriberPosition img.positionBitsToShift)

/-- `Image::poll`, over the `TermReader::read` it is linked with. -/
def poll {σ : Type} (read : TermReaderRead σ) (img : Image) (handlerState : σ)
    (fragmentLimit : Int) : PollResult σ :=
  if !img.isClosed then
    let position := img.subscriberPosition
    let termOffset := and32 (wrap32 position) img.termLengthMask
    let termBuffer := img.termBuffers (indexByPosition position img.positionBitsToShift)
    let (readOutcome, hs, steps) := read termBuffer termOffset handlerState fragmentLimit
    let newPosition := wrap64 (position + wrap32 (wrap32 readOutcome.offset - termOffset))
    let trace := Event.positionGet :: steps.map Event.term
    if newPosition > position then
      { result := wrap32 readOutcome.fragmentsRead
        image := { img with subscriberPosition := newPosition }
        handlerState := hs
        trace := trace ++ [Event.positionSet newPosition] }
    else
      { result := wrap32 readOutcome.fragmentsRead, image := img, handlerState := hs,
        trace := trace }
  else
    { result := IMAGE_CLOSED, image := img, handlerState := handlerState, trace := [] }

/-- The local variables of `Image::controlledPoll` that its loop updates, the value held
by the position counter `m_subscriberPosition`, the handler state and the steps taken so
far.  `escaped` tells that an exception is on its way out of the function: it was not
caught, or the exception handler threw. -/
structure LoopState (σ : Type) where
  subscriberPosition : Int
  position : Int
  termOffset : Int
  offset : Int
  fragmentsRead : Int
  handlerState : σ
  trace : List Event
  escaped : Bool

/-- One iteration of the `do { ... } while (fragmentsRead < fragmentLimit && offset <
capacity)` loop of `Image::controlledPoll`, with the `catch` block when the handler
throws.  The flag is `true` when the body ran to its end and the loop condition holds, so
that another iteration follows; it is `false` after a `break`, after an exception and when
the loop condition fails.  An exception that the catch clause does not take, or one thrown
by the exception handler, leaves the loop with `escaped` set.  `headerLength` is
`DataFrameHeader::LENGTH`. -/
def controlledPollStep {σ : Type} (fragmentHandler : controlled_poll_fragment_handler_t σ)
    (headerLength : Int) (termBuffer : TermBuffer) (fragmentLimit capacity : Int)
    (s : LoopState σ) : Bool × LoopState σ :=
  let length := wrap32 (termBuffer.frameLengthVolatile s.offset)
  let trace := s.trace ++ [Event.term (TermEvent.frameLengthRead s.offset)]
  if length ≤ 0 then
    (false, { s with trace := trace })
  else
    let frameOffset := s.offset
    let alignedLength := BitUtil.align length FRAME_ALIGNMENT
    let offset := wrap32 (s.offset + alignedLength)
    let trace := trace ++ [Event.term (TermEvent.paddingCheck frameOffset)]
    if !termBuffer.isPaddingFrame frameOffset then
      let payloadOffset := wrap32 (frameOffset + headerLength)
      let payloadLength := wrap32 (length - headerLength)
      let trace :=
        trace ++ [Event.term (TermEvent.handlerCall frameOffset payloadOffset payloadLength)]
      match fragmentHandler s.handlerState payloadOffset payloadLength with
      | (Invocation.throws, hs) =>
        (false, { s with offset := offset, handlerState := hs,
                         trace := trace ++ [Event.term TermEvent.exceptionHandled] })
      | (Invocation.escapes true, hs) =>
        (false, { s with offset := offset, handlerState := hs, escaped := true,
                         trace := trace ++ [Event.term TermEvent.exceptionHandled] })
      | (Invocation.escapes false, hs) =>
        (false, { s with offset := offset, handlerState := hs, escaped := true,
                         trace := trace })
      | (Invocation.returns action, hs) =>
        let fragmentsRead := wrap32 (s.fragmentsRead + 1)
        let trace := trace ++ [Event.term (TermEvent.handlerReturned action)]
        match action with
        | ControlledPollAction.BREAK =>
          (false, { s with offset := offset, fragmentsRead := fragmentsRead,
                           handlerState := hs, trace := trace })
        | ControlledPollAction.ABORT =>
          (false, { s with offset := frameOffset, fragmentsRead := wrap32 (fragmentsRead - 1),
                           handlerState := hs, trace := trace })
        | ControlledPollAction.COMMIT =>
          let position := wrap64 (s.position + alignedLength)
          (decide (fragmentsRead < fragmentLimit ∧ offset < capacity),
            { subscriberPosition := position, position := position, termOffset := offset,
              offset := offset, fragmentsRead := fragmentsRead, handlerState := hs,
              trace := trace ++ [Event.positionSet position], escaped := s.escaped })
        | ControlledPollAction.CONTINUE =>
          (decide (fragmentsRead < fragmentLimit ∧ offset < capacity),
            { s with offset := offset, fragmentsRead := fragmentsRead, handlerState := hs,
                     trace := trace })
    else
      (decide (s.fragmentsRead < fragmentLimit ∧ offset < capacity),
        { s with offset := offset, trace := trace })

/-- The loop of `Image::controlledPoll`: the state in which control leaves the `try`
statement, for the statement after the `catch` block or, with `escaped` set, for the
caller.  One unit of fuel is spent per iteration; `none` means the fuel ran out. -/
def controlledPollLoop {σ : Type} (fragmentHandler : controlled_poll_fragment_handler_t σ)
    (headerLength : Int) (termBuffer : TermBuffer) (fragmentLimit capacity : Int) :
    Nat → LoopState σ → Option (LoopState σ)
  | 0, _ => none
  | fuel + 1, s =>
    match controlledPollStep fragmentHandler headerLength termBuffer fragmentLimit capacity s with
    | (true, s1) =>
      controlledPollLoop fragmentHandler headerLength termBuffer fragmentLimit capacity fuel s1
    | (false, s1) => some s1

/-- The number of loop iterations `Image::controlledPoll` is given: more than the
capacity of the term buffer, which no pass over frames of positive aligned length
exceeds. -/
def loopFuel (termBuffer : TermBuffer) : Nat := termBuffer.capacity.toNat + 1

/-- The locals of `Image::controlledPoll` when its loop is entered: the position just
loaded from the counter, the term offset computed from it, no fragment read yet. -/
def controlledPollStart {σ : Type} (img : Image) (handlerState : σ) : LoopState σ :=
  let position := img.subscriberPosition
  let termOffset := and32 (wrap32 position) img.termLengthMask
  { subscriberPosition := position, position := position, termOffset := termOffset,
    offset := termOffset, fragmentsRead := 0, handlerState := handlerState,
    trace := [Event.positionGet], escaped := false }

/-- The statements of `Image::controlledPoll` after the `catch` block: the final position
update and the returned count.  They are not reached when an exception leaves the
function: the counter then keeps what the loop stored to it. -/
def controlledPollFinish {σ : Type} (img : Image) (s : LoopState σ) : PollResult σ :=
  let newPosition := wrap64 (s.position + wrap32 (s.offset - s.termOffset))
  if s.escaped then
    { result := s.fragmentsRead
      image := { img with subscriberPosition := s.subscriberPosition }
      handlerState := s.handlerState
      trace := s.trace
      escaped := true }
  else if newPosition > s.position then
    { result := s.fragmentsRead
      image := { img with subscriberPosition := newPosition }
      handlerState := s.handlerState
      trace := s.trace ++ [Event.positionSet newPosition] }
  else
    { result := s.fragmentsRead
      image := { img with subscriberPosition := s.subscriberPosition }
      handlerState := s.handlerState
      trace := s.trace }

/-- `Image::controlledPoll`.  `none` only when the loop ran out of fuel; a call that an
exception leaves is a result with `escaped` set. -/
def controlledPoll {σ : Type} (fragmentHandler : controlled_poll_fragment_handler_t σ)
    (headerLength : Int) (img : Image) (handlerState : σ) (fragmentLimit : Int) :
    Option (PollResult σ) :=
  if !img.isClosed then
    let position := img.subscriberPosition
    let termBuffer := img.termBuffers (indexByPosition position img.positionBitsToShift)
    match controlledPollLoop fragmentHandler headerLength termBuffer fragmentLimit
        termBuffer.capacity (loopFuel termBuffer) (controlledPollStart img handlerState) with
    | none => none
    | some s => some (controlledPollFinish img s)
  else
    some { result := IMAGE_CLOSED, image := img, handlerState := handlerState, trace := [] }

/-- `Image::blockPoll`, over the `TermBlockScanner::scan` it is linked with.  When an
exception leaves the call the store to the position counter is not reached. -/
def blockPoll {σ : Type} (scan : TermBlockScan) (blockHandler : block_handler_t σ)
    (img : Image) (handlerState : σ) (blockLengthLimit : Int) : PollResult σ :=
  if !img.isClosed then
    let position := img.subscriberPosition
    let termOffset := and32 (wrap32 position) img.termLengthMask
    let termBuffer := img.termBuffers (indexByPosition position img.positionBitsToShift)
    let limit := min (wrap32 (termOffset + blockLengthLimit)) termBuffer.capacity
    let resultingOffset := wrap32 (scan termBuffer termOffset limit)
    let bytesConsumed := wrap32 (resultingOffset - termOffset)
    let trace := [Event.positionGet, Event.term (TermEvent.blockScan termOffset limit)]
    if resultingOffset > termOffset then
      let termId := wrap32 (termBuffer.termIdAt termOffset)
      let trace := trace ++ [Event.term (TermEvent.termIdRead termOffset),
        Event.term (TermEvent.blockHandlerCall termOffset bytesConsumed img.sessionId termId)]
      let newPosition := wrap64 (position + bytesConsumed)
      match blockHandler handlerState termOffset bytesConsumed img.sessionId termId with
      | (Invocation.returns _, hs) =>
        { result := bytesConsumed
          image := { img with subscriberPosition := newPosition }
          handlerState := hs
          trace := trace ++ [Event.positionSet newPosition] }
      | (Invocation.throws, hs) =>
        { result := bytesConsumed
          image := { img with subscriberPosition := newPosition }
          handlerState := hs
          trace := trace ++ [Event.term TermEvent.exceptionHandled,
            Event.positionSet newPosition] }
      | (Invocation.escapes true, hs) =>
        { result := bytesConsumed, image := img, handlerState := hs,
          trace := trace ++ [Event.term TermEvent.exceptionHandled], escaped := true }
      | (Invocation.escapes false, hs) =>
        { result := bytesConsumed, image := img, handlerState := hs, trace := trace,
          escaped := true }
    else
      { result := bytesConsumed, image := img, handlerState := handlerState, trace := trace }
  else
    { result := IMAGE_CLOSED, image := img, handlerState := handlerState, trace := [] }

end Image

/-! ## The atomic accesses to the closed flag -/

/-- The enumeration `std::memory_order`. -/
inductive MemoryOrder where
  | relaxed
  | consume
  | acquire
  | release
  | acq_rel
  | seq_cst
  deriving DecidableEq, Repr

/-- An operation of a thread on memory it shares with another thread, as far as the closed
flag is concerned: a plain write or read of a location other than the flag, or an atomic
store to or load from `m_isClosed` with the memory order it is made with. -/
inductive MemoryOperation where
  | plainWrite (location : Nat) (value : Int)
  | plainRead (location : Nat)
  | atomicStore (value : Bool) (order : MemoryOrder)
  | atomicLoad (order : MemoryOrder)
  deriving DecidableEq, Repr

/-- The memory operation `Image::close` consists of:
`std::atomic_store_explicit(&m_isClosed, true, std::memory_order_relaxed)`. -/
def Image.closeOperation : MemoryOperation :=
  MemoryOperation.atomicStore true MemoryOrder.relaxed

/-- The memory operation `Image::isClosed` consists of:
`std::atomic_load_explicit(&m_isClosed, std::memory_order_relaxed)`.  Every poll and
`position` start with it. -/
def Image.isClosedOperation : MemoryOperation :=
  MemoryOperation.atomicLoad MemoryOrder.relaxed

/-- A step of a thread that shares an `Image` with another thread: a plain write or read
of shared data, a call of `Image::close`, or a call of `Image::isClosed`, on its own or as
the first statement of a poll. -/
inductive ImageThreadStep where
  | write (location : Nat) (value : Int)
  | read (location : Nat)
  | close
  | isClosed
  deriving DecidableEq, Repr

/-- The memory operation a step of a thread consists of. -/
def ImageThreadStep.operation : ImageThreadStep → MemoryOperation
  | ImageThreadStep.write location value => MemoryOperation.plainWrite location value
  | ImageThreadStep.read location => MemoryOperation.plainRead location
  | ImageThreadStep.close => Image.closeOperation
  | ImageThreadStep.isClosed => Image.isClosedOperation

/-- A store with this memory order is a release operation (C++11 [atomics.order]): the
order is `release`, `acq_rel` or `seq_cst`. -/
def MemoryOrder.isRelease : MemoryOrder → Bool
  | MemoryOrder.release => true
  | MemoryOrder.acq_rel => true
  | MemoryOrder.seq_cst => true
  | _ => false

/-- A load with this memory order is an acquire operation (C++11 [atomics.order]): the
order is `acquire`, `acq_rel` or `seq_cst`. -/
def MemoryOrder.isAcquire : MemoryOrder → Bool
  | MemoryOrder.acquire => true
  | MemoryOrder.acq_rel => true
  | MemoryOrder.seq_cst => true
  | _ => false

/-- A store to the closed flag synchronizes with a load that takes its value from it when
the store is a release operation and the load is an acquire operation (C++11
[atomics.order]). -/
def synchronizesWith (store load : MemoryOperation) : Bool :=
  match store, load with
  | MemoryOperation.atomicStore _ storeOrder, MemoryOperation.atomicLoad loadOrder =>
    storeOrder.isRelease && loadOrder.isAcquire
  | _, _ => false

/-- The value the load at index `l` of the second thread returns: the value of the store
of the first thread it takes its value from, or `false`, the value `m_isClosed` is
constructed with, when it takes it from no store. -/
def loadedValue (first : List MemoryOperation) (readsFrom : Nat → Option Nat) (l : Nat) :
    Bool :=
  match readsFrom l with
  | none => false
  | some k =>
    match first[k]? with
    | some (MemoryOperation.atomicStore value _) => value
    | _ => false

/-- Operation `i` of the first thread happens before operation `j` of the second thread
(C++11 [intro.multithread]) through the closed flag: some store `k` of the first thread,
at or after `i` in program order, synchronizes with some load `l` of the second thread,
at or before `j` in program order, that takes its value from it. -/
def happensBefore (first second : List MemoryOperation) (readsFrom : Nat → Option Nat)
    (i j : Nat) : Bool :=
  (List.range first.length).any fun k =>
    (List.range second.length).any fun l =>
      match first[k]?, second[l]? with
      | some store, some load =>
        decide (i ≤ k) && decide (l ≤ j) && decide (readsFrom l = some k) &&
          synchronizesWith store load
      | _, _ => false

/-! ## Reading a trace -/

/-- The values stored to the subscriber position counter, in the order of the stores. -/
def published : List Event → List Int
  | [] => []
  | Event.positionSet v :: rest => v :: published rest
  | _ :: rest => published rest

/-- The offsets of the committed frames a pass went over, in order: those whose padding
flag was tested. -/
def visited : List Event → List Int
  | [] => []
  | Event.term (TermEvent.paddingCheck o) :: rest => o :: visited rest
  | _ :: rest => visited rest

/-- The frame offsets of the fragments handed to the fragment handler, in order. -/
def delivered : List Event → List Int
  | [] => []
  | Event.term (TermEvent.handlerCall o _ _) :: rest => o :: delivered rest
  | _ :: rest => delivered rest

/-- The actions the controlled fragment handler returned, in order. -/
def actions : List Event → List ControlledPollAction
  | [] => []
  | Event.term (TermEvent.handlerReturned a) :: rest => a :: actions rest
  | _ :: rest => actions rest

/-- The aligned length of the frame at an offset of a term:
`BitUtil::align(length, FrameDescriptor::FRAME_ALIGNMENT)`. -/
def alignedLengthAt (tb : TermBuffer) (offset : Int) : Int :=
  BitUtil.align (wrap32 (tb.frameLengthVolatile offset)) FRAME_ALIGNMENT

/-! ## Well-formedness conditions used by the theorems -/

/-- The term length is positive and at most `2 ^ 30`, and every frame length probed in
the term, as the `std::int32_t` the loop reads, is at most the term length. -/
def TermBuffer.FramesWithin (tb : TermBuffer) : Prop :=
  0 < tb.capacity ∧ tb.capacity ≤ 1073741824 ∧
    ∀ o, wrap32 (tb.frameLengthVolatile o) ≤ tb.capacity

/-- What the constructor of `Image` establishes over a log whose term length is a power of
two, together with the range of a stream position: the shift is at most 30, the mask is
the term length minus one, every partition has the term length as its capacity, and the
subscriber position lies between 0 and `2 ^ 62`. -/
def Image.Valid (img : Image) : Prop :=
  img.positionBitsToShift ≤ 30 ∧
    img.termLengthMask = 2 ^ img.positionBitsToShift - 1 ∧
    (∀ i, (img.termBuffers i).capacity = 2 ^ img.positionBitsToShift) ∧
    0 ≤ img.subscriberPosition ∧ img.subscriberPosition ≤ 4611686018427387904

/-- The facts about the loop variables of `Image::controlledPoll` that hold whenever an
iteration starts. -/
def Image.LoopInv {σ : Type} (capacity : Int) (s : Image.LoopState σ) : Prop :=
  0 ≤ s.termOffset ∧ s.termOffset ≤ s.offset ∧ s.offset < capacity ∧
    0 ≤ s.fragmentsRead ∧ s.fragmentsRead ≤ s.offset ∧
    0 ≤ s.position ∧ s.position ≤ 4611686018427387904 + s.offset ∧
    s.subscriberPosition = s.position

/-- The facts about the loop variables of `Image::controlledPoll` that hold when the loop
has been left. -/
def Image.ExitInv {σ : Type} (s : Image.LoopState σ) : Prop :=
  0 ≤ s.termOffset ∧ s.termOffset ≤ s.offset ∧ s.offset ≤ 2147483647 ∧
    0 ≤ s.fragmentsRead ∧
    0 ≤ s.position ∧ s.position ≤ 4611686018427387904 + s.offset ∧
    s.subscriberPosition = s.position

/-! ## Concrete terms and handlers -/

/-- A handler that plays back a script of actions, one per invocation, and throws once the
script is used up. -/
def scriptedHandler : controlled_poll_fragment_handler_t (List ControlledPollAction) :=
  fun s _ _ =>
    match s with
    | [] => (Invocation.throws, [])
    | a :: r => (Invocation.returns a, r)

/-- A handler that plays back a script of outcomes, one per invocation, and returns
CONTINUE once the script is used up. -/
def outcomeHandler :
    controlled_poll_fragment_handler_t (List (Invocation ControlledPollAction)) :=
  fun s _ _ =>
    match s with
    | [] => (Invocation.returns ControlledPollAction.CONTINUE, [])
    | outcome :: r => (outcome, r)

/-- A term of 1024 bytes holding three committed data frames of length 32 at offsets 0, 32
and 64, and nothing after them. -/
def threeFrameTerm : TermBuffer :=
  { capacity := 1024
    frameLengthVolatile := fun o => if o = 0 ∨ o = 32 ∨ o = 64 then 32 else 0
    isPaddingFrame := fun _ => false
    termIdAt := fun _ => 7 }

/-- An open image over `threeFrameTerm` whose subscriber position 3072 is at term offset 0
of partition 0. -/
def threeFrameImage : Image :=
  { termBuffers := fun _ => threeFrameTerm, subscriberPosition := 3072, isClosed := false,
    sessionId := 1, termLengthMask := 1023, positionBitsToShift := 10 }

/-- A term of 1024 bytes holding one committed data frame of length 40 at offset 0 and a
committed padding frame of length 960 at offset 64 that fills the rest of the term. -/
def paddedTerm : TermBuffer :=
  { capacity := 1024
    frameLengthVolatile := fun o => if o = 0 then 40 else if o = 64 then 960 else 0
    isPaddingFrame := fun o => decide (o = 64)
    termIdAt := fun _ => 7 }

/-- An open image over `paddedTerm` whose subscriber position 3072 is at term offset 0 of
partition 0. -/
def paddedImage : Image :=
  { termBuffers := fun _ => paddedTerm, subscriberPosition := 3072, isClosed := false,
    sessionId := 1, termLengthMask := 1023, positionBitsToShift := 10 }

/-- A term of 1024 bytes holding a committed padding frame of length 64 at offset 0 and a
committed data frame of length 32 at offset 64, and nothing after them. -/
def paddingFirstTerm : TermBuffer :=
  { capacity := 1024
    frameLengthVolatile := fun o => if o = 0 then 64 else if o = 64 then 32 else 0
    isPaddingFrame := fun o => decide (o = 0)
    termIdAt := fun _ => 7 }

/-- An open image over `paddingFirstTerm` whose subscriber position 3072 is at term offset
0 of partition 0. -/
def paddingFirstImage : Image :=
  { termBuffers := fun _ => paddingFirstTerm, subscriberPosition := 3072, isClosed := false,
    sessionId := 1, termLengthMask := 1023, positionBitsToShift := 10 }

/-- Two images differ in the subscriber position at most: they have the same term
buffers, mask, shift, session id and closed flag. -/
def Image.SameLog (a b : Image) : Prop :=
  a.termBuffers = b.termBuffers ∧ a.termLengthMask = b.termLengthMask ∧
    a.positionBitsToShift = b.positionBitsToShift ∧ a.sessionId = b.sessionId ∧
    a.isClosed = b.isClosed

/-- A term of 1024 bytes with term id 8 holding three committed data frames of length 32 at
offsets 0, 32 and 64, and nothing after them. -/
def nextTerm : TermBuffer :=
  { capacity := 1024
    frameLengthVolatile := fun o => if o = 0 ∨ o = 32 ∨ o = 64 then 32 else 0
    isPaddingFrame := fun _ => false
    termIdAt := fun _ => 8 }

/-- A term of 1024 bytes with term id 9 in which nothing is committed. -/
def emptyTerm : TermBuffer :=
  { capacity := 1024
    frameLengthVolatile := fun _ => 0
    isPaddingFrame := fun _ => false
    termIdAt := fun _ => 9 }

/-- An open image whose partition 0 is `paddedTerm`, whose partition 1 is `nextTerm` and
whose partition 2 is `emptyTerm`; its subscriber position 3072 is at term offset 0 of
partition 0. -/
def rotatingImage : Image :=
  { termBuffers := fun i => if i = 0 then paddedTerm else if i = 1 then nextTerm else emptyTerm
    subscriberPosition := 3072, isClosed := false, sessionId := 1, termLengthMask := 1023,
    positionBitsToShift := 10 }

/-! ## The constructor of Image and sequences of calls -/

/-- The GCC builtin `__builtin_ctz` on an `unsigned int`: the number of trailing zero bits
of a non-zero value, found by testing the bits from the lowest one upwards. -/
def builtin_ctz_from : Nat → Nat → Nat → Nat
  | 0, bit, _ => bit
  | fuel + 1, bit, value =>
    if value % 2 = 1 then bit else builtin_ctz_from fuel (bit + 1) (value / 2)

/-- `BitUtil::numberOfTrailingZeroes` at `value_t = std::int32_t`, in its
`#if defined(__GNUC__)` branch: `__builtin_ctz(value)` on the bit pattern of the value. -/
def BitUtil.numberOfTrailingZeroes (value : Int) : Int :=
  (builtin_ctz_from 32 0 (toU32 value) : Nat)

/-- The constructor `Image::Image(sessionId, ..., subscriberPosition, logBuffers, ...)`:
the term buffers are the partitions of the log, the image is open, the mask is the
capacity of partition 0 minus one and the shift is the number of trailing zeroes of that
capacity.  `subscriberPosition` is the value the position counter holds. -/
def Image.construct (sessionId subscriberPosition : Int) (logBuffers : Nat → TermBuffer) :
    Image :=
  let capacity := (logBuffers 0).capacity
  { termBuffers := logBuffers
    subscriberPosition := subscriberPosition
    isClosed := false
    sessionId := sessionId
    termLengthMask := wrap32 (capacity - 1)
    positionBitsToShift := (BitUtil.numberOfTrailingZeroes capacity).toNat }

/-- A call of one of the public member functions of `Image` that the claims speak of,
with its arguments. -/
inductive ImageCall (σ : Type) where
  | close
  | position
  | poll (read : TermReaderRead σ) (handlerState : σ) (fragmentLimit : Int)
  | controlledPoll (fragmentHandler : controlled_poll_fragment_handler_t σ)
      (headerLength : Int) (handlerState : σ) (fragmentLimit : Int)
  | blockPoll (scan : TermBlockScan) (blockHandler : block_handler_t σ) (handlerState : σ)
      (blockLengthLimit : Int)

/-- The value a poll handed back to its caller: none when an exception left the call. -/
def PollResult.returned {σ : Type} (r : PollResult σ) : Option Int :=
  if r.escaped then none else some r.result

/-- The image after a call and the value the call returned (`none` for `close`, which
returns nothing, and for a poll that an exception left); `none` altogether only when a
controlled poll ran out of fuel. -/
def ImageCall.run {σ : Type} (img : Image) : ImageCall σ → Option (Image × Option Int)
  | ImageCall.close => some (img.close, none)
  | ImageCall.position => some (img, some img.position)
  | ImageCall.poll read hs limit =>
    some ((Image.poll read img hs limit).image, (Image.poll read img hs limit).returned)
  | ImageCall.controlledPoll h hdr hs limit =>
    (Image.controlledPoll h hdr img hs limit).map (fun r => (r.image, r.returned))
  | ImageCall.blockPoll scan bh hs limit =>
    some ((Image.blockPoll scan bh img hs limit).image,
      (Image.blockPoll scan bh img hs limit).returned)

/-- A sequence of calls on an image, one after the other: the image after the last call
and the values returned, in order. -/
def runCalls {σ : Type} (img : Image) : List (ImageCall σ) → Option (Image × List (Option Int))
  | [] => some (img, [])
  | c :: cs =>
    match c.run img with
    | none => none
    | some (img1, v) =>
      match runCalls img1 cs with
      | none => none
      | some (img2, vs) => some (img2, v :: vs)

/-- What a call returns on a closed image: nothing for `close`, `IMAGE_CLOSED` for
`position` and for every poll. -/
def ImageCall.closedReturn {σ : Type} : ImageCall σ → Option Int
  | ImageCall.close => none
  | _ => some IMAGE_CLOSED

/-! ## CncFileDescriptor.h -/

/-- `BitUtil::CACHE_LINE_LENGTH`. -/
def BitUtil.CACHE_LINE_LENGTH : Nat := 64

/-- `BitUtil::align` at an unsigned `value_t` of the given number of bits (`size_t` has
64): `(value + (alignment - 1)) & ~(alignment - 1)`, every operation modulo `2 ^ bits`. -/
def BitUtil.alignUnsigned (bits value alignment : Nat) : Nat :=
  ((value + (alignment + 2 ^ bits - 1) % 2 ^ bits) % 2 ^ bits) &&&
    ((2 ^ bits - 1) ^^^ ((alignment + 2 ^ bits - 1) % 2 ^ bits))

/-- The size of a C++ struct of scalar members under `#pragma pack(pack)`: every member,
given by its size, which is also its natural alignment, is placed at the next multiple of
the smaller of its alignment and `pack`; the size of the struct is rounded up to the
largest alignment so used. -/
def packedSizeFrom (pack : Nat) : List Nat → Nat → Nat → Nat
  | [], offset, structAlign => (offset + structAlign - 1) / structAlign * structAlign
  | size :: rest, offset, structAlign =>
    let a := min size pack
    packedSizeFrom pack rest ((offset + a - 1) / a * a + size) (max structAlign a)

namespace CncFileDescriptor

/-- `struct MetaDataDefn`, declared under `#pragma pack(4)`. -/
structure MetaDataDefn where
  cncVersion : Int
  toDriverBufferLength : Int
  toClientsBufferLength : Int
  counterMetadataBufferLength : Int
  counterValuesBufferLength : Int
  clientLivenessTimeout : Int
  errorLogBufferLength : Int

/-- The sizes in bytes of the members of `MetaDataDefn`, in declaration order: five
`std::int32_t`, one `std::int64_t`, one `std::int32_t`. -/
def MetaDataDefn.memberSizes : List Nat := [4, 4, 4, 4, 4, 8, 4]

/-- `sizeof(MetaDataDefn)` under `#pragma pack(4)`. -/
def MetaDataDefn.sizeof : Nat := packedSizeFrom 4 MetaDataDefn.memberSizes 0 1

/-- `VERSION_AND_META_DATA_LENGTH`, a `size_t`. -/
def VERSION_AND_META_DATA_LENGTH : Nat :=
  BitUtil.alignUnsigned 64 MetaDataDefn.sizeof (BitUtil.CACHE_LINE_LENGTH * 2)

/-- A memory mapped CnC file as the descriptor reads it: the `MetaDataDefn` overlaid at
offset 0 of the mapping. -/
structure CncFile where
  metaData : MetaDataDefn

/-- An `AtomicBuffer` over part of the mapping: the offset of its first byte from
`getMemoryPtr()` and its capacity. -/
structure BufferView where
  offset : Int
  capacity : Int
  deriving DecidableEq, Repr

/-- `createToDriverBuffer`. -/
def createToDriverBuffer (cncFile : CncFile) : BufferView :=
  { offset := VERSION_AND_META_DATA_LENGTH
    capacity := cncFile.metaData.toDriverBufferLength }

/-- `createToClientsBuffer`. -/
def createToClientsBuffer (cncFile : CncFile) : BufferView :=
  { offset := VERSION_AND_META_DATA_LENGTH + cncFile.metaData.toDriverBufferLength
    capacity := cncFile.metaData.toClientsBufferLength }

/-- `createCounterMetadataBuffer`. -/
def createCounterMetadataBuffer (cncFile : CncFile) : BufferView :=
  { offset := VERSION_AND_META_DATA_LENGTH + cncFile.metaData.toDriverBufferLength +
      cncFile.metaData.toClientsBufferLength
    capacity := cncFile.metaData.counterMetadataBufferLength }

/-- `createCounterValuesBuffer`. -/
def createCounterValuesBuffer (cncFile : CncFile) : BufferView :=
  { offset := VERSION_AND_META_DATA_LENGTH + cncFile.metaData.toDriverBufferLength +
      cncFile.metaData.toClientsBufferLength + cncFile.metaData.counterMetadataBufferLength
    capacity := cncFile.metaData.counterValuesBufferLength }

/-- `createErrorLogBuffer`. -/
def createErrorLogBuffer (cncFile : CncFile) : BufferView :=
  { offset := VERSION_AND_META_DATA_LENGTH + cncFile.metaData.toDriverBufferLength +
      cncFile.metaData.toClientsBufferLength + cncFile.metaData.counterMetadataBufferLength +
      cncFile.metaData.counterValuesBufferLength
    capacity := cncFile.metaData.errorLogBufferLength }

/-- The bytes of a view do not meet the bytes of another one: one of the half-open ranges
ends before the other starts. -/
def BufferView.Disjoint (a b : BufferView) : Prop :=
  a.offset + a.capacity ≤ b.offset ∨ b.offset + b.capacity ≤ a.offset

/-- A CnC file with sub-buffers of 1024, 2048, 512, 256 and 128 bytes. -/
def exampleCncFile : CncFile :=
  { metaData :=
      { cncVersion := 5, toDriverBufferLength := 1024, toClientsBufferLength := 2048,
        counterMetadataBufferLength := 512, counterValuesBufferLength := 256,
        clientLivenessTimeout := 10000000000, errorLogBufferLength := 128 } }

end CncFileDescriptor

/-! ## DriverProxy.h -/

/-- The message type ids of `command/ControlProtocolEvents.h` that `DriverProxy` passes
to the ring. -/
inductive ControlProtocolEvents where
  | ADD_PUBLICATION
  | REMOVE_PUBLICATION
  | ADD_SUBSCRIPTION
  | REMOVE_SUBSCRIPTION
  | CLIENT_KEEPALIVE
  deriving DecidableEq, Repr

/-- What a filler of `writeCommandToDriver` sets in the scratch buffer: the flyweight it
lays over the buffer at offset 0 and the fields it sets through it.  The scratch buffer
has `COMMAND_BUFFER_LENGTH` bytes; `writeCommandToDriver` tells what becomes of a filler
whose flyweight reaches beyond them. -/
inductive CommandBuffer where
  | publicationMessage (clientId correlationId streamId : Int) (channel : String)
  | removeMessage (clientId correlationId registrationId : Int)
  | subscriptionMessage (clientId registrationCorrelationId correlationId streamId : Int)
      (channel : String)
  | correlatedMessage (clientId correlationId : Int)
  deriving DecidableEq, Repr

/-- Modelled from the spec: `CORRELATED_MESSAGE_LENGTH`, declared in
`command/CorrelatedMessageFlyweight.h`; the spec gives the common header as
`[clientId: i64 | correlationId: i64]`. -/
def CORRELATED_MESSAGE_LENGTH : Int := 16

/-- Modelled from the spec: the `length()` of the flyweight laid over the buffer, declared
in the headers of `command/`; the spec appends `streamId: i32 | channelLength: i32 |
channelBytes` to the common header for an add, `registrationId: i64` for a remove, and a
further `registrationCorrelationId: i64` for a subscription add. -/
def CommandBuffer.length : CommandBuffer → Int
  | CommandBuffer.publicationMessage _ _ _ channel =>
    CORRELATED_MESSAGE_LENGTH + 4 + 4 + channel.utf8ByteSize
  | CommandBuffer.removeMessage _ _ _ => CORRELATED_MESSAGE_LENGTH + 8
  | CommandBuffer.subscriptionMessage _ _ _ _ channel =>
    CORRELATED_MESSAGE_LENGTH + 8 + 4 + 4 + channel.utf8ByteSize
  | CommandBuffer.correlatedMessage _ _ => CORRELATED_MESSAGE_LENGTH

/-- The size of the scratch buffer of `writeCommandToDriver`:
`typedef std::array<std::uint8_t, 512> driver_proxy_command_buffer_t`. -/
def DriverProxy.COMMAND_BUFFER_LENGTH : Int := 512

/-- The two operations of `ManyToOneRingBuffer` (declared in
`concurrent/ringbuffer/ManyToOneRingBuffer.h`) that `DriverProxy` calls, over a ring whose
state has type `ρ`: `nextCorrelationId()` and
`write(msgTypeId, srcBuffer, srcIndex, length)`. -/
structure ManyToOneRingBuffer (ρ : Type) where
  nextCorrelationId : ρ → Int × ρ
  write : ρ → ControlProtocolEvents → CommandBuffer → Int → Int → Bool × ρ

/-- A call `DriverProxy` made on the ring, with what it returned. -/
inductive RingCall where
  | nextCorrelationId (result : Int)
  | write (msgTypeId : ControlProtocolEvents) (buffer : CommandBuffer)
      (srcIndex length : Int) (result : Bool)
  deriving DecidableEq, Repr

/-- The ways a command to the driver is said to fail: `IllegalStateException` is the
`util::IllegalStateException` that `writeCommandToDriver` throws; `OutOfBoundsException`
is the failure of the bounds check of the `AtomicBuffer` laid over the scratch buffer when
a filler writes beyond its end (`AtomicBuffer` is declared in `concurrent/AtomicBuffer.h`,
which is not part of the sources; the specification says of it that all accesses
bounds-check); `BACK_PRESSURED` is the failure the specification names, which no
statement of `DriverProxy.h` produces. -/
inductive CommandFailure where
  | IllegalStateException
  | OutOfBoundsException
  | BACK_PRESSURED
  deriving DecidableEq, Repr

/-- How a call on the proxy ends: it returns a value or it throws. -/
inductive CommandOutcome (α : Type) where
  | returns (value : α)
  | throws (failure : CommandFailure)
  deriving DecidableEq, Repr

/-- What a call on the proxy leaves behind: how it ended, the ring, and the calls it made
on the ring, in program order. -/
structure CommandResult (ρ α : Type) where
  outcome : CommandOutcome α
  ring : ρ
  calls : List RingCall

/-- The field of `class DriverProxy` besides the reference to the ring: `m_clientId`. -/
structure DriverProxy where
  clientId : Int
  deriving DecidableEq, Repr

namespace DriverProxy

/-- The constructor of `DriverProxy`: `m_clientId(toDriverCommandBuffer.nextCorrelationId())`. -/
def construct {ρ : Type} (toDriverCommandBuffer : ManyToOneRingBuffer ρ) (ring : ρ) :
    DriverProxy × ρ :=
  let drawn := toDriverCommandBuffer.nextCorrelationId ring
  ({ clientId := drawn.1 }, drawn.2)

/-- `DriverProxy::writeCommandToDriver`, given what the filler sets in the scratch buffer,
the length it sets and the message type id it returns.  The filler runs first, on a
buffer of `COMMAND_BUFFER_LENGTH` bytes: when the flyweight with the fields it sets is
longer than that, the bounds check of the buffer fails inside the filler, and the
exception leaves `writeCommandToDriver` before `write` is called. -/
def writeCommandToDriver {ρ : Type} (toDriverCommandBuffer : ManyToOneRingBuffer ρ) (ring : ρ)
    (msgTypeId : ControlProtocolEvents) (buffer : CommandBuffer) (length : Int) :
    CommandResult ρ Unit :=
  let written := toDriverCommandBuffer.write ring msgTypeId buffer 0 length
  if COMMAND_BUFFER_LENGTH < buffer.length then
    { outcome := CommandOutcome.throws CommandFailure.OutOfBoundsException
      ring := ring
      calls := [] }
  else if !written.1 then
    { outcome := CommandOutcome.throws CommandFailure.IllegalStateException
      ring := written.2
      calls := [RingCall.write msgTypeId buffer 0 length written.1] }
  else
    { outcome := CommandOutcome.returns ()
      ring := written.2
      calls := [RingCall.write msgTypeId buffer 0 length written.1] }

/-- `DriverProxy::addPublication`. -/
def addPublication {ρ : Type} (toDriverCommandBuffer : ManyToOneRingBuffer ρ)
    (proxy : DriverProxy) (ring : ρ) (channel : String) (streamId : Int) : CommandResult ρ Int :=
  let drawn := toDriverCommandBuffer.nextCorrelationId ring
  let correlationId := drawn.1
  let buffer := CommandBuffer.publicationMessage proxy.clientId correlationId streamId channel
  let written := writeCommandToDriver toDriverCommandBuffer drawn.2
    ControlProtocolEvents.ADD_PUBLICATION buffer buffer.length
  match written.outcome with
  | CommandOutcome.throws failure =>
    { outcome := CommandOutcome.throws failure, ring := written.ring,
      calls := RingCall.nextCorrelationId correlationId :: written.calls }
  | CommandOutcome.returns _ =>
    { outcome := CommandOutcome.returns correlationId, ring := written.ring,
      calls := RingCall.nextCorrelationId correlationId :: written.calls }

/-- `DriverProxy::removePublication`. -/
def removePublication {ρ : Type} (toDriverCommandBuffer : ManyToOneRingBuffer ρ)
    (proxy : DriverProxy) (ring : ρ) (registrationId : Int) : CommandResult ρ Int :=
  let drawn := toDriverCommandBuffer.nextCorrelationId ring
  let correlationId := drawn.1
  let buffer := CommandBuffer.removeMessage proxy.clientId correlationId registrationId
  let written := writeCommandToDriver toDriverCommandBuffer drawn.2
    ControlProtocolEvents.REMOVE_PUBLICATION buffer buffer.length
  match written.outcome with
  | CommandOutcome.throws failure =>
    { outcome := CommandOutcome.throws failure, ring := written.ring,
      calls := RingCall.nextCorrelationId correlationId :: written.calls }
  | CommandOutcome.returns _ =>
    { outcome := CommandOutcome.returns correlationId, ring := written.ring,
      calls := RingCall.nextCorrelationId correlationId :: written.calls }

/-- `DriverProxy::addSubscription`. -/
def addSubscription {ρ : Type} (toDriverCommandBuffer : ManyToOneRingBuffer ρ)
    (proxy : DriverProxy) (ring : ρ) (channel : String) (streamId : Int) : CommandResult ρ Int :=
  let drawn := toDriverCommandBuffer.nextCorrelationId ring
  let correlationId := drawn.1
  let buffer := CommandBuffer.subscriptionMessage proxy.clientId (-1) correlationId streamId channel
  let written := writeCommandToDriver toDriverCommandBuffer drawn.2
    ControlProtocolEvents.ADD_SUBSCRIPTION buffer buffer.length
  match written.outcome with
  | CommandOutcome.throws failure =>
    { outcome := CommandOutcome.throws failure, ring := written.ring,
      calls := RingCall.nextCorrelationId correlationId :: written.calls }
  | CommandOutcome.returns _ =>
    { outcome := CommandOutcome.returns correlationId, ring := written.ring,
      calls := RingCall.nextCorrelationId correlationId :: written.calls }

/-- `DriverProxy::removeSubscription`. -/
def removeSubscription {ρ : Type} (toDriverCommandBuffer : ManyToOneRingBuffer ρ)
    (proxy : DriverProxy) (ring : ρ) (registrationId : Int) : CommandResult ρ Int :=
  let drawn := toDriverCommandBuffer.nextCorrelationId ring
  let correlationId := drawn.1
  let buffer := CommandBuffer.removeMessage proxy.clientId correlationId registrationId
  let written := writeCommandToDriver toDriverCommandBuffer drawn.2
    ControlProtocolEvents.REMOVE_SUBSCRIPTION buffer buffer.length
  match written.outcome with
  | CommandOutcome.throws failure =>
    { outcome := CommandOutcome.throws failure, ring := written.ring,
      calls := RingCall.nextCorrelationId correlationId :: written.calls }
  | CommandOutcome.returns _ =>
    { outcome := CommandOutcome.returns correlationId, ring := written.ring,
      calls := RingCall.nextCorrelationId correlationId :: written.calls }

/-- `DriverProxy::sendClientKeepalive`. -/
def sendClientKeepalive {ρ : Type} (toDriverCommandBuffer : ManyToOneRingBuffer ρ)
    (proxy : DriverProxy) (ring : ρ) : CommandResult ρ Unit :=
  writeCommandToDriver toDriverCommandBuffer ring ControlProtocolEvents.CLIENT_KEEPALIVE
    (CommandBuffer.correlatedMessage proxy.clientId 0) CORRELATED_MESSAGE_LENGTH

end DriverProxy

/-- A call of one of the four commands of `DriverProxy` that return a correlation id, with
its arguments. -/
inductive DriverCommand where
  | addPublication (channel : String) (streamId : Int)
  | removePublication (registrationId : Int)
  | addSubscription (channel : String) (streamId : Int)
  | removeSubscription (registrationId : Int)
  deriving DecidableEq, Repr

/-- The message type id a command is to be written with. -/
def DriverCommand.msgTypeId : DriverCommand → ControlProtocolEvents
  | DriverCommand.addPublication _ _ => ControlProtocolEvents.ADD_PUBLICATION
  | DriverCommand.removePublication _ => ControlProtocolEvents.REMOVE_PUBLICATION
  | DriverCommand.addSubscription _ _ => ControlProtocolEvents.ADD_SUBSCRIPTION
  | DriverCommand.removeSubscription _ => ControlProtocolEvents.REMOVE_SUBSCRIPTION

/-- The record a command is to write for a client id and a correlation id: the caller's
arguments behind the two ids, and -1 as the registration correlation id of a subscription
add. -/
def DriverCommand.record (clientId correlationId : Int) : DriverCommand → CommandBuffer
  | DriverCommand.addPublication channel streamId =>
    CommandBuffer.publicationMessage clientId correlationId streamId channel
  | DriverCommand.removePublication registrationId =>
    CommandBuffer.removeMessage clientId correlationId registrationId
  | DriverCommand.addSubscription channel streamId =>
    CommandBuffer.subscriptionMessage clientId (-1) correlationId streamId channel
  | DriverCommand.removeSubscription registrationId =>
    CommandBuffer.removeMessage clientId correlationId registrationId

/-- The call of the member function of `DriverProxy` a command names. -/
def DriverCommand.run {ρ : Type} (toDriverCommandBuffer : ManyToOneRingBuffer ρ)
    (proxy : DriverProxy) (ring : ρ) : DriverCommand → CommandResult ρ Int
  | DriverCommand.addPublication channel streamId =>
    DriverProxy.addPublication toDriverCommandBuffer proxy ring channel streamId
  | DriverCommand.removePublication registrationId =>
    DriverProxy.removePublication toDriverCommandBuffer proxy ring registrationId
  | DriverCommand.addSubscription channel streamId =>
    DriverProxy.addSubscription toDriverCommandBuffer proxy ring channel streamId
  | DriverCommand.removeSubscription registrationId =>
    DriverProxy.removeSubscription toDriverCommandBuffer proxy ring registrationId

/-- Successive commands on one proxy, each on the ring the one before left, whether it
returned or threw: the results in order. -/
def runCommands {ρ : Type} (toDriverCommandBuffer : ManyToOneRingBuffer ρ)
    (proxy : DriverProxy) : ρ → List DriverCommand → List (CommandResult ρ Int)
  | _, [] => []
  | ring, command :: rest =>
    let result := command.run toDriverCommandBuffer proxy ring
    result :: runCommands toDriverCommandBuffer proxy result.ring rest

/-- The correlation ids returned by the commands that returned, in order. -/
def returnedIds {ρ : Type} : List (CommandResult ρ Int) → List Int
  | [] => []
  | result :: rest =>
    match result.outcome with
    | CommandOutcome.returns correlationId => correlationId :: returnedIds rest
    | CommandOutcome.throws _ => returnedIds rest

/-- The records a call wrote: the buffers of its `write` calls that returned true, with
their message type ids and lengths. -/
def recordsWritten : List RingCall → List (ControlProtocolEvents × CommandBuffer × Int)
  | [] => []
  | RingCall.write msgTypeId buffer _ length true :: rest =>
    (msgTypeId, buffer, length) :: recordsWritten rest
  | _ :: rest => recordsWritten rest

/-- The correlation ids a call drew from the ring. -/
def idsDrawn : List RingCall → List Int
  | [] => []
  | RingCall.nextCorrelationId result :: rest => result :: idsDrawn rest
  | _ :: rest => idsDrawn rest

/-- The operation `nextCorrelationId()` is a strict increment of a counter that `write`
leaves alone: the id handed out is at least the counter and below the counter after the
call. -/
def StrictIncrement {ρ : Type} (toDriverCommandBuffer : ManyToOneRingBuffer ρ)
    (counter : ρ → Int) : Prop :=
  (∀ ring, counter ring ≤ (toDriverCommandBuffer.nextCorrelationId ring).1 ∧
    (toDriverCommandBuffer.nextCorrelationId ring).1 <
      counter (toDriverCommandBuffer.nextCorrelationId ring).2) ∧
  ∀ ring msgTypeId buffer srcIndex length,
    counter (toDriverCommandBuffer.write ring msgTypeId buffer srcIndex length).2 = counter ring

/-- A ring for the examples: the correlation counter, the number of records there is room
for, and the records written. -/
structure ExampleRing where
  counter : Int
  room : Nat
  records : List (ControlProtocolEvents × CommandBuffer)
  deriving DecidableEq, Repr

/-- The operations on the example ring: `nextCorrelationId()` hands out the counter and
adds one to it; `write` appends the record and returns true while there is room, and
returns false without a change when there is none. -/
def exampleRingBuffer : ManyToOneRingBuffer ExampleRing :=
  { nextCorrelationId := fun ring => (ring.counter, { ring with counter := ring.counter + 1 })
    write := fun ring msgTypeId buffer _ _ =>
      match ring.room with
      | 0 => (false, ring)
      | room + 1 =>
        (true, { ring with room := room, records := ring.records ++ [(msgTypeId, buffer)] }) }

/-- An example ring with its counter at 100 and room for two records. -/
def exampleRing : ExampleRing := { counter := 100, room := 2, records := [] }

/-- An example ring with its counter at 100 and no room. -/
def fullRing : ExampleRing := { counter := 100, room := 0, records := [] }

/-- The channel of the examples. -/
def exampleChannel : String := "aeron:ipc"

/-- A channel of 489 bytes: with the 24 bytes before the channel bytes of a publication
message it makes a record of 513 bytes. -/
def longChannel : String := String.mk (List.replicate 489 'a')

/-! ## concurrent/AgentRunner.h -/

/-- What a call of a collaborator of `AgentRunner` does: it returns a value or it throws
an exception. -/
inductive AgentInvocation (ε α : Type) where
  | returns (value : α)
  | throws (exception : ε)
  deriving DecidableEq, Repr

/-- The collaborators `AgentRunner` is constructed over, as functions on the state `σ`
they share, with exceptions of type `ε`: `m_agent.doWork()`,
`m_idleStrategy.idle(workCount)` and `m_exceptionHandler(exception)`; and whether an
exception is a `util::SourcedException`, the class the `catch` clause of `run` names. -/
structure AgentRunner (σ ε : Type) where
  doWork : σ → AgentInvocation ε Int × σ
  idle : σ → Int → AgentInvocation ε Unit × σ
  exceptionHandler : σ → ε → AgentInvocation ε Unit × σ
  isSourcedException : ε → Bool

/-- The calls `AgentRunner::run` makes on its collaborators. -/
inductive AgentEvent (ε : Type) where
  | doWork
  | idle (workCount : Int)
  | exceptionHandler (exception : ε)
  deriving DecidableEq, Repr

/-- How `AgentRunner::run` stands after the reads of `m_running` it was given: it has
returned because `m_running` read false, an exception has left it, or it is still in its
loop. -/
inductive RunEnding (ε : Type) where
  | returned
  | threw (exception : ε)
  | looping
  deriving DecidableEq, Repr

/-- What a run leaves behind: the state of the collaborators, the calls made on them in
program order, and how the run stands. -/
structure RunResult (σ ε : Type) where
  state : σ
  events : List (AgentEvent ε)
  ending : RunEnding ε

namespace AgentRunner

/-- The `catch (util::SourcedException &exception)` clause of `run` for an exception
thrown in the `try` block after the given calls: a sourced exception is handed to the
exception handler, any other exception leaves `run`, as does an exception the handler
throws.  `none` means the body of the loop has ended normally. -/
def catchClause {σ ε : Type} (runner : AgentRunner σ ε) (exception : ε) (state : σ)
    (events : List (AgentEvent ε)) : Option ε × σ × List (AgentEvent ε) :=
  if runner.isSourcedException exception then
    match runner.exceptionHandler state exception with
    | (AgentInvocation.returns _, s1) =>
      (none, s1, events ++ [AgentEvent.exceptionHandler exception])
    | (AgentInvocation.throws thrown, s1) =>
      (some thrown, s1, events ++ [AgentEvent.exceptionHandler exception])
  else
    (some exception, state, events)

/-- The body of the `while (m_running)` loop of `AgentRunner::run`: the `try` block and
its `catch` clause.  The first component is the exception that leaves `run`, if any. -/
def iteration {σ ε : Type} (runner : AgentRunner σ ε) (state : σ) :
    Option ε × σ × List (AgentEvent ε) :=
  match runner.doWork state with
  | (AgentInvocation.returns workCount, s1) =>
    match runner.idle s1 workCount with
    | (AgentInvocation.returns _, s2) =>
      (none, s2, [AgentEvent.doWork, AgentEvent.idle workCount])
    | (AgentInvocation.throws exception, s2) =>
      catchClause runner exception s2 [AgentEvent.doWork, AgentEvent.idle workCount]
  | (AgentInvocation.throws exception, s1) =>
    catchClause runner exception s1 [AgentEvent.doWork]

/-- `AgentRunner::run`, given the values the loop condition reads from `m_running`, one
per evaluation. -/
def run {σ ε : Type} (runner : AgentRunner σ ε) : List Bool → σ → RunResult σ ε
  | [], state => { state := state, events := [], ending := RunEnding.looping }
  | false :: _, state => { state := state, events := [], ending := RunEnding.returned }
  | true :: rest, state =>
    match iteration runner state with
    | (some exception, s1, events) =>
      { state := s1, events := events, ending := RunEnding.threw exception }
    | (none, s1, events) =>
      let later := run runner rest s1
      { state := later.state, events := events ++ later.events, ending := later.ending }

end AgentRunner

/-- The exceptions of the example agent: one derived from `util::SourcedException` and one
that is not. -/
inductive ExampleException where
  | sourced
  | other
  deriving DecidableEq, Repr

/-- An example runner over a count of the calls of `doWork`: the first call of `doWork`
throws the given exception and every later call returns the work count 5; `idle` and the
exception handler return. -/
def exampleRunner (first : ExampleException) : AgentRunner Nat ExampleException :=
  { doWork := fun calls =>
      if calls = 0 then (AgentInvocation.throws first, calls + 1)
      else (AgentInvocation.returns 5, calls + 1)
    idle := fun calls _ => (AgentInvocation.returns (), calls)
    exceptionHandler := fun calls _ => (AgentInvocation.returns (), calls)
    isSourcedException := fun exception => decide (exception = ExampleException.sourced) }

/-! ## DataPacketDispatcher.h -/

/-- A `std::unordered_map`, as the list of its entries, at most one per key. -/
structure UnorderedMap (κ ν : Type) where
  entries : List (κ × ν)
  deriving DecidableEq, Repr

namespace UnorderedMap

/-- The value stored under a key in a list of entries. -/
def findIn {κ ν : Type} [DecidableEq κ] : List (κ × ν) → κ → Option ν
  | [], _ => none
  | (k, v) :: rest, key => if k = key then some v else findIn rest key

/-- The map without entries. -/
def empty {κ ν : Type} : UnorderedMap κ ν := { entries := [] }

/-- The value `find(key)` points at; `none` stands for `end()`. -/
def find {κ ν : Type} [DecidableEq κ] (m : UnorderedMap κ ν) (key : κ) : Option ν :=
  findIn m.entries key

/-- The map after `erase(key)`. -/
def erase {κ ν : Type} [DecidableEq κ] (m : UnorderedMap κ ν) (key : κ) : UnorderedMap κ ν :=
  { entries := m.entries.filter (fun e => decide (e.1 ≠ key)) }

/-- The map after the assignment `m[key] = value`. -/
def set {κ ν : Type} [DecidableEq κ] (m : UnorderedMap κ ν) (key : κ) (value : ν) :
    UnorderedMap κ ν :=
  { entries := (key, value) :: (m.erase key).entries }

end UnorderedMap

/-- The enumeration `SessionStatus`. -/
inductive SessionStatus where
  | PENDING_SETUP_FRAME
  | INIT_IN_PROGRESS
  | ON_COOL_DOWN
  deriving DecidableEq, Repr

/-- The function `isNotAlreadyInProgressOrOnCoolDown`. -/
def isNotAlreadyInProgressOrOnCoolDown (ignoredSessions : UnorderedMap (Int × Int) SessionStatus)
    (sessionId streamId : Int) : Bool :=
  match ignoredSessions.find (sessionId, streamId) with
  | none => true
  | some status =>
    decide (status ≠ SessionStatus.INIT_IN_PROGRESS) && decide (status ≠ SessionStatus.ON_COOL_DOWN)

/-- A `PublicationImage::ptr_t` as the dispatcher sees it: which image it points at, and
the `sessionId()` and `streamId()` of that image. -/
structure PublicationImage where
  id : Nat
  sessionId : Int
  streamId : Int
  deriving DecidableEq, Repr

/-- The values of `PublicationImageStatus` that `DataPacketDispatcher.h` names: the one it
sets, and the one `ifActiveGoInactive` names. -/
inductive PublicationImageStatus where
  | ACTIVE
  | INACTIVE
  deriving DecidableEq, Repr

/-- The calls the dispatcher makes on a `PublicationImage` to change its status. -/
inductive PublicationImageCall where
  | status (image : PublicationImage) (status : PublicationImageStatus)
  | ifActiveGoInactive (image : PublicationImage)
  deriving DecidableEq, Repr

/-- A `ReceiveChannelEndpoint` as the dispatcher reads it: `isMulticast()` and
`udpChannel().remoteControl()`; `α` is the type of addresses. -/
structure ReceiveChannelEndpoint (α : Type) where
  isMulticast : Bool
  remoteControl : α
  deriving DecidableEq, Repr

/-- The fields of a `DataHeaderFlyweight` that the dispatcher reads. -/
structure DataHeaderFlyweight where
  streamId : Int
  sessionId : Int
  termId : Int
  termOffset : Int
  deriving DecidableEq, Repr

/-- The fields of a `SetupFlyweight` that the dispatcher reads. -/
structure SetupFlyweight where
  streamId : Int
  sessionId : Int
  initialTermId : Int
  actionTermId : Int
  termOffset : Int
  termLength : Int
  mtu : Int
  deriving DecidableEq, Repr

/-- The calls `onDataPacket` and `onSetupMessage` make on their collaborators:
`PublicationImage::insertPacket` (on the caller's buffer),
`ReceiveChannelEndpoint::sendSetupElicitingStatusMessage`,
`Receiver::addPendingSetupMessage` and `DriverConductorProxy::createPublicationImage`. -/
inductive DispatcherEffect (α : Type) where
  | insertPacket (image : PublicationImage) (termId termOffset length : Int)
  | sendSetupElicitingStatusMessage (controlAddress : α) (sessionId streamId : Int)
  | addPendingSetupMessage (sessionId streamId : Int)
      (channelEndpoint : ReceiveChannelEndpoint α)
  | createPublicationImage (sessionId streamId initialTermId activeTermId termOffset
      termLength mtu : Int) (controlAddress srcAddress : α)
      (channelEndpoint : ReceiveChannelEndpoint α)
  deriving DecidableEq, Repr

/-- The two tables of `class DataPacketDispatcher`: `m_ignoredSessions`, keyed by
`(sessionId, streamId)`, and `m_sessionsByStreamId`. -/
structure DataPacketDispatcher where
  ignoredSessions : UnorderedMap (Int × Int) SessionStatus
  sessionsByStreamId : UnorderedMap Int (UnorderedMap Int PublicationImage)
  deriving DecidableEq, Repr

/-- What a call of `onDataPacket` or `onSetupMessage` leaves behind: the returned value,
the dispatcher and the calls made on the collaborators, in program order. -/
structure DispatchResult (α ρ : Type) where
  result : ρ
  dispatcher : DataPacketDispatcher
  effects : List (DispatcherEffect α)
  deriving DecidableEq, Repr

/-- How a call that changes the subscriptions or the images ends: it returns, or it throws
`UnknownSubscriptionException` for a stream. -/
inductive DispatchOutcome where
  | returned
  | UnknownSubscriptionException (streamId : Int)
  deriving DecidableEq, Repr

/-- What `removeSubscription`, `addPublicationImage` or `removePublicationImage` leaves
behind: how it ended, the dispatcher and the calls made on images, in program order. -/
structure ImageChange where
  outcome : DispatchOutcome
  dispatcher : DataPacketDispatcher
  calls : List PublicationImageCall
  deriving DecidableEq, Repr

namespace DataPacketDispatcher

/-- The dispatcher as constructed: both tables empty. -/
def construct : DataPacketDispatcher :=
  { ignoredSessions := UnorderedMap.empty, sessionsByStreamId := UnorderedMap.empty }

/-- The image `onDataPacket` finds for a session of a stream, if any: the entry of the
session in the map of the stream. -/
def activeImage (d : DataPacketDispatcher) (sessionId streamId : Int) :
    Option PublicationImage :=
  match d.sessionsByStreamId.find streamId with
  | none => none
  | some sessions => sessions.find sessionId

/-- `DataPacketDispatcher::onDataPacket`, over the `PublicationImage::insertPacket` it is
linked with; `β` is the type of the buffer handed on. -/
def onDataPacket {α β : Type} (insertPacket : PublicationImage → Int → Int → β → Int → Int)
    (d : DataPacketDispatcher) (channelEndpoint : ReceiveChannelEndpoint α)
    (header : DataHeaderFlyweight) (atomicBuffer : β) (length : Int) (srcAddress : α) :
    DispatchResult α Int :=
  let streamId := header.streamId
  match d.sessionsByStreamId.find streamId with
  | some sessions =>
    let sessionId := header.sessionId
    match sessions.find sessionId with
    | some image =>
      let termId := header.termId
      { result := insertPacket image termId header.termOffset atomicBuffer length
        dispatcher := d
        effects := [DispatcherEffect.insertPacket image termId header.termOffset length] }
    | none =>
      if d.ignoredSessions.find (sessionId, streamId) = none then
        let controlAddress :=
          if channelEndpoint.isMulticast then channelEndpoint.remoteControl else srcAddress
        { result := 0
          dispatcher :=
            { d with ignoredSessions :=
                d.ignoredSessions.set (sessionId, streamId) SessionStatus.PENDING_SETUP_FRAME }
          effects :=
            [DispatcherEffect.sendSetupElicitingStatusMessage controlAddress sessionId streamId,
              DispatcherEffect.addPendingSetupMessage sessionId streamId channelEndpoint] }
      else
        { result := 0, dispatcher := d, effects := [] }
  | none => { result := 0, dispatcher := d, effects := [] }

/-- `DataPacketDispatcher::onSetupMessage`. -/
def onSetupMessage {α β : Type} (d : DataPacketDispatcher)
    (channelEndpoint : ReceiveChannelEndpoint α) (header : SetupFlyweight) (_atomicBuffer : β)
    (srcAddress : α) : DispatchResult α Unit :=
  let streamId := header.streamId
  match d.sessionsByStreamId.find streamId with
  | some sessions =>
    let sessionId := header.sessionId
    let initialTermId := header.initialTermId
    let activeTermId := header.actionTermId
    if sessions.find sessionId = none ∧
        isNotAlreadyInProgressOrOnCoolDown d.ignoredSessions sessionId streamId = true then
      let controlAddress :=
        if channelEndpoint.isMulticast then channelEndpoint.remoteControl else srcAddress
      { result := ()
        dispatcher :=
          { d with ignoredSessions :=
              d.ignoredSessions.set (sessionId, streamId) SessionStatus.INIT_IN_PROGRESS }
        effects :=
          [DispatcherEffect.createPublicationImage sessionId streamId initialTermId
            activeTermId header.termOffset header.termLength header.mtu controlAddress
            srcAddress channelEndpoint] }
    else
      { result := (), dispatcher := d, effects := [] }
  | none => { result := (), dispatcher := d, effects := [] }

/-- `DataPacketDispatcher::addSubscription`. -/
def addSubscription (d : DataPacketDispatcher) (streamId : Int) : DataPacketDispatcher :=
  if d.sessionsByStreamId.find streamId = none then
    { d with sessionsByStreamId := d.sessionsByStreamId.set streamId UnorderedMap.empty }
  else
    d

/-- `DataPacketDispatcher::removeSubscription`. -/
def removeSubscription (d : DataPacketDispatcher) (streamId : Int) : ImageChange :=
  match d.sessionsByStreamId.find streamId with
  | none =>
    { outcome := DispatchOutcome.UnknownSubscriptionException streamId, dispatcher := d,
      calls := [] }
  | some allSessionForStream =>
    { outcome := DispatchOutcome.returned
      dispatcher := d
      calls := allSessionForStream.entries.map
        (fun e => PublicationImageCall.ifActiveGoInactive e.2) }

/-- `DataPacketDispatcher::addPublicationImage`. -/
def addPublicationImage (d : DataPacketDispatcher) (image : PublicationImage) : ImageChange :=
  let streamId := image.streamId
  let sessionId := image.sessionId
  match d.sessionsByStreamId.find streamId with
  | none =>
    { outcome := DispatchOutcome.UnknownSubscriptionException streamId, dispatcher := d,
      calls := [] }
  | some sessions =>
    { outcome := DispatchOutcome.returned
      dispatcher :=
        { ignoredSessions := d.ignoredSessions.erase (sessionId, streamId)
          sessionsByStreamId := d.sessionsByStreamId.set streamId (sessions.set sessionId image) }
      calls := [PublicationImageCall.status image PublicationImageStatus.ACTIVE] }

/-- `DataPacketDispatcher::removePublicationImage`. -/
def removePublicationImage (d : DataPacketDispatcher) (image : PublicationImage) :
    ImageChange :=
  let streamId := image.streamId
  let sessionId := image.sessionId
  let d1 : DataPacketDispatcher :=
    match d.sessionsByStreamId.find streamId with
    | some sessions =>
      { ignoredSessions := d.ignoredSessions.erase (sessionId, streamId)
        sessionsByStreamId := d.sessionsByStreamId.set streamId (sessions.erase sessionId) }
    | none => d
  { outcome := DispatchOutcome.returned
    dispatcher :=
      { d1 with ignoredSessions :=
          d1.ignoredSessions.set (sessionId, streamId) SessionStatus.ON_COOL_DOWN }
    calls := [PublicationImageCall.ifActiveGoInactive image] }

end DataPacketDispatcher

/-- An example endpoint that is not multicast; its addresses are numbers. -/
def exampleEndpoint : ReceiveChannelEndpoint Nat := { isMulticast := false, remoteControl := 9 }

/-- An example data header for session 5 of stream 10. -/
def exampleDataHeader : DataHeaderFlyweight :=
  { streamId := 10, sessionId := 5, termId := 3, termOffset := 64 }

/-- An example setup header for session 5 of stream 10. -/
def exampleSetupHeader : SetupFlyweight :=
  { streamId := 10, sessionId := 5, initialTermId := 3, actionTermId := 3, termOffset := 0,
    termLength := 65536, mtu := 4096 }

/-- An example image of session 5 of stream 10. -/
def exampleImage : PublicationImage := { id := 1, sessionId := 5, streamId := 10 }

/-- An example `insertPacket` that returns the length it was given. -/
def exampleInsertPacket : PublicationImage → Int → Int → Unit → Int → Int :=
  fun _ _ _ _ length => length

/-- An example dispatcher: the one constructed, with a subscription to stream 10. -/
def exampleDispatcher : DataPacketDispatcher :=
  DataPacketDispatcher.construct.addSubscription 10

/-! ## More of BitUtil.h -/

/-- `BitUtil::isPowerOfTwo` at `value_t = std::int32_t`:
`value > 0 && ((value & (~value + 1)) == value)`; the right operand of `&&` is evaluated
only when the left one holds. -/
def BitUtil.isPowerOfTwo (value : Int) : Bool :=
  decide (value > 0) && decide (and32 value (wrap32 (not32 value + 1)) = value)

/-- The table of `BitUtil::fastMod3`: `static char table[62]`. -/
def BitUtil.fastMod3Table : List Nat :=
  [0, 1, 2, 0, 1, 2, 0, 1, 2, 0, 1, 2,
    0, 1, 2, 0, 1, 2, 0, 1, 2, 0, 1, 2, 0, 1, 2, 0, 1, 2, 0, 1, 2,
    0, 1, 2, 0, 1, 2, 0, 1, 2, 0, 1, 2, 0, 1, 2, 0, 1, 2, 0, 1, 2,
    0, 1, 2, 0, 1, 2, 0, 1]

/-- The index at which `BitUtil::fastMod3` reads its table, at `value_t = std::uint32_t`:
the value after the three folding steps
`value = (value >> 16) + (value & 0xFFFF)`, `value = (value >> 8) + (value & 0x00FF)` and
`value = (value >> 4) + (value & 0x000F)`, each sum modulo `2 ^ 32`. -/
def BitUtil.fastMod3Index (value : Nat) : Nat :=
  let value1 := ((value >>> 16) + (value &&& 0xFFFF)) % 4294967296
  let value2 := ((value1 >>> 8) + (value1 &&& 0x00FF)) % 4294967296
  ((value2 >>> 4) + (value2 &&& 0x000F)) % 4294967296

/-- `BitUtil::fastMod3` at `value_t = std::uint32_t`: `table[value]` after the folding
steps; `none` stands for a read outside the table. -/
def BitUtil.fastMod3 (value : Nat) : Option Nat :=
  BitUtil.fastMod3Table[BitUtil.fastMod3Index value]?

/-- The table of the branch of `BitUtil::numberOfTrailingZeroes` that does not use the
builtin: `static char table[32]`. -/
def BitUtil.numberOfTrailingZeroesTable : List Nat :=
  [0, 1, 2, 24, 3, 19, 6, 25,
    22, 4, 20, 10, 16, 7, 12, 26,
    31, 23, 18, 5, 21, 9, 15, 11,
    30, 17, 8, 14, 29, 13, 28, 27]

/-- `BitUtil::numberOfTrailingZeroes` at `value_t = std::uint32_t`, in its `#else` branch:
32 for the value 0, and otherwise `table[value >> 27]` after
`value = (value & -value) * 0x04D7651F`, negation and product modulo `2 ^ 32`; `none`
stands for a read outside the table. -/
def BitUtil.numberOfTrailingZeroesByTable (value : Nat) : Option Nat :=
  if value = 0 then
    some 32
  else
    let isolated := value &&& ((4294967296 - value) % 4294967296)
    let product := (isolated * 0x04D7651F) % 4294967296
    BitUtil.numberOfTrailingZeroesTable[product >>> 27]?

/-- The GCC builtin `__builtin_clz` on an `unsigned int`: the number of leading zero bits
of a non-zero value, found by testing the bits of a word of the given width from the
highest one downwards. -/
def builtin_clz_from : Nat → Nat → Nat
  | 0, _ => 0
  | bit + 1, value => if value.testBit bit then 0 else 1 + builtin_clz_from bit value

/-- `BitUtil::numberOfLeadingZeroes` at a 32-bit `value_t`, in its
`#if defined(__GNUC__)` branch: `__builtin_clz(value)` on the bit pattern of the value. -/
def BitUtil.numberOfLeadingZeroes (value : Int) : Int :=
  (builtin_clz_from 32 (toU32 value) : Nat)

/-- `BitUtil::findNextPowerOfTwo` at `value_t = std::int32_t`:
`1 << (32 - numberOfLeadingZeroes(value - 1))`. -/
def BitUtil.findNextPowerOfTwo (value : Int) : Int :=
  wrap32 ((1 <<< (32 - BitUtil.numberOfLeadingZeroes (wrap32 (value - 1))).toNat : Nat) : Int)

/-! ## media/InetAddress.h -/

/-- The fields of `sockaddr_in m_socketAddress` that `Inet4Address` reads: the four bytes
of `sin_addr`, in the order they lie in memory, which is network byte order, and the
port. -/
structure Inet4Address where
  octet0 : Nat
  octet1 : Nat
  octet2 : Nat
  octet3 : Nat
  port : Nat
  deriving DecidableEq, Repr

namespace Inet4Address

/-- The value `ntohl(m_socketAddress.sin_addr.s_addr)`: the four bytes read as a number in
host byte order, the first byte in memory being the most significant. -/
def hostOrder (address : Inet4Address) : Nat :=
  address.octet0 * 16777216 + address.octet1 * 65536 + address.octet2 * 256 + address.octet3

/-- `Inet4Address::isMulticast`. -/
def isMulticast (address : Inet4Address) : Bool :=
  let addr := address.hostOrder
  decide (0xE0000000 ≤ addr) && decide (addr < 0xF0000000)

end Inet4Address

/-! ## Sequences of calls on the dispatcher and failed commands of the proxy -/

/-- A call of one of the six member functions of `DataPacketDispatcher` that change or read
its tables, with its arguments. -/
inductive DispatcherCall (α β : Type) where
  | addSubscription (streamId : Int)
  | removeSubscription (streamId : Int)
  | onDataPacket (channelEndpoint : ReceiveChannelEndpoint α) (header : DataHeaderFlyweight)
      (atomicBuffer : β) (length : Int) (srcAddress : α)
  | onSetupMessage (channelEndpoint : ReceiveChannelEndpoint α) (header : SetupFlyweight)
      (atomicBuffer : β) (srcAddress : α)
  | addPublicationImage (image : PublicationImage)
  | removePublicationImage (image : PublicationImage)

/-- The dispatcher a call leaves behind, whether the call returned or threw. -/
def DispatcherCall.run {α β : Type}
    (insertPacket : PublicationImage → Int → Int → β → Int → Int) (d : DataPacketDispatcher) :
    DispatcherCall α β → DataPacketDispatcher
  | DispatcherCall.addSubscription streamId => d.addSubscription streamId
  | DispatcherCall.removeSubscription streamId => (d.removeSubscription streamId).dispatcher
  | DispatcherCall.onDataPacket channelEndpoint header atomicBuffer length srcAddress =>
    (d.onDataPacket insertPacket channelEndpoint header atomicBuffer length
      srcAddress).dispatcher
  | DispatcherCall.onSetupMessage channelEndpoint header atomicBuffer srcAddress =>
    (d.onSetupMessage channelEndpoint header atomicBuffer srcAddress).dispatcher
  | DispatcherCall.addPublicationImage image => (d.addPublicationImage image).dispatcher
  | DispatcherCall.removePublicationImage image => (d.removePublicationImage image).dispatcher

/-- The dispatcher a sequence of calls leaves behind, each call made on the dispatcher the
one before left. -/
def runDispatcherCalls {α β : Type}
    (insertPacket : PublicationImage → Int → Int → β → Int → Int) :
    DataPacketDispatcher → List (DispatcherCall α β) → DataPacketDispatcher
  | d, [] => d
  | d, call :: rest => runDispatcherCalls insertPacket (call.run insertPacket d) rest

/-- A data packet as `onDataPacket` receives it. -/
structure DataPacket (α β : Type) where
  channelEndpoint : ReceiveChannelEndpoint α
  header : DataHeaderFlyweight
  atomicBuffer : β
  length : Int
  srcAddress : α

/-- Successive calls of `onDataPacket`, one per packet, each on the dispatcher the one
before left: the values returned, the dispatcher at the end and all the calls made on the
collaborators, in order. -/
def onDataPackets {α β : Type}
    (insertPacket : PublicationImage → Int → Int → β → Int → Int) :
    DataPacketDispatcher → List (DataPacket α β) → DispatchResult α (List Int)
  | d, [] => { result := [], dispatcher := d, effects := [] }
  | d, packet :: rest =>
    let first := d.onDataPacket insertPacket packet.channelEndpoint packet.header
      packet.atomicBuffer packet.length packet.srcAddress
    let later := onDataPackets insertPacket first.dispatcher rest
    { result := first.result :: later.result
      dispatcher := later.dispatcher
      effects := first.effects ++ later.effects }

/-- The operation `nextCorrelationId()` adds exactly one to a counter that `write` leaves
alone, whether it returns true or false. -/
def IncrementsByOne {ρ : Type} (toDriverCommandBuffer : ManyToOneRingBuffer ρ)
    (counter : ρ → Int) : Prop :=
  (∀ ring, counter (toDriverCommandBuffer.nextCorrelationId ring).2 = counter ring + 1) ∧
  ∀ ring msgTypeId buffer srcIndex length,
    counter (toDriverCommandBuffer.write ring msgTypeId buffer srcIndex length).2 = counter ring

/-- No session of any stream has both an active image and an entry in the ignored-session
table. -/
def DataPacketDispatcher.Exclusive (d : DataPacketDispatcher) : Prop :=
  ∀ sessionId streamId : Int, d.activeImage sessionId streamId ≠ none →
    d.ignoredSessions.find (sessionId, streamId) = none

/-! ## Machine arithmetic lemmas -/

theorem wrap32_of_range {x : Int} (h1 : -2147483648 ≤ x) (h2 : x < 2147483648) :
    wrap32 x = x := by
  unfold wrap32; omega

theorem wrap32_bounds (x : Int) : -2147483648 ≤ wrap32 x ∧ wrap32 x < 2147483648 := by
  unfold wrap32; omega

theorem wrap64_of_range {x : Int} (h1 : -9223372036854775808 ≤ x)
    (h2 : x < 9223372036854775808) : wrap64 x = x := by
  unfold wrap64; omega

theorem toU32_of_nonneg {x : Int} (h1 : 0 ≤ x) (h2 : x < 4294967296) :
    (toU32 x : Int) = x := by
  unfold toU32
  rw [Int.toNat_of_nonneg (by omega)]
  omega

theorem toU32_lt (x : Int) : toU32 x < 4294967296 := by
  unfold toU32; omega

/-- Masking with a non-negative `int32` yields a value between 0 and the mask. -/
theorem and32_mask_bounds (a m : Int) (h1 : 0 ≤ m) (h2 : m < 2147483648) :
    0 ≤ and32 a m ∧ and32 a m ≤ m := by
  have hm : (toU32 m : Int) = m := toU32_of_nonneg h1 (by omega)
  have hle : toU32 a &&& toU32 m ≤ toU32 m := Nat.and_le_right
  have hle2 : ((toU32 a &&& toU32 m : Nat) : Int) ≤ (toU32 m : Int) := Int.ofNat_le.mpr hle
  unfold and32
  rw [wrap32_of_range (by omega) (by omega)]
  omega

/-- Clearing the low `j` bits of a number below `2 ^ n` rounds it down to a multiple of
`2 ^ j`. -/
theorem nat_and_high_mask (y j n : Nat) (hy : y < 2 ^ n) (hj : j ≤ n) :
    y &&& (2 ^ n - 2 ^ j) = y / 2 ^ j * 2 ^ j := by
  have hc : 2 ^ n - 2 ^ j = (2 ^ (n - j) - 1) <<< j := by
    rw [Nat.shiftLeft_eq, Nat.sub_mul, ← Nat.pow_add, Nat.sub_add_cancel hj, Nat.one_mul]
  have hd : y / 2 ^ j * 2 ^ j = (y >>> j) <<< j := by
    rw [Nat.shiftLeft_eq, Nat.shiftRight_eq_div_pow]
  rw [hc, hd]
  apply Nat.eq_of_testBit_eq
  intro i
  simp only [Nat.testBit_and, Nat.testBit_shiftLeft, Nat.testBit_two_pow_sub_one,
    Nat.testBit_shiftRight]
  by_cases h : j ≤ i
  · by_cases h2 : i - j < n - j
    · simp [h, h2]
    · have : y.testBit i = false := by
        apply Nat.testBit_lt_two_pow
        calc y < 2 ^ n := hy
          _ ≤ 2 ^ i := Nat.pow_le_pow_right (by decide) (by omega)
      have h3 : j + (i - j) = i := by omega
      simp [h, h2, this, h3]
  · simp [h]

/-- On frame lengths that leave room for the rounding, `BitUtil::align` to the frame
alignment rounds up to the next multiple of 32. -/
theorem align_frame {len : Int} (h1 : 0 ≤ len) (h2 : len ≤ 2147483616) :
    BitUtil.align len FRAME_ALIGNMENT = (len + 31) / 32 * 32 := by
  have e1 : wrap32 (FRAME_ALIGNMENT - 1) = 31 := by decide
  have e2 : not32 31 = -32 := by decide
  have e3 : toU32 (-32) = 2 ^ 32 - 2 ^ 5 := by decide
  obtain ⟨y, hy⟩ : ∃ y : Nat, len + 31 = (y : Int) := ⟨(len + 31).toNat, by omega⟩
  have hy2 : toU32 (len + 31) = y := by
    have := toU32_of_nonneg (x := len + 31) (by omega) (by omega)
    omega
  have hylt : y < 2 ^ 32 := by
    have : (y : Int) < 4294967296 := by omega
    have h3 : y < 4294967296 := by exact_mod_cast this
    simpa using h3
  unfold BitUtil.align
  rw [e1, e2, wrap32_of_range (by omega) (by omega)]
  unfold and32
  rw [e3, hy2, nat_and_high_mask y 5 32 hylt (by decide), hy]
  have hc : ((y / 2 ^ 5 * 2 ^ 5 : Nat) : Int) = (y : Int) / 32 * 32 := by
    push_cast; norm_num
  rw [hc]
  apply wrap32_of_range <;> omega

/-- The aligned length of a committed frame is positive, a multiple of the frame
alignment and at most 31 more than the frame length. -/
theorem align_frame_bounds (len : Int) (h1 : 0 < len) (h2 : len ≤ 2147483616) :
    len ≤ BitUtil.align len FRAME_ALIGNMENT ∧ BitUtil.align len FRAME_ALIGNMENT ≤ len + 31 ∧
      32 ≤ BitUtil.align len FRAME_ALIGNMENT ∧ BitUtil.align len FRAME_ALIGNMENT % 32 = 0 := by
  rw [align_frame (by omega) h2]
  omega

/-- Masking the low 32 bits of a position with `2 ^ k - 1` gives the position modulo
`2 ^ k`. -/
theorem and32_pow_mask (p : Int) (k : Nat) (hk : k ≤ 30) :
    and32 (wrap32 p) (2 ^ k - 1) = p % 2 ^ k := by
  have hpow : (2 : Int) ^ k ≤ 2 ^ 30 := pow_le_pow_right₀ (by norm_num) hk
  have hpos : (0 : Int) < 2 ^ k := by positivity
  have hm : toU32 (2 ^ k - 1) = 2 ^ k - 1 := by
    have h := toU32_of_nonneg (x := (2 : Int) ^ k - 1) (by omega) (by omega)
    have h2 : ((2 ^ k - 1 : Nat) : Int) = (2 : Int) ^ k - 1 := by
      have : 1 ≤ 2 ^ k := Nat.one_le_two_pow
      push_cast [Nat.cast_sub this]; ring
    omega
  have ha : ((toU32 (wrap32 p) : Nat) : Int) = p % 4294967296 := by
    unfold toU32 wrap32
    rw [Int.toNat_of_nonneg (by omega)]
    omega
  have hdvd : (2 : Int) ^ k ∣ 4294967296 := by
    have h32 : (4294967296 : Int) = 2 ^ 32 := by norm_num
    rw [h32]
    exact pow_dvd_pow 2 (by omega)
  have hmod : ((toU32 (wrap32 p) % 2 ^ k : Nat) : Int) = p % 2 ^ k := by
    push_cast
    rw [ha, Int.emod_emod_of_dvd p hdvd]
  unfold and32
  rw [hm, Nat.and_pow_two_sub_one_eq_mod, hmod]
  apply wrap32_of_range
  · have := Int.emod_nonneg p (ne_of_gt hpos); omega
  · have := Int.emod_lt_of_pos p hpos; omega

/-! ## Reading the trace of a concatenation -/

theorem published_append (a b : List Event) :
    published (a ++ b) = published a ++ published b := by
  induction a with
  | nil => rfl
  | cons e rest ih => cases e <;> simp [published, ih]

theorem visited_append (a b : List Event) : visited (a ++ b) = visited a ++ visited b := by
  induction a with
  | nil => rfl
  | cons e rest ih =>
    cases e with
    | term t => cases t <;> simp [visited, ih]
    | positionGet => simp [visited, ih]
    | positionSet v => simp [visited, ih]

theorem delivered_append (a b : List Event) :
    delivered (a ++ b) = delivered a ++ delivered b := by
  induction a with
  | nil => rfl
  | cons e rest ih =>
    cases e with
    | term t => cases t <;> simp [delivered, ih]
    | positionGet => simp [delivered, ih]
    | positionSet v => simp [delivered, ih]

theorem actions_append (a b : List Event) : actions (a ++ b) = actions a ++ actions b := by
  induction a with
  | nil => rfl
  | cons e rest ih =>
    cases e with
    | term t => cases t <;> simp [actions, ih]
    | positionGet => simp [actions, ih]
    | positionSet v => simp [actions, ih]

/-! ## One iteration of the controlled poll loop -/

namespace Image

open ControlledPollAction in
/-- The nine ways one iteration of the loop can go, with the 32-bit and 64-bit wrapping
resolved by the loop invariant. -/
theorem controlledPollStep_cases {σ : Type} (h : controlled_poll_fragment_handler_t σ)
    (hdr : Int) (tb : TermBuffer) (limit : Int) (s : LoopState σ)
    (htb : tb.FramesWithin) (hJ : LoopInv tb.capacity s) :
    let len := wrap32 (tb.frameLengthVolatile s.offset)
    let al := alignedLengthAt tb s.offset
    let po := wrap32 (s.offset + hdr)
    let pl := wrap32 (len - hdr)
    let e1 := Event.term (TermEvent.frameLengthRead s.offset)
    let e2 := Event.term (TermEvent.paddingCheck s.offset)
    let e3 := Event.term (TermEvent.handlerCall s.offset po pl)
    let step := controlledPollStep h hdr tb limit tb.capacity s
    (len ≤ 0 ∧ step = (false, { s with trace := s.trace ++ [e1] })) ∨
    (0 < len ∧ (32 ≤ al ∧ al ≤ len + 31 ∧ al % 32 = 0) ∧
      ((tb.isPaddingFrame s.offset = true ∧
          step = (decide (s.fragmentsRead < limit ∧ s.offset + al < tb.capacity),
            { s with offset := s.offset + al, trace := s.trace ++ [e1, e2] })) ∨
       (tb.isPaddingFrame s.offset = false ∧ ∃ hs,
          ((h s.handlerState po pl = (Invocation.throws, hs) ∧
              step = (false, { s with offset := s.offset + al, handlerState := hs, trace := s.trace ++ [e1, e2, e3, Event.term TermEvent.exceptionHandled] })) ∨
           (h s.handlerState po pl = (Invocation.returns BREAK, hs) ∧
              step = (false, { s with offset := s.offset + al, fragmentsRead := s.fragmentsRead + 1, handlerState := hs, trace := s.trace ++ [e1, e2, e3, Event.term (TermEvent.handlerReturned BREAK)] })) ∨
           (h s.handlerState po pl = (Invocation.returns ABORT, hs) ∧
              step = (false, { s with handlerState := hs, trace := s.trace ++ [e1, e2, e3, Event.term (TermEvent.handlerReturned ABORT)] })) ∨
           (h s.handlerState po pl = (Invocation.returns COMMIT, hs) ∧
              step = (decide (s.fragmentsRead + 1 < limit ∧ s.offset + al < tb.capacity),
                { subscriberPosition := s.position + al, position := s.position + al, termOffset := s.offset + al, offset := s.offset + al, fragmentsRead := s.fragmentsRead + 1, handlerState := hs, trace := s.trace ++ [e1, e2, e3, Event.term (TermEvent.handlerReturned COMMIT), Event.positionSet (s.position + al)], escaped := s.escaped })) ∨
           (h s.handlerState po pl = (Invocation.returns CONTINUE, hs) ∧
              step = (decide (s.fragmentsRead + 1 < limit ∧ s.offset + al < tb.capacity),
                { s with offset := s.offset + al, fragmentsRead := s.fragmentsRead + 1, handlerState := hs, trace := s.trace ++ [e1, e2, e3, Event.term (TermEvent.handlerReturned CONTINUE)] })) ∨
           (h s.handlerState po pl = (Invocation.escapes true, hs) ∧
              step = (false, { s with offset := s.offset + al, handlerState := hs, escaped := true, trace := s.trace ++ [e1, e2, e3, Event.term TermEvent.exceptionHandled] })) ∨
           (h s.handlerState po pl = (Invocation.escapes false, hs) ∧
              step = (false, { s with offset := s.offset + al, handlerState := hs, escaped := true, trace := s.trace ++ [e1, e2, e3] })))))) := by
  intro len al po pl e1 e2 e3 step
  obtain ⟨hc0, hc1, hfr⟩ := htb
  obtain ⟨j1, j2, j3, j4, j5, j6, j7, j8⟩ := hJ
  by_cases hlen : len ≤ 0
  · left
    refine ⟨hlen, ?_⟩
    simp only [step, controlledPollStep]
    rw [if_pos hlen]
  · right
    have hlen2 : 0 < len := by omega
    have hle : len ≤ tb.capacity := hfr s.offset
    obtain ⟨b1, b2, b3, b4⟩ := align_frame_bounds len hlen2 (by omega)
    have hal : BitUtil.align len FRAME_ALIGNMENT = al := rfl
    rw [hal] at b1 b2 b3 b4
    have w1 : wrap32 (s.offset + al) = s.offset + al :=
      wrap32_of_range (by omega) (by omega)
    have w2 : wrap32 (s.fragmentsRead + 1) = s.fragmentsRead + 1 :=
      wrap32_of_range (by omega) (by omega)
    have w3 : wrap32 (s.fragmentsRead + 1 - 1) = s.fragmentsRead := by
      rw [wrap32_of_range (by omega) (by omega)]; omega
    have w4 : wrap64 (s.position + al) = s.position + al :=
      wrap64_of_range (by omega) (by omega)
    refine ⟨hlen2, ⟨b3, b2, b4⟩, ?_⟩
    have hstep : step = controlledPollStep h hdr tb limit tb.capacity s := rfl
    unfold controlledPollStep at hstep
    rw [if_neg hlen] at hstep
    cases hpad : tb.isPaddingFrame s.offset with
    | true =>
      left
      refine ⟨rfl, ?_⟩
      simp only [hpad, Bool.not_true, Bool.false_eq_true, if_false, hal, w1,
        List.append_assoc, List.singleton_append] at hstep
      exact hstep
    | false =>
      right
      refine ⟨rfl, ?_⟩
      rcases hcall : h s.handlerState po pl with ⟨inv, hs⟩
      refine ⟨hs, ?_⟩
      simp only [hpad, Bool.not_false, if_true] at hstep
      rw [hcall] at hstep
      cases inv with
      | throws =>
        left
        refine ⟨rfl, ?_⟩
        simp only [hal, w1, List.append_assoc, List.singleton_append] at hstep
        exact hstep
      | returns a =>
        cases a with
        | BREAK =>
          right; left
          refine ⟨rfl, ?_⟩
          simp only [hal, w1, w2, List.append_assoc, List.singleton_append] at hstep
          exact hstep
        | ABORT =>
          right; right; left
          refine ⟨rfl, ?_⟩
          simp only [hal, w2, w3, List.append_assoc, List.singleton_append] at hstep
          exact hstep
        | COMMIT =>
          right; right; right; left
          refine ⟨rfl, ?_⟩
          simp only [hal, w1, w2, w4, List.append_assoc, List.singleton_append] at hstep
          exact hstep
        | CONTINUE =>
          right; right; right; right; left
          refine ⟨rfl, ?_⟩
          simp only [hal, w1, w2, List.append_assoc, List.singleton_append] at hstep
          exact hstep
      | escapes c =>
        cases c with
        | true =>
          right; right; right; right; right; left
          refine ⟨rfl, ?_⟩
          simp only [hal, w1, List.append_assoc, List.singleton_append] at hstep
          exact hstep
        | false =>
          right; right; right; right; right; right
          refine ⟨rfl, ?_⟩
          simp only [hal, w1, List.append_assoc, List.singleton_append] at hstep
          exact hstep

/-- An iteration that is followed by another one keeps the loop invariant and moves the
offset forward. -/
theorem controlledPollStep_continue {σ : Type} (h : controlled_poll_fragment_handler_t σ)
    (hdr : Int) (tb : TermBuffer) (limit : Int) (s s1 : LoopState σ)
    (htb : tb.FramesWithin) (hJ : LoopInv tb.capacity s)
    (hstep : controlledPollStep h hdr tb limit tb.capacity s = (true, s1)) :
    LoopInv tb.capacity s1 ∧ s.offset < s1.offset := by
  have H := controlledPollStep_cases h hdr tb limit s htb hJ
  dsimp only at H
  obtain ⟨j1, j2, j3, j4, j5, j6, j7, j8⟩ := hJ
  rcases H with ⟨_, e⟩ | ⟨hl, ⟨a1, a2, a3⟩, ⟨_, e⟩ | ⟨_, hs, ⟨_, e⟩ | ⟨_, e⟩ | ⟨_, e⟩ | ⟨_, e⟩ | ⟨_, e⟩ | ⟨_, e⟩ | ⟨_, e⟩⟩⟩ <;>
    rw [e] at hstep <;> simp only [Prod.mk.injEq, decide_eq_true_eq, Bool.false_eq_true,
      false_and] at hstep
  all_goals
    obtain ⟨⟨c1, c2⟩, rfl⟩ := hstep
    simp only [LoopInv, and_true]
    omega

/-- The iteration that leaves the loop establishes the exit facts. -/
theorem controlledPollStep_exit {σ : Type} (h : controlled_poll_fragment_handler_t σ)
    (hdr : Int) (tb : TermBuffer) (limit : Int) (s s1 : LoopState σ)
    (htb : tb.FramesWithin) (hJ : LoopInv tb.capacity s)
    (hstep : controlledPollStep h hdr tb limit tb.capacity s = (false, s1)) :
    ExitInv s1 := by
  have H := controlledPollStep_cases h hdr tb limit s htb hJ
  dsimp only at H
  obtain ⟨hc0, hc1, hfr⟩ := htb
  have hle := hfr s.offset
  obtain ⟨j1, j2, j3, j4, j5, j6, j7, j8⟩ := hJ
  rcases H with ⟨_, e⟩ | ⟨hl, ⟨a1, a2, a3⟩, ⟨_, e⟩ | ⟨_, hs, ⟨_, e⟩ | ⟨_, e⟩ | ⟨_, e⟩ | ⟨_, e⟩ | ⟨_, e⟩ | ⟨_, e⟩ | ⟨_, e⟩⟩⟩ <;>
    rw [e] at hstep <;> simp only [Prod.mk.injEq] at hstep <;>
    obtain ⟨_, rfl⟩ := hstep <;>
    simp only [ExitInv, and_true] <;> omega

/-- Induction over the iterations of the loop: a relation between the state at the start
of an iteration and the state in which the loop is left holds as soon as it holds for a
last iteration and is carried backwards over an iteration that is followed by another. -/
theorem controlledPollLoop_induct {σ : Type} (h : controlled_poll_fragment_handler_t σ)
    (hdr : Int) (tb : TermBuffer) (limit : Int) (htb : tb.FramesWithin)
    (R : LoopState σ → LoopState σ → Prop)
    (hexit : ∀ s s1, LoopInv tb.capacity s →
      controlledPollStep h hdr tb limit tb.capacity s = (false, s1) → ExitInv s1 → R s s1)
    (hcont : ∀ s s1 s2, LoopInv tb.capacity s →
      controlledPollStep h hdr tb limit tb.capacity s = (true, s1) →
      LoopInv tb.capacity s1 → s.offset < s1.offset → R s1 s2 → R s s2) :
    ∀ (fuel : Nat) (s s2 : LoopState σ), LoopInv tb.capacity s →
      controlledPollLoop h hdr tb limit tb.capacity fuel s = some s2 → R s s2 := by
  intro fuel
  induction fuel with
  | zero => intro s s2 _ hl; simp [controlledPollLoop] at hl
  | succ n ih =>
    intro s s2 hJ hl
    rcases hstep : controlledPollStep h hdr tb limit tb.capacity s with ⟨flag, s1⟩
    simp only [controlledPollLoop, hstep] at hl
    cases flag with
    | true =>
      simp only at hl
      obtain ⟨hJ1, hlt⟩ := controlledPollStep_continue h hdr tb limit s s1 htb hJ hstep
      exact hcont s s1 s2 hJ hstep hJ1 hlt (ih s1 s2 hJ1 hl)
    | false =>
      simp only [Option.some.injEq] at hl
      subst hl
      exact hexit s s1 hJ hstep (controlledPollStep_exit h hdr tb limit s s1 htb hJ hstep)

/-- The loop is left before the fuel runs out whenever the fuel exceeds the distance from
the offset to the end of the term. -/
theorem controlledPollLoop_total {σ : Type} (h : controlled_poll_fragment_handler_t σ)
    (hdr : Int) (tb : TermBuffer) (limit : Int) (htb : tb.FramesWithin) :
    ∀ (fuel : Nat) (s : LoopState σ), LoopInv tb.capacity s →
      tb.capacity - s.offset < fuel →
      ∃ s2, controlledPollLoop h hdr tb limit tb.capacity fuel s = some s2 := by
  intro fuel
  induction fuel with
  | zero =>
    intro s hJ hf
    obtain ⟨j1, j2, j3, _⟩ := hJ
    simp only [Nat.cast_zero] at hf
    omega
  | succ n ih =>
    intro s hJ hf
    rcases hstep : controlledPollStep h hdr tb limit tb.capacity s with ⟨flag, s1⟩
    simp only [controlledPollLoop, hstep]
    cases flag with
    | true =>
      obtain ⟨hJ1, hlt⟩ := controlledPollStep_continue h hdr tb limit s s1 htb hJ hstep
      apply ih s1 hJ1
      push_cast at hf
      omega
    | false => exact ⟨s1, rfl⟩

/-- A valid image has a term offset inside the term. -/
theorem termOffset_bounds (img : Image) (hv : img.Valid) :
    0 ≤ img.termOffset ∧ img.termOffset < img.termBuffer.capacity := by
  obtain ⟨hk, hm, hcap, hp0, hp1⟩ := hv
  have hpow : (2 : Int) ^ img.positionBitsToShift ≤ 2 ^ 30 :=
    pow_le_pow_right₀ (by norm_num) hk
  have hpos : (0 : Int) < 2 ^ img.positionBitsToShift := by positivity
  have hb := and32_mask_bounds (wrap32 img.subscriberPosition) img.termLengthMask
    (by omega) (by omega)
  have hc : img.termBuffer.capacity = 2 ^ img.positionBitsToShift := hcap _
  unfold termOffset
  omega

/-- The loop of a controlled poll over a valid image is entered with the loop invariant. -/
theorem controlledPollStart_inv {σ : Type} (img : Image) (hs : σ) (hv : img.Valid) :
    LoopInv img.termBuffer.capacity (controlledPollStart img hs) := by
  obtain ⟨t0, t1⟩ := termOffset_bounds img hv
  obtain ⟨hk, hm, hcap, hp0, hp1⟩ := hv
  unfold termOffset at t0 t1
  simp only [LoopInv, controlledPollStart, and_true]
  omega

/-- A controlled poll of an open, valid image over well-formed frames leaves its loop
before the fuel runs out, and returns what the final position update makes of the state in
which the loop was left. -/
theorem controlledPoll_run {σ : Type} (h : controlled_poll_fragment_handler_t σ) (hdr : Int)
    (img : Image) (hs : σ) (limit : Int) (hopen : img.isClosed = false) (hv : img.Valid)
    (hf : img.termBuffer.FramesWithin) :
    ∃ s2, controlledPollLoop h hdr img.termBuffer limit img.termBuffer.capacity
        (loopFuel img.termBuffer) (controlledPollStart img hs) = some s2 ∧
      controlledPoll h hdr img hs limit = some (controlledPollFinish img s2) := by
  have hJ := controlledPollStart_inv img hs hv
  obtain ⟨t0, t1⟩ := termOffset_bounds img hv
  have hfuel : img.termBuffer.capacity - (controlledPollStart img hs).offset <
      (loopFuel img.termBuffer : Nat) := by
    have : (controlledPollStart img hs).offset = img.termOffset := rfl
    rw [this]
    unfold loopFuel
    push_cast
    rw [Int.toNat_of_nonneg (by omega)]
    omega
  obtain ⟨s2, hs2⟩ := controlledPollLoop_total h hdr img.termBuffer limit hf _ _ hJ hfuel
  refine ⟨s2, hs2, ?_⟩
  unfold controlledPoll
  simp only [hopen, Bool.not_false, if_true]
  unfold termBuffer at hs2
  rw [hs2]

/-- When an exception leaves a controlled poll there is no final position update: the
counter keeps the loop's position, and nothing is returned. -/
theorem controlledPollFinish_escaped {σ : Type} (img : Image) (s : LoopState σ)
    (hE : ExitInv s) (hesc : s.escaped = true) :
    controlledPollFinish img s =
      { result := s.fragmentsRead
        image := { img with subscriberPosition := s.position }
        handlerState := s.handlerState
        trace := s.trace
        escaped := true } := by
  obtain ⟨e1, e2, e3, e4, e5, e6, e7⟩ := hE
  unfold controlledPollFinish
  simp only [hesc, if_true, e7]

/-- The final position update of a controlled poll that no exception leaves, with the
wrapping resolved by the exit facts: the counter ends at the loop's position plus the
bytes the offset is ahead of the loop's term offset, and is stored to only when that is an
advance. -/
theorem controlledPollFinish_eq {σ : Type} (img : Image) (s : LoopState σ) (hE : ExitInv s)
    (hesc : s.escaped = false) :
    controlledPollFinish img s =
      { result := s.fragmentsRead
        image := { img with subscriberPosition := s.position + (s.offset - s.termOffset) }
        handlerState := s.handlerState
        trace := s.trace ++
          (if s.termOffset < s.offset then
            [Event.positionSet (s.position + (s.offset - s.termOffset))] else []) } := by
  obtain ⟨e1, e2, e3, e4, e5, e6, e7⟩ := hE
  have w1 : wrap32 (s.offset - s.termOffset) = s.offset - s.termOffset :=
    wrap32_of_range (by omega) (by omega)
  have w2 : wrap64 (s.position + (s.offset - s.termOffset)) =
      s.position + (s.offset - s.termOffset) := wrap64_of_range (by omega) (by omega)
  unfold controlledPollFinish
  simp only [w1, w2, hesc, Bool.false_eq_true, if_false]
  by_cases hlt : s.termOffset < s.offset
  · have : s.position + (s.offset - s.termOffset) > s.position := by omega
    rw [if_pos this, if_pos hlt]
  · have : ¬ (s.position + (s.offset - s.termOffset) > s.position) := by omega
    have heq : s.offset - s.termOffset = 0 := by omega
    rw [if_neg this, if_neg hlt, e7, heq]
    simp

/-! ## Monotonicity of the published positions -/

/-- Raising the last element of an ascending chain keeps it ascending. -/
theorem chain_raise_last (a b c : Int) (l : List Int) (hbc : b ≤ c)
    (hch : List.Chain (· ≤ ·) a (l ++ [b])) : List.Chain (· ≤ ·) a (l ++ [c]) := by
  induction l generalizing a with
  | nil =>
    simp only [List.nil_append, List.chain_cons, List.Chain.nil, and_true] at hch ⊢
    omega
  | cons x rest ih =>
    simp only [List.cons_append, List.chain_cons] at hch ⊢
    exact ⟨hch.1, ih x hch.2⟩

/-- Dropping the last element of an ascending chain keeps it ascending. -/
theorem chain_drop_last (a b : Int) (l : List Int)
    (hch : List.Chain (· ≤ ·) a (l ++ [b])) : List.Chain (· ≤ ·) a l := by
  induction l generalizing a with
  | nil => exact List.Chain.nil
  | cons x rest ih =>
    simp only [List.cons_append, List.chain_cons] at hch ⊢
    exact ⟨hch.1, ih x hch.2⟩

/-- The first element of an ascending chain is at most its last. -/
theorem chain_first_le_last (a b : Int) (l : List Int)
    (hch : List.Chain (· ≤ ·) a (l ++ [b])) : a ≤ b := by
  induction l generalizing a with
  | nil =>
    simp only [List.nil_append, List.chain_cons, List.Chain.nil, and_true] at hch
    exact hch
  | cons x rest ih =>
    simp only [List.cons_append, List.chain_cons] at hch
    exact le_trans hch.1 (ih x hch.2)

/-- An ascending chain stays ascending when a value at least its last is appended. -/
theorem chain_append_last (a b c : Int) (l : List Int) (hbc : b ≤ c)
    (hch : List.Chain (· ≤ ·) a (l ++ [b])) : List.Chain (· ≤ ·) a (l ++ [b, c]) := by
  induction l generalizing a with
  | nil =>
    simp only [List.nil_append, List.chain_cons, List.Chain.nil, and_true] at hch ⊢
    exact ⟨hch, hbc⟩
  | cons x rest ih =>
    simp only [List.cons_append, List.chain_cons] at hch ⊢
    exact ⟨hch.1, ih x hch.2⟩

/-- Through the loop of a controlled poll the positions stored to the counter ascend from
the loop's position at the start to its position at the end. -/
theorem controlledPollLoop_published {σ : Type} (h : controlled_poll_fragment_handler_t σ)
    (hdr : Int) (tb : TermBuffer) (limit : Int) (htb : tb.FramesWithin) :
    ∀ (fuel : Nat) (s s2 : LoopState σ), LoopInv tb.capacity s →
      controlledPollLoop h hdr tb limit tb.capacity fuel s = some s2 →
      ExitInv s2 ∧ ∃ new, s2.trace = s.trace ++ new ∧
        List.Chain (· ≤ ·) s.position (published new ++ [s2.position]) := by
  apply controlledPollLoop_induct h hdr tb limit htb
  · intro s s1 hJ hstep hE
    refine ⟨hE, ?_⟩
    have H := controlledPollStep_cases h hdr tb limit s htb hJ
    dsimp only at H
    rcases H with ⟨_, e⟩ | ⟨hl, ⟨a1, a2, a3⟩, ⟨_, e⟩ | ⟨_, hs, ⟨_, e⟩ | ⟨_, e⟩ | ⟨_, e⟩ | ⟨_, e⟩ | ⟨_, e⟩ | ⟨_, e⟩ | ⟨_, e⟩⟩⟩ <;>
      rw [e] at hstep <;> simp only [Prod.mk.injEq] at hstep <;>
      obtain ⟨_, rfl⟩ := hstep <;>
      refine ⟨_, rfl, ?_⟩ <;>
      simp [published]
    omega
  · intro s s1 s2 hJ hstep hJ1 _ hR
    obtain ⟨hE, new1, ht, hch⟩ := hR
    refine ⟨hE, ?_⟩
    have H := controlledPollStep_cases h hdr tb limit s htb hJ
    dsimp only at H
    rcases H with ⟨_, e⟩ | ⟨hl, ⟨a1, a2, a3⟩, ⟨_, e⟩ | ⟨_, hs, ⟨_, e⟩ | ⟨_, e⟩ | ⟨_, e⟩ | ⟨_, e⟩ | ⟨_, e⟩ | ⟨_, e⟩ | ⟨_, e⟩⟩⟩ <;>
      rw [e] at hstep <;> simp only [Prod.mk.injEq, Bool.false_eq_true, false_and] at hstep
    all_goals
      obtain ⟨_, rfl⟩ := hstep
      simp only at ht hch
      refine ⟨_, ht.trans (List.append_assoc _ _ _), ?_⟩
      simp only [published_append, published, List.nil_append, List.cons_append,
        List.chain_cons]
      first
        | exact hch
        | exact ⟨by omega, hch⟩

/-- The subscriber position after a basic poll is never below the one before it. -/
theorem poll_position_le {σ : Type} (read : TermReaderRead σ) (img : Image) (hs : σ)
    (limit : Int) : img.subscriberPosition ≤ (poll read img hs limit).image.subscriberPosition := by
  unfold poll
  by_cases hc : (!img.isClosed) = true
  · rw [if_pos hc]
    rcases read (img.termBuffers (indexByPosition img.subscriberPosition
      img.positionBitsToShift)) (and32 (wrap32 img.subscriberPosition) img.termLengthMask)
      hs limit with ⟨out, hs2, steps⟩
    simp only
    split
    · rename_i hgt
      exact le_of_lt hgt
    · exact le_refl _
  · rw [if_neg hc]

/-- The subscriber position after a block poll of a valid image is never below the one
before it. -/
theorem blockPoll_position_le {σ : Type} (scan : TermBlockScan) (bh : block_handler_t σ)
    (img : Image) (hs : σ) (limit : Int) (hv : img.Valid) :
    img.subscriberPosition ≤ (blockPoll scan bh img hs limit).image.subscriberPosition := by
  obtain ⟨t0, t1⟩ := termOffset_bounds img hv
  obtain ⟨hk, hm, hcap, hp0, hp1⟩ := hv
  unfold termOffset at t0 t1
  unfold blockPoll
  by_cases hc : (!img.isClosed) = true
  · rw [if_pos hc]
    simp only
    split
    · rename_i hgt
      have hb := wrap32_bounds (scan (img.termBuffers (indexByPosition img.subscriberPosition
        img.positionBitsToShift)) (and32 (wrap32 img.subscriberPosition) img.termLengthMask)
        (min (wrap32 (and32 (wrap32 img.subscriberPosition) img.termLengthMask + limit))
          (img.termBuffers (indexByPosition img.subscriberPosition
            img.positionBitsToShift)).capacity))
      have w1 := wrap32_of_range (x := wrap32 (scan (img.termBuffers (indexByPosition
        img.subscriberPosition img.positionBitsToShift)) (and32 (wrap32 img.subscriberPosition)
        img.termLengthMask) (min (wrap32 (and32 (wrap32 img.subscriberPosition)
        img.termLengthMask + limit)) (img.termBuffers (indexByPosition img.subscriberPosition
        img.positionBitsToShift)).capacity)) - and32 (wrap32 img.subscriberPosition)
        img.termLengthMask) (by omega) (by omega)
      split
      · simp only [w1]
        rw [wrap64_of_range (by omega) (by omega)]
        omega
      · simp only [w1]
        rw [wrap64_of_range (by omega) (by omega)]
        omega
      · exact le_refl _
      · exact le_refl _
    · exact le_refl _
  · rw [if_neg hc]

/-! ## A pass that is aborted after fragments answered with CONTINUE -/

theorem getLast?_cons_of_some {α : Type} (a x : α) (l : List α) (hl : l.getLast? = some x) :
    (a :: l).getLast? = some x := by
  rw [List.getLast?_cons, hl]
  rfl

open ControlledPollAction in
/-- When the actions returned from an iteration on are some number of CONTINUE followed
by one ABORT, the loop is left with its position and term offset untouched, nothing stored
to the counter, the offset at the frame last handed to the handler, the count raised by
the number of CONTINUE answers, and no exception on its way out. -/
theorem controlledPollLoop_abort {σ : Type} (h : controlled_poll_fragment_handler_t σ)
    (hdr : Int) (tb : TermBuffer) (limit : Int) (htb : tb.FramesWithin) :
    ∀ (fuel : Nat) (s s2 : LoopState σ), LoopInv tb.capacity s →
      controlledPollLoop h hdr tb limit tb.capacity fuel s = some s2 →
      ∃ new, s2.trace = s.trace ++ new ∧
        ∀ n : Nat, actions new = List.replicate n CONTINUE ++ [ABORT] →
          s2.position = s.position ∧ s2.termOffset = s.termOffset ∧ published new = [] ∧
            (delivered new).getLast? = some s2.offset ∧
            s2.fragmentsRead = s.fragmentsRead + n ∧ s2.escaped = s.escaped := by
  apply controlledPollLoop_induct h hdr tb limit htb
  · intro s s1 hJ hstep hE
    have H := controlledPollStep_cases h hdr tb limit s htb hJ
    dsimp only at H
    rcases H with ⟨_, e⟩ | ⟨hl, ⟨a1, a2, a3⟩, ⟨_, e⟩ | ⟨_, hs, ⟨_, e⟩ | ⟨_, e⟩ | ⟨_, e⟩ | ⟨_, e⟩ | ⟨_, e⟩ | ⟨_, e⟩ | ⟨_, e⟩⟩⟩ <;>
      rw [e] at hstep <;> simp only [Prod.mk.injEq] at hstep <;>
      obtain ⟨_, rfl⟩ := hstep <;>
      refine ⟨_, rfl, ?_⟩ <;>
      intro n hn <;>
      rcases n with _ | n <;>
      simp [actions, List.replicate, published, delivered] at hn ⊢
  · intro s s1 s2 hJ hstep hJ1 _ hR
    obtain ⟨new1, ht, hQ⟩ := hR
    have H := controlledPollStep_cases h hdr tb limit s htb hJ
    dsimp only at H
    rcases H with ⟨_, e⟩ | ⟨hl, ⟨a1, a2, a3⟩, ⟨_, e⟩ | ⟨_, hs, ⟨_, e⟩ | ⟨_, e⟩ | ⟨_, e⟩ | ⟨_, e⟩ | ⟨_, e⟩ | ⟨_, e⟩ | ⟨_, e⟩⟩⟩ <;>
      rw [e] at hstep <;> simp only [Prod.mk.injEq, Bool.false_eq_true, false_and] at hstep
    · -- a padding frame was skipped
      obtain ⟨_, rfl⟩ := hstep
      simp only at ht hQ
      refine ⟨_, ht.trans (List.append_assoc _ _ _), ?_⟩
      intro n hn
      simp only [actions_append, actions, List.nil_append] at hn
      obtain ⟨q1, q2, q3, q4, q5, q6⟩ := hQ n hn
      rw [published_append, delivered_append]
      simp only [published, delivered, List.nil_append]
      exact ⟨q1, q2, q3, q4, q5, q6⟩
    · -- the handler returned COMMIT
      obtain ⟨_, rfl⟩ := hstep
      refine ⟨_, ht.trans (List.append_assoc _ _ _), ?_⟩
      intro n hn
      rcases n with _ | n <;>
        simp [actions_append, actions, List.replicate] at hn
    · -- the handler returned CONTINUE
      obtain ⟨_, rfl⟩ := hstep
      simp only at ht hQ
      refine ⟨_, ht.trans (List.append_assoc _ _ _), ?_⟩
      intro n hn
      rcases n with _ | n
      · simp [actions_append, actions, List.replicate] at hn
      · simp only [actions_append, actions, List.replicate, List.cons_append,
          List.nil_append, List.cons.injEq, true_and] at hn
        obtain ⟨q1, q2, q3, q4, q5, q6⟩ := hQ n hn
        rw [published_append, delivered_append]
        simp only [published, delivered, List.nil_append, List.singleton_append]
        refine ⟨q1, q2, q3, getLast?_cons_of_some _ _ _ q4, ?_, q6⟩
        rw [q5]; push_cast; ring

/-! ## A pass in which every fragment is answered with CONTINUE -/

open ControlledPollAction in
/-- When from an iteration on every handler invocation returns CONTINUE and none throws
(the exception handler is not called and no exception leaves the loop), the loop is left
with its position and term offset untouched and nothing stored to the counter; the offset
has moved by the aligned lengths of the frames gone over, and the count has risen by the
number of those that are not padding, which are the ones handed to the handler. -/
theorem controlledPollLoop_continue {σ : Type} (h : controlled_poll_fragment_handler_t σ)
    (hdr : Int) (tb : TermBuffer) (limit : Int) (htb : tb.FramesWithin) :
    ∀ (fuel : Nat) (s s2 : LoopState σ), LoopInv tb.capacity s →
      controlledPollLoop h hdr tb limit tb.capacity fuel s = some s2 →
      ∃ new, s2.trace = s.trace ++ new ∧
        ((∀ a ∈ actions new, a = CONTINUE) →
          Event.term TermEvent.exceptionHandled ∉ new → s2.escaped = false →
          published new = [] ∧ s2.position = s.position ∧ s2.termOffset = s.termOffset ∧
            s2.offset = s.offset + ((visited new).map (alignedLengthAt tb)).sum ∧
            s2.fragmentsRead = s.fragmentsRead +
              ((visited new).filter (fun o => !tb.isPaddingFrame o)).length ∧
            delivered new = (visited new).filter (fun o => !tb.isPaddingFrame o)) := by
  apply controlledPollLoop_induct h hdr tb limit htb
  · intro s s1 hJ hstep hE
    have H := controlledPollStep_cases h hdr tb limit s htb hJ
    dsimp only at H
    rcases H with ⟨_, e⟩ | ⟨hl, ⟨a1, a2, a3⟩, ⟨hp, e⟩ | ⟨hp, hs, ⟨_, e⟩ | ⟨_, e⟩ | ⟨_, e⟩ | ⟨_, e⟩ | ⟨_, e⟩ | ⟨_, e⟩ | ⟨_, e⟩⟩⟩ <;>
      rw [e] at hstep <;> simp only [Prod.mk.injEq] at hstep <;>
      obtain ⟨_, rfl⟩ := hstep <;>
      refine ⟨_, rfl, ?_⟩ <;>
      intro hact hexc hesc
    · simp [published, visited, delivered]
    · simp only [published, visited, delivered]
      have hf : List.filter (fun o => !tb.isPaddingFrame o) [s.offset] = [] := by
        rw [List.filter_cons_of_neg (by rw [hp]; decide)]; rfl
      rw [hf, List.map_cons, List.map_nil, List.sum_cons, List.sum_nil]
      simp
    · simp at hexc
    · simp [actions] at hact
    · simp [actions] at hact
    · simp [actions] at hact
    · simp only [published, visited, delivered]
      have hf : List.filter (fun o => !tb.isPaddingFrame o) [s.offset] = [s.offset] := by
        rw [List.filter_cons_of_pos (by rw [hp]; decide)]; rfl
      rw [hf, List.map_cons, List.map_nil, List.sum_cons, List.sum_nil]
      simp
    · simp at hexc
    · simp at hesc
  · intro s s1 s2 hJ hstep hJ1 _ hR
    obtain ⟨new1, ht, hQ⟩ := hR
    have H := controlledPollStep_cases h hdr tb limit s htb hJ
    dsimp only at H
    rcases H with ⟨_, e⟩ | ⟨hl, ⟨a1, a2, a3⟩, ⟨hp, e⟩ | ⟨hp, hs, ⟨_, e⟩ | ⟨_, e⟩ | ⟨_, e⟩ | ⟨_, e⟩ | ⟨_, e⟩ | ⟨_, e⟩ | ⟨_, e⟩⟩⟩ <;>
      rw [e] at hstep <;> simp only [Prod.mk.injEq, Bool.false_eq_true, false_and] at hstep
    · -- a padding frame was skipped
      obtain ⟨_, rfl⟩ := hstep
      simp only at ht hQ
      refine ⟨_, ht.trans (List.append_assoc _ _ _), ?_⟩
      intro hact hexc hesc
      rw [actions_append] at hact
      simp only [actions, List.nil_append] at hact
      have hexc1 : Event.term TermEvent.exceptionHandled ∉ new1 := by
        intro hmem; exact hexc (List.mem_append_right _ hmem)
      obtain ⟨q1, q2, q3, q4, q5, q6⟩ := hQ hact hexc1 hesc
      rw [published_append, visited_append, delivered_append]
      simp only [published, visited, delivered, List.nil_append, List.singleton_append]
      rw [List.filter_cons_of_neg (by rw [hp]; decide), List.map_cons, List.sum_cons]
      refine ⟨q1, q2, q3, ?_, q5, q6⟩
      rw [q4]; ring
    · -- the handler returned COMMIT
      obtain ⟨_, rfl⟩ := hstep
      refine ⟨_, ht.trans (List.append_assoc _ _ _), ?_⟩
      intro hact hexc hesc
      rw [actions_append] at hact
      simp [actions] at hact
    · -- the handler returned CONTINUE
      obtain ⟨_, rfl⟩ := hstep
      simp only at ht hQ
      refine ⟨_, ht.trans (List.append_assoc _ _ _), ?_⟩
      intro hact hexc hesc
      rw [actions_append] at hact
      simp only [actions, List.singleton_append, List.mem_cons, forall_eq_or_imp,
        true_and] at hact
      have hexc1 : Event.term TermEvent.exceptionHandled ∉ new1 := by
        intro hmem; exact hexc (List.mem_append_right _ hmem)
      obtain ⟨q1, q2, q3, q4, q5, q6⟩ := hQ hact hexc1 hesc
      rw [published_append, visited_append, delivered_append]
      simp only [published, visited, delivered, List.nil_append, List.singleton_append]
      rw [List.filter_cons_of_pos (by rw [hp]; decide), List.map_cons, List.sum_cons,
        List.length_cons]
      refine ⟨q1, q2, q3, ?_, ?_, by rw [q6]⟩
      · rw [q4]; ring
      · rw [q5]; push_cast; ring

end Image

/-! ## Facts about the concrete three-frame image -/

theorem threeFrameImage_valid : threeFrameImage.Valid :=
  ⟨by decide, by decide, fun _ => rfl, by decide, by decide⟩

theorem threeFrameImage_framesWithin : threeFrameImage.termBuffer.FramesWithin := by
  refine ⟨by decide, by decide, ?_⟩
  intro o
  show wrap32 (if o = 0 ∨ o = 32 ∨ o = 64 then 32 else 0) ≤ 1024
  split <;> decide

theorem paddedImage_valid : paddedImage.Valid :=
  ⟨by decide, by decide, fun _ => rfl, by decide, by decide⟩

theorem paddedImage_framesWithin : paddedImage.termBuffer.FramesWithin := by
  refine ⟨by decide, by decide, ?_⟩
  intro o
  show wrap32 (if o = 0 then 40 else if o = 64 then 960 else 0) ≤ 1024
  split
  · decide
  · split <;> decide

/-! ## The claims -/

open ControlledPollAction

/-- C1: on a closed Image, `poll`, `controlledPoll` and `blockPoll` each return -1
(`IMAGE_CLOSED`) whatever the handler, the handler state and the limit; their trace is
empty, so the handler is not invoked, the term buffer is not read and the position counter
is neither loaded nor stored; the image and the handler state are returned unchanged; and
`position()` returns -1. -/
theorem closed_image_polls_return_closed {σ τ υ : Type} (img : Image)
    (hclosed : img.isClosed = true) (read : TermReaderRead σ) (hs1 : σ)
    (h : controlled_poll_fragment_handler_t τ) (hdr : Int) (hs2 : τ)
    (scan : TermBlockScan) (bh : block_handler_t υ) (hs3 : υ) (limit : Int) :
    Image.poll read img hs1 limit =
        { result := -1, image := img, handlerState := hs1, trace := [] } ∧
      Image.controlledPoll h hdr img hs2 limit =
        some { result := -1, image := img, handlerState := hs2, trace := [] } ∧
      Image.blockPoll scan bh img hs3 limit =
        { result := -1, image := img, handlerState := hs3, trace := [] } ∧
      img.position = -1 := by
  refine ⟨?_, ?_, ?_, ?_⟩
  · simp [Image.poll, hclosed, IMAGE_CLOSED]
  · simp [Image.controlledPoll, hclosed, IMAGE_CLOSED]
  · simp [Image.blockPoll, hclosed, IMAGE_CLOSED]
  · simp [Image.position, hclosed, IMAGE_CLOSED]

/-- C1 at the closed three-frame image, with the scripted handler and readers that would
report progress if they were called. -/
theorem closed_image_polls_return_closed_witness :
    threeFrameImage.close.isClosed = true ∧
      (Image.poll (fun _ _ (s : Nat) _ => ({ offset := 64, fragmentsRead := 2 }, s + 1, []))
          threeFrameImage.close 0 10).result = -1 ∧
      (Image.controlledPoll scriptedHandler 32 threeFrameImage.close [CONTINUE] 10).map
          (fun r => (r.result, r.handlerState, r.trace)) = some (-1, [CONTINUE], []) ∧
      (Image.blockPoll (fun _ _ _ => 96) (fun (s : Nat) _ _ _ _ => (Invocation.returns (), s + 1))
          threeFrameImage.close 0 4096).result = -1 ∧
      threeFrameImage.close.position = -1 :=
  have H := closed_image_polls_return_closed threeFrameImage.close rfl
    (fun _ _ (s : Nat) _ => ({ offset := 64, fragmentsRead := 2 }, s + 1, [])) 0
    scriptedHandler 32 [CONTINUE] (fun _ _ _ => 96)
    (fun (s : Nat) _ _ _ _ => (Invocation.returns (), s + 1)) 0 10
  ⟨rfl, by rw [H.1], by decide, by decide, H.2.2.2⟩

/-- C2: at the three-frame image (position 3072 at term offset 0, three committed data
frames of aligned length 32), a `controlledPoll` with fragment limit 3 whose handler
returns CONTINUE, COMMIT, ABORT returns 2 but leaves the subscriber position advanced by
32, the aligned length of the committed frame alone, and not by 64. -/
theorem controlledPoll_continue_commit_abort_advance :
    (Image.controlledPoll scriptedHandler 32 threeFrameImage [CONTINUE, COMMIT, ABORT] 3).map
        (fun r => (r.result, r.image.subscriberPosition - threeFrameImage.subscriberPosition)) =
      some (2, 32) := by
  decide

/-- C3: at the three-frame image, when the handler returns CONTINUE for the frame at
offset 0 and COMMIT for the frame at offset 32, the value stored to the position counter
right after the COMMIT is 3104 = 3072 + 32, not the stream position 3136 = 3072 + 64 of
the end of the committed frame. -/
theorem controlledPoll_commit_after_continue_publishes :
    (Image.controlledPoll scriptedHandler 32 threeFrameImage [CONTINUE, COMMIT] 2).map
        (fun r => r.trace) =
      some [Event.positionGet,
        Event.term (TermEvent.frameLengthRead 0), Event.term (TermEvent.paddingCheck 0),
        Event.term (TermEvent.handlerCall 0 32 0),
        Event.term (TermEvent.handlerReturned CONTINUE),
        Event.term (TermEvent.frameLengthRead 32), Event.term (TermEvent.paddingCheck 32),
        Event.term (TermEvent.handlerCall 32 64 0),
        Event.term (TermEvent.handlerReturned COMMIT),
        Event.positionSet 3104] := by
  decide

/-- C4: at the three-frame image, when the handler returns CONTINUE, COMMIT and then BREAK
for the frame at offset 64, the pass ends with all three fragments counted, but the
subscriber position after the pass is 3136 = 3072 + 64, not the stream position
3168 = 3072 + 96 of the end of the frame the handler broke on. -/
theorem controlledPoll_break_after_commit_position :
    (Image.controlledPoll scriptedHandler 32 threeFrameImage [CONTINUE, COMMIT, BREAK] 10).map
        (fun r => (r.result, r.image.subscriberPosition, published r.trace)) =
      some (3, 3136, [3104, 3136]) := by
  decide

/-- C5, as stated, fails: at the three-frame image with a handler returning CONTINUE and
then ABORT, the counter holds 3072 up to the aborted invocation (nothing is stored before
it) and holds 3104 after the pass, the stream position of the start of the aborted
frame. -/
theorem controlledPoll_abort_after_continue_moves_position :
    threeFrameImage.subscriberPosition = 3072 ∧
      (Image.controlledPoll scriptedHandler 32 threeFrameImage [CONTINUE, ABORT] 10).map
          (fun r => (r.result, r.image.subscriberPosition, r.trace)) =
        some (1, 3104, [Event.positionGet,
          Event.term (TermEvent.frameLengthRead 0), Event.term (TermEvent.paddingCheck 0),
          Event.term (TermEvent.handlerCall 0 32 0),
          Event.term (TermEvent.handlerReturned CONTINUE),
          Event.term (TermEvent.frameLengthRead 32), Event.term (TermEvent.paddingCheck 32),
          Event.term (TermEvent.handlerCall 32 64 0),
          Event.term (TermEvent.handlerReturned ABORT),
          Event.positionSet 3104]) := by
  decide

/-- C5, amended: a `controlledPoll` of an open, valid image over well-formed frames comes
to an end, and when the actions returned in the pass are any number of CONTINUE followed by
ABORT, the call returns and the position is not advanced for the aborted fragment: the
subscriber position after the pass is the position before the pass plus the distance from
the initial term offset to the frame offset of the aborted fragment (the last one handed
to the handler), the returned count is the number of CONTINUE answers, and the counter is
stored to once, at the end of the pass, when that distance is positive and not at all when
it is zero. -/
theorem controlledPoll_abort_position {σ : Type} (h : controlled_poll_fragment_handler_t σ)
    (hdr : Int) (img : Image) (hs : σ) (limit : Int) (hopen : img.isClosed = false)
    (hv : img.Valid) (hf : img.termBuffer.FramesWithin) :
    ∃ r, Image.controlledPoll h hdr img hs limit = some r ∧
      ∀ n : Nat, actions r.trace = List.replicate n CONTINUE ++ [ABORT] →
        ∃ frameOffset, (delivered r.trace).getLast? = some frameOffset ∧
          r.image.subscriberPosition =
            img.subscriberPosition + (frameOffset - img.termOffset) ∧
          r.result = n ∧ r.returned = some r.result ∧
          published r.trace =
            (if img.termOffset < frameOffset then
              [img.subscriberPosition + (frameOffset - img.termOffset)] else []) := by
  obtain ⟨s2, hloop, hpoll⟩ := Image.controlledPoll_run h hdr img hs limit hopen hv hf
  have hJ := Image.controlledPollStart_inv img hs hv
  obtain ⟨hE, _⟩ := Image.controlledPollLoop_published h hdr img.termBuffer limit hf _ _ _ hJ hloop
  obtain ⟨new, ht, hQ⟩ := Image.controlledPollLoop_abort h hdr img.termBuffer limit hf _ _ _ hJ hloop
  refine ⟨_, hpoll, ?_⟩
  have ht2 : s2.trace = Event.positionGet :: new := ht
  intro n hn
  have hact : actions new = List.replicate n CONTINUE ++ [ABORT] := by
    rcases hesc : s2.escaped with _ | _
    · rw [Image.controlledPollFinish_eq img s2 hE hesc] at hn
      simp only [ht2] at hn
      rw [← hn]
      split <;> simp [actions_append, actions]
    · rw [Image.controlledPollFinish_escaped img s2 hE hesc] at hn
      simp only [ht2] at hn
      rw [← hn]
      simp [actions]
  obtain ⟨q1, q2, q3, q4, q5, q6⟩ := hQ n hact
  have hesc : s2.escaped = false := q6
  rw [Image.controlledPollFinish_eq img s2 hE hesc]
  have p1 : s2.position = img.subscriberPosition := q1
  have p2 : s2.termOffset = img.termOffset := q2
  have p5 : s2.fragmentsRead = n := by rw [q5]; simp [Image.controlledPollStart]
  refine ⟨s2.offset, ?_, ?_, p5, rfl, ?_⟩
  · simp only [ht2]
    split <;> simp [delivered_append, delivered, q4]
  · simp only [p1, p2]
  · simp only [ht2, p1, p2]
    split <;> simp [published_append, published, q3]

/-- C5, amended, at the three-frame image with a handler returning CONTINUE and then
ABORT: the pass returns 1 and leaves the position at 3072 + (32 - 0). -/
theorem controlledPoll_abort_position_witness :
    threeFrameImage.isClosed = false ∧ threeFrameImage.Valid ∧
      threeFrameImage.termBuffer.FramesWithin ∧
      ∃ r, Image.controlledPoll scriptedHandler 32 threeFrameImage [CONTINUE, ABORT] 10 = some r ∧
        actions r.trace = List.replicate 1 CONTINUE ++ [ABORT] ∧
        (delivered r.trace).getLast? = some 32 ∧
        r.image.subscriberPosition = 3072 + (32 - 0) ∧ r.result = 1 := by
  refine ⟨rfl, threeFrameImage_valid, threeFrameImage_framesWithin, ?_⟩
  obtain ⟨r, hr, H⟩ := controlledPoll_abort_position scriptedHandler 32 threeFrameImage
    [CONTINUE, ABORT] 10 rfl threeFrameImage_valid threeFrameImage_framesWithin
  have hev : (Image.controlledPoll scriptedHandler 32 threeFrameImage [CONTINUE, ABORT] 10).map
      (fun r => (actions r.trace, (delivered r.trace).getLast?)) =
      some ([CONTINUE, ABORT], some 32) := by decide
  rw [hr] at hev
  simp only [Option.map_some', Option.some.injEq, Prod.mk.injEq] at hev
  obtain ⟨fo, h1, h2, h3, _⟩ := H 1 hev.1
  have hfo : fo = 32 := by
    rw [hev.2] at h1
    exact (Option.some.inj h1).symm
  subst hfo
  exact ⟨r, hr, hev.1, hev.2, h2, h3⟩

/-- C6: at the three-frame image, after a pass in which the handler returns CONTINUE,
COMMIT and then ABORT for the frame at offset 64, the count is 2 but the subscriber
position is 3104, not the stream position 3136 of the start of the aborted frame, and the
next `controlledPoll` delivers the frame at offset 32 again, not the aborted one, as its
first fragment. -/
theorem controlledPoll_abort_after_commit_redelivers :
    (Image.controlledPoll scriptedHandler 32 threeFrameImage [CONTINUE, COMMIT, ABORT] 3).bind
        (fun r1 => (Image.controlledPoll scriptedHandler 32 r1.image [CONTINUE] 1).map
          (fun r2 => (r1.result, delivered r1.trace, r1.image.subscriberPosition,
            delivered r2.trace))) =
      some (2, [0, 32, 64], 3104, [32]) := by
  decide

/-- C7: for an open, valid image (power-of-two term length of at most `2 ^ 30`, position
between 0 and `2 ^ 62`) whose frame lengths are at most the term length, the subscriber
position after `poll`, after `blockPoll` and after `controlledPoll` is at least the
position before the call, whatever the reader, the scanner and the handlers do (returning
any action or throwing, also an exception that leaves the poll); `controlledPoll` comes to
an end, and the values it stores to the position counter during the pass ascend, starting
from the position before the call and ending at the position after it. -/
theorem subscriber_position_monotone {σ τ υ : Type} (img : Image)
    (hopen : img.isClosed = false) (hv : img.Valid) (hf : img.termBuffer.FramesWithin)
    (read : TermReaderRead σ) (hs1 : σ) (limit1 : Int)
    (scan : TermBlockScan) (bh : block_handler_t τ) (hs2 : τ) (limit2 : Int)
    (h : controlled_poll_fragment_handler_t υ) (hdr : Int) (hs3 : υ) (limit3 : Int) :
    img.subscriberPosition ≤ (Image.poll read img hs1 limit1).image.subscriberPosition ∧
      img.subscriberPosition ≤
        (Image.blockPoll scan bh img hs2 limit2).image.subscriberPosition ∧
      ∃ r, Image.controlledPoll h hdr img hs3 limit3 = some r ∧
        img.subscriberPosition ≤ r.image.subscriberPosition ∧
        List.Chain (· ≤ ·) img.subscriberPosition
          (published r.trace ++ [r.image.subscriberPosition]) := by
  refine ⟨Image.poll_position_le read img hs1 limit1,
    Image.blockPoll_position_le scan bh img hs2 limit2 hv, ?_⟩
  obtain ⟨s2, hloop, hpoll⟩ := Image.controlledPoll_run h hdr img hs3 limit3 hopen hv hf
  have hJ := Image.controlledPollStart_inv img hs3 hv
  obtain ⟨hE, new, ht, hch⟩ :=
    Image.controlledPollLoop_published h hdr img.termBuffer limit3 hf _ _ _ hJ hloop
  have ht2 : s2.trace = Event.positionGet :: new := ht
  have hch2 : List.Chain (· ≤ ·) img.subscriberPosition (published new ++ [s2.position]) := hch
  refine ⟨_, hpoll, ?_⟩
  have hle := Image.chain_first_le_last _ _ _ hch2
  rcases hesc : s2.escaped with _ | _
  swap
  · rw [Image.controlledPollFinish_escaped img s2 hE hesc]
    dsimp only
    refine ⟨hle, ?_⟩
    have hpub : published s2.trace = published new := by
      rw [ht2]; rfl
    rw [hpub]
    exact hch2
  rw [Image.controlledPollFinish_eq img s2 hE hesc]
  obtain ⟨e1, e2, e3, e4, e5, e6, e7⟩ := hE
  dsimp only
  refine ⟨by omega, ?_⟩
  simp only [ht2]
  by_cases hlt : s2.termOffset < s2.offset
  · rw [if_pos hlt]
    have hpub : published (Event.positionGet :: new ++
        [Event.positionSet (s2.position + (s2.offset - s2.termOffset))]) =
        published new ++ [s2.position + (s2.offset - s2.termOffset)] := by
      simp [published_append, published]
    rw [hpub, List.append_assoc]
    exact Image.chain_append_last _ _ _ _ (le_refl _)
      (Image.chain_raise_last _ _ _ _ (by omega) hch2)
  · rw [if_neg hlt]
    have hpub : published (Event.positionGet :: new ++ []) = published new := by
      simp [published]
    have heq : s2.position + (s2.offset - s2.termOffset) = s2.position := by omega
    rw [hpub, heq]
    exact hch2

/-- C7 at the three-frame image: a reader reporting two fragments up to offset 64, a
scanner reporting a block up to offset 96, and a handler returning COMMIT, COMMIT and then
throwing. -/
theorem subscriber_position_monotone_witness :
    threeFrameImage.isClosed = false ∧ threeFrameImage.Valid ∧
      threeFrameImage.termBuffer.FramesWithin ∧
      threeFrameImage.subscriberPosition ≤
        (Image.poll (fun _ _ (s : Nat) _ => ({ offset := 64, fragmentsRead := 2 }, s + 1, []))
          threeFrameImage 0 10).image.subscriberPosition ∧
      threeFrameImage.subscriberPosition ≤
        (Image.blockPoll (fun _ _ _ => 96)
          (fun (s : Nat) _ _ _ _ => (Invocation.returns (), s + 1))
          threeFrameImage 0 4096).image.subscriberPosition ∧
      ∃ r, Image.controlledPoll scriptedHandler 32 threeFrameImage [COMMIT, COMMIT] 10 = some r ∧
        threeFrameImage.subscriberPosition ≤ r.image.subscriberPosition ∧
        List.Chain (· ≤ ·) threeFrameImage.subscriberPosition
          (published r.trace ++ [r.image.subscriberPosition]) :=
  ⟨rfl, threeFrameImage_valid, threeFrameImage_framesWithin,
    subscriber_position_monotone threeFrameImage rfl threeFrameImage_valid
      threeFrameImage_framesWithin
      (fun _ _ (s : Nat) _ => ({ offset := 64, fragmentsRead := 2 }, s + 1, [])) 0 10
      (fun _ _ _ => 96) (fun (s : Nat) _ _ _ _ => (Invocation.returns (), s + 1)) 0 4096
      scriptedHandler 32 [COMMIT, COMMIT] 10⟩

/-- C8: for an open, valid image, `poll` hands the term read the partition selected by the
position, index `(position / termLength) mod 3`, and the term offset
`position mod termLength`; provided the read outcome's offset is an `int32` not before the
term offset, `poll` returns exactly the outcome's `fragmentsRead` and the handler state
the read left, the subscriber position afterwards is the old position plus
`nextOffset - termOffset`, and the trace is the load of the counter, then the steps of the
read, then one store of the new position when `nextOffset` is beyond the term offset and
no store otherwise. -/
theorem poll_reads_and_advances {σ : Type} (read : TermReaderRead σ) (img : Image) (hs : σ)
    (limit : Int) (hopen : img.isClosed = false) (hv : img.Valid)
    (hnext : img.termOffset ≤ (read img.termBuffer img.termOffset hs limit).1.offset)
    (hint : (read img.termBuffer img.termOffset hs limit).1.offset ≤ 2147483647)
    (hcount : -2147483648 ≤ (read img.termBuffer img.termOffset hs limit).1.fragmentsRead ∧
      (read img.termBuffer img.termOffset hs limit).1.fragmentsRead ≤ 2147483647) :
    img.termOffset = img.subscriberPosition % 2 ^ img.positionBitsToShift ∧
      img.termBuffer = img.termBuffers
        ((img.subscriberPosition / 2 ^ img.positionBitsToShift % 3).toNat) ∧
      (Image.poll read img hs limit).result =
        (read img.termBuffer img.termOffset hs limit).1.fragmentsRead ∧
      (Image.poll read img hs limit).handlerState =
        (read img.termBuffer img.termOffset hs limit).2.1 ∧
      (Image.poll read img hs limit).image.subscriberPosition =
        img.subscriberPosition +
          ((read img.termBuffer img.termOffset hs limit).1.offset - img.termOffset) ∧
      (Image.poll read img hs limit).trace =
        Event.positionGet ::
          ((read img.termBuffer img.termOffset hs limit).2.2.map Event.term ++
            (if img.termOffset < (read img.termBuffer img.termOffset hs limit).1.offset then
              [Event.positionSet (img.subscriberPosition +
                ((read img.termBuffer img.termOffset hs limit).1.offset - img.termOffset))]
            else [])) := by
  obtain ⟨t0, t1⟩ := Image.termOffset_bounds img hv
  have hv2 := hv
  obtain ⟨hk, hm, hcap, hp0, hp1⟩ := hv2
  have hcapb : img.termBuffer.capacity ≤ 1073741824 := by
    have hc : img.termBuffer.capacity = 2 ^ img.positionBitsToShift := hcap _
    rw [hc]; exact pow_le_pow_right₀ (by norm_num) hk
  refine ⟨?_, ?_, ?_⟩
  · unfold Image.termOffset
    rw [hm]
    exact and32_pow_mask _ _ hk
  · unfold Image.termBuffer indexByPosition PARTITION_COUNT
    simp only [Int.shiftRight_eq_div_pow, Nat.cast_pow, Nat.cast_ofNat]
  · rcases hread : read img.termBuffer img.termOffset hs limit with ⟨out, hs2, steps⟩
    rw [hread] at hnext hint hcount
    simp only at hnext hint hcount
    have hread2 : read (img.termBuffers (indexByPosition img.subscriberPosition
        img.positionBitsToShift)) (and32 (wrap32 img.subscriberPosition) img.termLengthMask)
        hs limit = (out, hs2, steps) := hread
    have w0 : wrap32 out.offset = out.offset := wrap32_of_range (by omega) (by omega)
    have w1 : wrap32 (out.offset - img.termOffset) = out.offset - img.termOffset :=
      wrap32_of_range (by omega) (by omega)
    have w2 : wrap64 (img.subscriberPosition + (out.offset - img.termOffset)) =
        img.subscriberPosition + (out.offset - img.termOffset) :=
      wrap64_of_range (by omega) (by omega)
    have w3 : wrap32 out.fragmentsRead = out.fragmentsRead :=
      wrap32_of_range (by omega) (by omega)
    have w1b : wrap32 (out.offset - and32 (wrap32 img.subscriberPosition) img.termLengthMask) =
      out.offset - img.termOffset := w1
    unfold Image.poll
    simp only [hopen, Bool.not_false, if_true, hread2, w0, w1b, w2, w3]
    by_cases hlt : img.termOffset < out.offset
    · have hgt : img.subscriberPosition + (out.offset - img.termOffset) > img.subscriberPosition := by
        omega
      rw [if_pos hgt, if_pos hlt]
      simp
    · have hgt : ¬ (img.subscriberPosition + (out.offset - img.termOffset) >
          img.subscriberPosition) := by omega
      have heq : out.offset - img.termOffset = 0 := by omega
      rw [if_neg hgt, if_neg hlt, heq]
      simp

/-- C8 at the three-frame image with a reader reporting two fragments up to offset 64. -/
theorem poll_reads_and_advances_witness :
    threeFrameImage.isClosed = false ∧ threeFrameImage.Valid ∧
      (Image.poll (fun _ o (s : Nat) _ => ({ offset := o + 64, fragmentsRead := 2 }, s + 1,
          [TermEvent.frameLengthRead o])) threeFrameImage 0 10).result = 2 ∧
      (Image.poll (fun _ o (s : Nat) _ => ({ offset := o + 64, fragmentsRead := 2 }, s + 1,
          [TermEvent.frameLengthRead o])) threeFrameImage 0 10).image.subscriberPosition =
        3072 + (0 + 64 - 0) :=
  have H := poll_reads_and_advances
    (fun _ o (s : Nat) _ => ({ offset := o + 64, fragmentsRead := 2 }, s + 1,
      [TermEvent.frameLengthRead o])) threeFrameImage 0 10 rfl threeFrameImage_valid
    (by decide) (by decide) (by decide)
  ⟨rfl, threeFrameImage_valid, H.2.2.1, by rw [H.2.2.2.2.1]; decide⟩

/-- C9: a `controlledPoll` of an open, valid image over well-formed frames comes to an
end, and when every handler invocation of the pass returned CONTINUE and none threw (the
exception handler was not called and no exception left the poll), the returned
count is the number of committed non-padding frames the pass went over, which are exactly
the frames handed to the handler; the subscriber position after the pass is the old
position plus the sum of the aligned lengths of all frames gone over, padding included;
and the counter is stored to only at the end of the pass: once, as the last step, when
that sum is positive, and not at all when no frame was gone over. -/
theorem controlledPoll_all_continue {σ : Type} (h : controlled_poll_fragment_handler_t σ)
    (hdr : Int) (img : Image) (hs : σ) (limit : Int) (hopen : img.isClosed = false)
    (hv : img.Valid) (hf : img.termBuffer.FramesWithin) :
    ∃ r, Image.controlledPoll h hdr img hs limit = some r ∧
      ((∀ a ∈ actions r.trace, a = CONTINUE) →
        Event.term TermEvent.exceptionHandled ∉ r.trace → r.escaped = false →
        r.returned = some r.result ∧
        r.result = ((visited r.trace).filter
          (fun o => !img.termBuffer.isPaddingFrame o)).length ∧
        delivered r.trace = (visited r.trace).filter
          (fun o => !img.termBuffer.isPaddingFrame o) ∧
        r.image.subscriberPosition = img.subscriberPosition +
          ((visited r.trace).map (alignedLengthAt img.termBuffer)).sum ∧
        published r.trace =
          (if 0 < ((visited r.trace).map (alignedLengthAt img.termBuffer)).sum then
            [img.subscriberPosition +
              ((visited r.trace).map (alignedLengthAt img.termBuffer)).sum] else []) ∧
        (0 < ((visited r.trace).map (alignedLengthAt img.termBuffer)).sum →
          r.trace.getLast? = some (Event.positionSet (img.subscriberPosition +
            ((visited r.trace).map (alignedLengthAt img.termBuffer)).sum)))) := by
  obtain ⟨s2, hloop, hpoll⟩ := Image.controlledPoll_run h hdr img hs limit hopen hv hf
  have hJ := Image.controlledPollStart_inv img hs hv
  obtain ⟨hE, _⟩ := Image.controlledPollLoop_published h hdr img.termBuffer limit hf _ _ _ hJ hloop
  obtain ⟨new, ht, hQ⟩ :=
    Image.controlledPollLoop_continue h hdr img.termBuffer limit hf _ _ _ hJ hloop
  refine ⟨_, hpoll, ?_⟩
  rcases hesc : s2.escaped with _ | _
  swap
  · rw [Image.controlledPollFinish_escaped img s2 hE hesc]
    intro _ _ habs
    exact absurd habs (by simp)
  rw [Image.controlledPollFinish_eq img s2 hE hesc]
  have ht2 : s2.trace = Event.positionGet :: new := ht
  dsimp only
  rw [ht2]
  have hvis : ∀ tail : List Event, (tail = [] ∨ ∃ v, tail = [Event.positionSet v]) →
      visited (Event.positionGet :: new ++ tail) = visited new ∧
      delivered (Event.positionGet :: new ++ tail) = delivered new ∧
      actions (Event.positionGet :: new ++ tail) = actions new := by
    intro tail htail
    rcases htail with rfl | ⟨v, rfl⟩ <;>
      simp [visited_append, delivered_append, actions_append, visited, delivered, actions]
  have htail : ((if s2.termOffset < s2.offset then
      [Event.positionSet (s2.position + (s2.offset - s2.termOffset))] else []) = [] ∨
      ∃ v, (if s2.termOffset < s2.offset then
        [Event.positionSet (s2.position + (s2.offset - s2.termOffset))] else []) =
        [Event.positionSet v]) := by
    split
    · exact Or.inr ⟨_, rfl⟩
    · exact Or.inl rfl
  obtain ⟨v1, v2, v3⟩ := hvis _ htail
  rw [v1, v2, v3]
  intro hact hexc _
  have hexc1 : Event.term TermEvent.exceptionHandled ∉ new := by
    intro hmem
    exact hexc (List.mem_append_left _ (List.mem_cons_of_mem _ hmem))
  obtain ⟨q1, q2, q3, q4, q5, q6⟩ := hQ hact hexc1 hesc
  have p1 : s2.position = img.subscriberPosition := q2
  have p2 : s2.termOffset = img.termOffset := q3
  have p4 : s2.offset = img.termOffset +
      ((visited new).map (alignedLengthAt img.termBuffer)).sum := q4
  have p5 : s2.fragmentsRead =
      ((visited new).filter (fun o => !img.termBuffer.isPaddingFrame o)).length := by
    rw [q5]; simp [Image.controlledPollStart]
  have hadv : s2.offset - s2.termOffset =
      ((visited new).map (alignedLengthAt img.termBuffer)).sum := by
    rw [p4, p2]; ring
  rw [hadv, p1, p2]
  generalize ((visited new).map (alignedLengthAt img.termBuffer)).sum = advance at *
  have hiff : img.termOffset < s2.offset ↔ 0 < advance := by
    rw [p4]; constructor <;> intro hh <;> omega
  refine ⟨rfl, p5, q6, rfl, ?_, ?_⟩
  · by_cases hpos : 0 < advance
    · rw [if_pos (hiff.mpr hpos), if_pos hpos]
      simp [published_append, published, q1]
    · rw [if_neg (fun hh => hpos (hiff.mp hh)), if_neg hpos]
      simp [published, q1]
  · intro hpos
    rw [if_pos (hiff.mpr hpos)]
    exact List.getLast?_concat _

/-- C9 at the padded image with a handler that always returns CONTINUE: the one data frame
is counted, and the position moves by 64 + 960, the aligned lengths of the data frame and
of the padding frame. -/
theorem controlledPoll_all_continue_witness :
    paddedImage.isClosed = false ∧ paddedImage.Valid ∧ paddedImage.termBuffer.FramesWithin ∧
      ∃ r, Image.controlledPoll scriptedHandler 32 paddedImage [CONTINUE, CONTINUE] 10 = some r ∧
        (∀ a ∈ actions r.trace, a = CONTINUE) ∧
        Event.term TermEvent.exceptionHandled ∉ r.trace ∧ r.escaped = false ∧
        visited r.trace = [0, 64] ∧ r.result = 1 ∧
        r.image.subscriberPosition = 3072 + (64 + 960) ∧
        published r.trace = [3072 + (64 + 960)] := by
  refine ⟨rfl, paddedImage_valid, paddedImage_framesWithin, ?_⟩
  obtain ⟨r, hr, H⟩ := controlledPoll_all_continue scriptedHandler 32 paddedImage
    [CONTINUE, CONTINUE] 10 rfl paddedImage_valid paddedImage_framesWithin
  have hev : (Image.controlledPoll scriptedHandler 32 paddedImage [CONTINUE, CONTINUE] 10).map
      (fun r => (actions r.trace, visited r.trace,
        decide (Event.term TermEvent.exceptionHandled ∈ r.trace), r.escaped)) =
      some ([CONTINUE], [0, 64], false, false) := by decide
  rw [hr] at hev
  simp only [Option.map_some', Option.some.injEq, Prod.mk.injEq, decide_eq_false_iff_not] at hev
  obtain ⟨ha, hvis, hexc, hesc⟩ := hev
  have hact : ∀ a ∈ actions r.trace, a = CONTINUE := by
    rw [ha]; intro a hmem; simpa using hmem
  obtain ⟨_, h1, _, h3, h4, _⟩ := H hact hexc hesc
  rw [hvis] at h1 h3 h4
  have hsum : ([0, 64].map (alignedLengthAt paddedImage.termBuffer)).sum = 64 + 960 := by
    decide
  rw [hsum] at h3 h4
  refine ⟨r, hr, hact, hexc, hesc, hvis, ?_, h3, ?_⟩
  · rw [h1]; decide
  · rw [h4]; decide

/-- `blockPoll` on an open image, with names for the values it computes. -/
theorem blockPoll_eq {σ : Type} (scan : TermBlockScan) (bh : block_handler_t σ)
    (img : Image) (hs : σ) (blockLengthLimit : Int) (hopen : img.isClosed = false)
    (limit resultingOffset bytes termId newPosition : Int)
    (hlimit : min (wrap32 (img.termOffset + blockLengthLimit)) img.termBuffer.capacity = limit)
    (hres : wrap32 (scan img.termBuffer img.termOffset limit) = resultingOffset)
    (hbytes : wrap32 (resultingOffset - img.termOffset) = bytes)
    (htid : wrap32 (img.termBuffer.termIdAt img.termOffset) = termId)
    (hnew : wrap64 (img.subscriberPosition + bytes) = newPosition) :
    Image.blockPoll scan bh img hs blockLengthLimit =
      if resultingOffset > img.termOffset then
        match bh hs img.termOffset bytes img.sessionId termId with
        | (Invocation.returns _, hs2) =>
          { result := bytes, image := { img with subscriberPosition := newPosition }, handlerState := hs2, trace := [Event.positionGet, Event.term (TermEvent.blockScan img.termOffset limit), Event.term (TermEvent.termIdRead img.termOffset), Event.term (TermEvent.blockHandlerCall img.termOffset bytes img.sessionId termId), Event.positionSet newPosition] }
        | (Invocation.throws, hs2) =>
          { result := bytes, image := { img with subscriberPosition := newPosition }, handlerState := hs2, trace := [Event.positionGet, Event.term (TermEvent.blockScan img.termOffset limit), Event.term (TermEvent.termIdRead img.termOffset), Event.term (TermEvent.blockHandlerCall img.termOffset bytes img.sessionId termId), Event.term TermEvent.exceptionHandled, Event.positionSet newPosition] }
        | (Invocation.escapes true, hs2) =>
          { result := bytes, image := img, handlerState := hs2, trace := [Event.positionGet, Event.term (TermEvent.blockScan img.termOffset limit), Event.term (TermEvent.termIdRead img.termOffset), Event.term (TermEvent.blockHandlerCall img.termOffset bytes img.sessionId termId), Event.term TermEvent.exceptionHandled], escaped := true }
        | (Invocation.escapes false, hs2) =>
          { result := bytes, image := img, handlerState := hs2, trace := [Event.positionGet, Event.term (TermEvent.blockScan img.termOffset limit), Event.term (TermEvent.termIdRead img.termOffset), Event.term (TermEvent.blockHandlerCall img.termOffset bytes img.sessionId termId)], escaped := true }
      else
        { result := bytes, image := img, handlerState := hs, trace := [Event.positionGet, Event.term (TermEvent.blockScan img.termOffset limit)] } := by
  subst hlimit hres hbytes htid hnew
  unfold Image.blockPoll Image.termOffset Image.termBuffer
  simp only [hopen, Bool.not_false, if_true]
  split
  · split <;> simp_all
  · rfl

/-- C10: for an open, valid image, with `resultingOffset` the block scanner's result for
the term offset and the limit `min(termOffset + blockLengthLimit, capacity)`, an `int32`
not before the term offset, the count of `blockPoll` is `resultingOffset - termOffset`.
The call returns unless the count is positive and the block handler makes an exception
leave it; when it returns, it returns that count and leaves the subscriber position at the
old position plus that count, and when an exception leaves it the position is unchanged.
When the count is positive the trace is: load of the counter, the scan, the read of the
term id, one call of the block handler with the term offset, exactly that count, the
session id and the term id, the exception handler if the block handler threw an exception
the catch clause takes, and, when the call returns, one store of the new position; the
handler state is the one the block handler left.  When the scan found nothing the trace is
the load and the scan only, the handler is not invoked and its state is unchanged, 0 is
returned and the position is unchanged. -/
theorem blockPoll_delivers_block {σ : Type} (scan : TermBlockScan) (bh : block_handler_t σ)
    (img : Image) (hs : σ) (blockLengthLimit : Int) (hopen : img.isClosed = false)
    (hv : img.Valid)
    (hnext : img.termOffset ≤ scan img.termBuffer img.termOffset
      (min (wrap32 (img.termOffset + blockLengthLimit)) img.termBuffer.capacity))
    (hint : scan img.termBuffer img.termOffset
      (min (wrap32 (img.termOffset + blockLengthLimit)) img.termBuffer.capacity) ≤ 2147483647) :
    let limit := min (wrap32 (img.termOffset + blockLengthLimit)) img.termBuffer.capacity
    let resultingOffset := scan img.termBuffer img.termOffset limit
    let bytes := resultingOffset - img.termOffset
    let termId := wrap32 (img.termBuffer.termIdAt img.termOffset)
    let call := bh hs img.termOffset bytes img.sessionId termId
    let r := Image.blockPoll scan bh img hs blockLengthLimit
    r.result = bytes ∧
      (r.escaped = true ↔ 0 < bytes ∧ ∃ c, call.1 = Invocation.escapes c) ∧
      (r.escaped = false →
        r.returned = some bytes ∧
        r.image.subscriberPosition = img.subscriberPosition + bytes) ∧
      (r.escaped = true →
        r.returned = none ∧ r.image.subscriberPosition = img.subscriberPosition) ∧
      (0 < bytes →
        r.handlerState = call.2 ∧
        r.trace = [Event.positionGet, Event.term (TermEvent.blockScan img.termOffset limit),
            Event.term (TermEvent.termIdRead img.termOffset),
            Event.term (TermEvent.blockHandlerCall img.termOffset bytes img.sessionId termId)] ++
          (if call.1 = Invocation.throws ∨ call.1 = Invocation.escapes true then
            [Event.term TermEvent.exceptionHandled] else []) ++
          (if r.escaped then [] else [Event.positionSet (img.subscriberPosition + bytes)])) ∧
      (bytes = 0 →
        r.returned = some 0 ∧ r.handlerState = hs ∧
        r.image.subscriberPosition = img.subscriberPosition ∧
        r.trace = [Event.positionGet,
          Event.term (TermEvent.blockScan img.termOffset limit)]) := by
  intro limit resultingOffset bytes termId call r
  obtain ⟨t0, t1⟩ := Image.termOffset_bounds img hv
  have hv2 := hv
  obtain ⟨hk, hm, hcap, hp0, hp1⟩ := hv2
  have hn : img.termOffset ≤ resultingOffset := hnext
  have hi : resultingOffset ≤ 2147483647 := hint
  have hbytes : bytes = resultingOffset - img.termOffset := rfl
  have hcapb : img.termBuffer.capacity ≤ 1073741824 := by
    have hc : img.termBuffer.capacity = 2 ^ img.positionBitsToShift := hcap _
    rw [hc]; exact pow_le_pow_right₀ (by norm_num) hk
  clear hnext hint
  have w0 : wrap32 resultingOffset = resultingOffset := wrap32_of_range (by omega) (by omega)
  have w1 : wrap32 (resultingOffset - img.termOffset) = bytes :=
    wrap32_of_range (by omega) (by omega)
  have w2 : wrap64 (img.subscriberPosition + bytes) = img.subscriberPosition + bytes :=
    wrap64_of_range (by omega) (by omega)
  have hr : r = _ := blockPoll_eq scan bh img hs blockLengthLimit hopen limit resultingOffset
    bytes termId (img.subscriberPosition + bytes) rfl w0 w1 rfl w2
  by_cases hlt : resultingOffset > img.termOffset
  · rw [if_pos hlt] at hr
    have hb : 0 < bytes := by omega
    rcases hcall : call with ⟨inv, hs2⟩
    have hcall2 : bh hs img.termOffset bytes img.sessionId termId = (inv, hs2) := hcall
    rw [hcall2] at hr
    cases inv with
    | returns u =>
      simp only at hr
      rw [hr]
      exact ⟨rfl, by simp, fun _ => ⟨rfl, rfl⟩, fun h0 => by simp at h0,
        fun _ => ⟨rfl, by simp⟩, fun h0 => by omega⟩
    | throws =>
      simp only at hr
      rw [hr]
      exact ⟨rfl, by simp, fun _ => ⟨rfl, rfl⟩, fun h0 => by simp at h0,
        fun _ => ⟨rfl, by simp⟩, fun h0 => by omega⟩
    | escapes c =>
      cases c with
      | true =>
        simp only at hr
        rw [hr]
        exact ⟨rfl, by simp [hb], fun h0 => by simp at h0, fun _ => ⟨rfl, rfl⟩,
          fun _ => ⟨rfl, by simp⟩, fun h0 => by omega⟩
      | false =>
        simp only at hr
        rw [hr]
        exact ⟨rfl, by simp [hb], fun h0 => by simp at h0, fun _ => ⟨rfl, rfl⟩,
          fun _ => ⟨rfl, by simp⟩, fun h0 => by omega⟩
  · rw [if_neg hlt] at hr
    have hb : bytes = 0 := by omega
    rw [hr]
    refine ⟨rfl, ?_, fun _ => ⟨rfl, ?_⟩, fun h0 => by simp at h0, fun h0 => by omega,
      fun _ => ⟨?_, rfl, rfl, rfl⟩⟩
    · simp only [Bool.false_eq_true, false_iff, not_and]
      intro h0; omega
    · simp only [hb]; omega
    · show some bytes = some 0
      rw [hb]

/-- C10 at the three-frame image with a scanner reporting the block up to offset 96 and a
block length limit of 4096: 96 bytes are returned and the position moves by 96. -/
theorem blockPoll_delivers_block_witness :
    threeFrameImage.isClosed = false ∧ threeFrameImage.Valid ∧
      (Image.blockPoll (fun _ _ _ => 96)
          (fun (s : Nat) _ _ _ _ => (Invocation.returns (), s + 1))
          threeFrameImage 0 4096).result = 96 - 0 ∧
      (Image.blockPoll (fun _ _ _ => 96)
          (fun (s : Nat) _ _ _ _ => (Invocation.returns (), s + 1))
          threeFrameImage 0 4096).image.subscriberPosition = 3072 + (96 - 0) := by
  have H := blockPoll_delivers_block (fun _ _ _ => 96)
    (fun (s : Nat) _ _ _ _ => (Invocation.returns (), s + 1)) threeFrameImage 0 4096 rfl
    threeFrameImage_valid (by decide) (by decide)
  dsimp only at H
  exact ⟨rfl, threeFrameImage_valid, H.1.trans (by decide),
    (H.2.2.1 (by decide)).2.trans (by decide)⟩

/-! ## Term offset, shift and partition -/

/-- The number of trailing zeroes of a power of two up to `2 ^ 30` is its exponent. -/
theorem numberOfTrailingZeroes_pow (k : Nat) (hk : k ≤ 30) :
    BitUtil.numberOfTrailingZeroes (2 ^ k) = k := by
  interval_cases k <;> decide

/-- Shifting a position right by `k` bits and reducing modulo the partition count gives
the term count modulo 3, a valid partition index. -/
theorem indexByPosition_eq (p : Int) (k : Nat) :
    indexByPosition p k = (p / 2 ^ k % 3).toNat ∧ indexByPosition p k < 3 := by
  have he : indexByPosition p k = (p / 2 ^ k % 3).toNat := by
    unfold indexByPosition PARTITION_COUNT
    simp only [Int.shiftRight_eq_div_pow, Nat.cast_pow, Nat.cast_ofNat]
  refine ⟨he, ?_⟩
  rw [he]
  omega

/-- C11: an Image constructed over a log whose term length is `2 ^ k`, `k <= 30`, has
mask `2 ^ k - 1` and `positionBitsToShift = k`; for every non-negative 64-bit subscriber
position `p` its term offset `(int32) p & mask` is `p mod 2 ^ k`, and the partition index
`(p >> k) mod 3` is `(p / 2 ^ k) mod 3`, one of 0, 1, 2.  Nothing in the proof needs a
bound on `p`, so it is stated for every integer position. -/
theorem image_term_offset_and_partition (k : Nat) (hk : k ≤ 30) (p : Int)
    (sessionId : Int) (logBuffers : Nat → TermBuffer)
    (hcap : (logBuffers 0).capacity = 2 ^ k) :
    (Image.construct sessionId p logBuffers).termLengthMask = 2 ^ k - 1 ∧
      (Image.construct sessionId p logBuffers).positionBitsToShift = k ∧
      (Image.construct sessionId p logBuffers).termOffset = p % 2 ^ k ∧
      (p >>> (Image.construct sessionId p logBuffers).positionBitsToShift) % 3 =
        p / 2 ^ k % 3 ∧
      indexByPosition p (Image.construct sessionId p logBuffers).positionBitsToShift =
        (p / 2 ^ k % 3).toNat ∧
      indexByPosition p (Image.construct sessionId p logBuffers).positionBitsToShift < 3 := by
  have hpow : (2 : Int) ^ k ≤ 2 ^ 30 := pow_le_pow_right₀ (by norm_num) hk
  have hpos : (0 : Int) < 2 ^ k := by positivity
  have hmask : (Image.construct sessionId p logBuffers).termLengthMask = 2 ^ k - 1 := by
    show wrap32 ((logBuffers 0).capacity - 1) = 2 ^ k - 1
    rw [hcap]
    exact wrap32_of_range (by omega) (by omega)
  have hshift : (Image.construct sessionId p logBuffers).positionBitsToShift = k := by
    show (BitUtil.numberOfTrailingZeroes (logBuffers 0).capacity).toNat = k
    rw [hcap, numberOfTrailingZeroes_pow k hk]
    exact Int.toNat_natCast k
  refine ⟨hmask, hshift, ?_, ?_, ?_, ?_⟩
  · unfold Image.termOffset
    rw [hmask]
    exact and32_pow_mask p k hk
  · rw [hshift]
    simp only [Int.shiftRight_eq_div_pow, Nat.cast_pow, Nat.cast_ofNat]
  · rw [hshift]
    exact (indexByPosition_eq p k).1
  · rw [hshift]
    exact (indexByPosition_eq p k).2

/-- C11 at term length `2 ^ 10` and position 3172 = 3 * 1024 + 100: mask 1023, shift 10,
term offset 100, partition 0. -/
theorem image_term_offset_and_partition_witness :
    (Image.construct 1 3172 (fun _ => threeFrameTerm)).termLengthMask = 2 ^ 10 - 1 ∧
      (Image.construct 1 3172 (fun _ => threeFrameTerm)).positionBitsToShift = 10 ∧
      (Image.construct 1 3172 (fun _ => threeFrameTerm)).termOffset = 3172 % 2 ^ 10 ∧
      indexByPosition 3172 (Image.construct 1 3172 (fun _ => threeFrameTerm)).positionBitsToShift =
        ((3172 : Int) / 2 ^ 10 % 3).toNat :=
  have H := image_term_offset_and_partition 10 (by decide) 3172 1
    (fun _ => threeFrameTerm) rfl
  ⟨H.1, H.2.1, H.2.2.1, H.2.2.2.2.1⟩

/-! ## Crossing into the next term -/

/-- A basic poll changes nothing of an image but its subscriber position. -/
theorem poll_sameLog {σ : Type} (read : TermReaderRead σ) (img : Image) (hs : σ)
    (limit : Int) : (Image.poll read img hs limit).image.SameLog img := by
  unfold Image.poll
  split
  · rcases read (img.termBuffers (indexByPosition img.subscriberPosition
      img.positionBitsToShift)) (and32 (wrap32 img.subscriberPosition) img.termLengthMask)
      hs limit with ⟨out, hs2, steps⟩
    simp only
    split <;> exact ⟨rfl, rfl, rfl, rfl, rfl⟩
  · exact ⟨rfl, rfl, rfl, rfl, rfl⟩

/-- A block poll changes nothing of an image but its subscriber position. -/
theorem blockPoll_sameLog {σ : Type} (scan : TermBlockScan) (bh : block_handler_t σ)
    (img : Image) (hs : σ) (limit : Int) :
    (Image.blockPoll scan bh img hs limit).image.SameLog img := by
  unfold Image.blockPoll
  split
  · simp only
    split
    · split <;> exact ⟨rfl, rfl, rfl, rfl, rfl⟩
    · exact ⟨rfl, rfl, rfl, rfl, rfl⟩
  · exact ⟨rfl, rfl, rfl, rfl, rfl⟩

/-- A controlled poll changes nothing of an image but its subscriber position. -/
theorem controlledPoll_sameLog {σ : Type} (h : controlled_poll_fragment_handler_t σ)
    (hdr : Int) (img : Image) (hs : σ) (limit : Int) (r : PollResult σ)
    (hr : Image.controlledPoll h hdr img hs limit = some r) : r.image.SameLog img := by
  unfold Image.controlledPoll at hr
  split at hr
  · simp only at hr
    split at hr
    · exact absurd hr (by simp)
    · rename_i s2 _
      have : r = Image.controlledPollFinish img s2 := (Option.some.inj hr).symm
      rw [this]
      unfold Image.controlledPollFinish
      simp only
      split
      · exact ⟨rfl, rfl, rfl, rfl, rfl⟩
      · split <;> exact ⟨rfl, rfl, rfl, rfl, rfl⟩
  · have : r = _ := (Option.some.inj hr).symm
    rw [this]
    exact ⟨rfl, rfl, rfl, rfl, rfl⟩

/-- No poll moves the subscriber position of a closed image. -/
theorem closed_poll_position {σ τ υ : Type} (img : Image) (hclosed : img.isClosed = true)
    (read : TermReaderRead σ) (hs1 : σ) (limit1 : Int)
    (scan : TermBlockScan) (bh : block_handler_t τ) (hs2 : τ) (limit2 : Int)
    (h : controlled_poll_fragment_handler_t υ) (hdr : Int) (hs3 : υ) (limit3 : Int)
    (next : Image)
    (hnext : next = (Image.poll read img hs1 limit1).image ∨
      next = (Image.blockPoll scan bh img hs2 limit2).image ∨
      ∃ r, Image.controlledPoll h hdr img hs3 limit3 = some r ∧ next = r.image) :
    next.subscriberPosition = img.subscriberPosition := by
  rcases hnext with rfl | rfl | ⟨r, hr, rfl⟩
  · simp [Image.poll, hclosed]
  · simp [Image.blockPoll, hclosed]
  · simp only [Image.controlledPoll, hclosed, Bool.not_true, Bool.false_eq_true, if_false,
      Option.some.injEq] at hr
    rw [← hr]

/-- An image of the same log whose position is the end of the term another, valid image
is in has term offset 0 and is in the next partition. -/
theorem next_term_rotation (img next : Image) (hv : img.Valid) (hsame : next.SameLog img)
    (hend : next.subscriberPosition =
      img.subscriberPosition - img.termOffset + img.termBuffer.capacity) :
    next.termOffset = 0 ∧
      indexByPosition next.subscriberPosition next.positionBitsToShift =
        (indexByPosition img.subscriberPosition img.positionBitsToShift + 1) % 3 ∧
      next.termBuffer = img.termBuffers
        ((indexByPosition img.subscriberPosition img.positionBitsToShift + 1) % 3) := by
  obtain ⟨hk, hm, hcap, hp0, hp1⟩ := hv
  obtain ⟨s1, s2, s3, _, _⟩ := hsame
  have hpos : (0 : Int) < 2 ^ img.positionBitsToShift := by positivity
  have hoff : img.termOffset = img.subscriberPosition % 2 ^ img.positionBitsToShift := by
    unfold Image.termOffset
    rw [hm]
    exact and32_pow_mask _ _ hk
  have hc : img.termBuffer.capacity = 2 ^ img.positionBitsToShift := hcap _
  have hdecomp := Int.ediv_add_emod img.subscriberPosition (2 ^ img.positionBitsToShift)
  have hnext : next.subscriberPosition =
      2 ^ img.positionBitsToShift *
        (img.subscriberPosition / 2 ^ img.positionBitsToShift + 1) := by
    rw [hend, hoff, hc, mul_add, mul_one]
    omega
  have hmod : next.subscriberPosition % 2 ^ img.positionBitsToShift = 0 := by
    rw [hnext]; exact Int.mul_emod_right _ _
  have hdiv : next.subscriberPosition / 2 ^ img.positionBitsToShift =
      img.subscriberPosition / 2 ^ img.positionBitsToShift + 1 := by
    rw [hnext]; exact Int.mul_ediv_cancel_left _ (ne_of_gt hpos)
  have hidx : indexByPosition next.subscriberPosition next.positionBitsToShift =
      (indexByPosition img.subscriberPosition img.positionBitsToShift + 1) % 3 := by
    rw [s3, (indexByPosition_eq _ _).1, (indexByPosition_eq _ _).1, hdiv]
    omega
  refine ⟨?_, hidx, ?_⟩
  · unfold Image.termOffset
    rw [s2, hm, and32_pow_mask _ _ hk]
    exact hmod
  · unfold Image.termBuffer
    rw [hidx, s1]

/-- C12: let a `poll`, a `blockPoll` or a `controlledPoll` of a valid image reading
partition `p` leave the subscriber position at the end of the term it was in, that is at
the old position minus its term offset plus the term length.  Then that position is a
multiple of the term length, and the next poll made on the image, whichever of the three
it is and whatever its reader, scanner, handler and limit are, works on partition
`(p + 1) mod 3` from term offset 0: the next `poll` is what the term read of that partition
at offset 0 makes it, the next `blockPoll` scans that partition from offset 0, reads the
term id at offset 0 of it and hands the block at offset 0 to the handler, and the next
`controlledPoll` runs its loop over that partition with offset and term offset 0. -/
theorem next_poll_reads_next_partition {σ τ υ : Type} (img : Image) (hv : img.Valid)
    (read : TermReaderRead σ) (hs1 : σ) (limit1 : Int)
    (scan : TermBlockScan) (bh : block_handler_t τ) (hs2 : τ) (limit2 : Int)
    (h : controlled_poll_fragment_handler_t υ) (hdr : Int) (hs3 : υ) (limit3 : Int)
    (next : Image)
    (hnext : next = (Image.poll read img hs1 limit1).image ∨
      next = (Image.blockPoll scan bh img hs2 limit2).image ∨
      ∃ r, Image.controlledPoll h hdr img hs3 limit3 = some r ∧ next = r.image)
    (hend : next.subscriberPosition =
      img.subscriberPosition - img.termOffset + img.termBuffer.capacity) :
    let partition := img.termBuffers
      ((indexByPosition img.subscriberPosition img.positionBitsToShift + 1) % 3)
    next.subscriberPosition % img.termBuffer.capacity = 0 ∧
    (∀ (read2 : TermReaderRead σ) (hs : σ) (fragmentLimit : Int),
      Image.poll read2 next hs fragmentLimit =
        (let out := read2 partition 0 hs fragmentLimit
         let newPosition := wrap64 (next.subscriberPosition + wrap32 (wrap32 out.1.offset - 0))
         if newPosition > next.subscriberPosition then
           { result := wrap32 out.1.fragmentsRead
             image := { next with subscriberPosition := newPosition }
             handlerState := out.2.1
             trace := Event.positionGet :: out.2.2.map Event.term ++
               [Event.positionSet newPosition] }
         else
           { result := wrap32 out.1.fragmentsRead, image := next, handlerState := out.2.1,
             trace := Event.positionGet :: out.2.2.map Event.term })) ∧
    (∀ (scan2 : TermBlockScan) (bh2 : block_handler_t τ) (hs : τ) (blockLengthLimit : Int),
      let limit := min (wrap32 (0 + blockLengthLimit)) partition.capacity
      let resultingOffset := wrap32 (scan2 partition 0 limit)
      let bytes := wrap32 (resultingOffset - 0)
      let termId := wrap32 (partition.termIdAt 0)
      let r := Image.blockPoll scan2 bh2 next hs blockLengthLimit
      r.result = bytes ∧
        (∃ tail, r.trace =
          Event.positionGet :: Event.term (TermEvent.blockScan 0 limit) :: tail) ∧
        (resultingOffset > 0 →
          r.handlerState = (bh2 hs 0 bytes next.sessionId termId).2 ∧
          ∃ tail, r.trace =
            [Event.positionGet, Event.term (TermEvent.blockScan 0 limit),
              Event.term (TermEvent.termIdRead 0),
              Event.term (TermEvent.blockHandlerCall 0 bytes next.sessionId termId)] ++ tail)) ∧
    (∀ (h2 : controlled_poll_fragment_handler_t υ) (hdr2 : Int) (hs : υ) (fragmentLimit : Int),
      Image.controlledPoll h2 hdr2 next hs fragmentLimit =
        (Image.controlledPollLoop h2 hdr2 partition fragmentLimit partition.capacity
          (Image.loopFuel partition)
          { subscriberPosition := next.subscriberPosition
            position := next.subscriberPosition
            termOffset := 0, offset := 0, fragmentsRead := 0, handlerState := hs
            trace := [Event.positionGet], escaped := false }).map
          (Image.controlledPollFinish next)) := by
  intro partition
  have hsame : next.SameLog img := by
    rcases hnext with rfl | rfl | ⟨r, hr, rfl⟩
    · exact poll_sameLog read img hs1 limit1
    · exact blockPoll_sameLog scan bh img hs2 limit2
    · exact controlledPoll_sameLog h hdr img hs3 limit3 r hr
  obtain ⟨t0, t1⟩ := Image.termOffset_bounds img hv
  have hopen : next.isClosed = false := by
    rw [hsame.2.2.2.2]
    rcases hc : img.isClosed with _ | _
    · rfl
    · exfalso
      have := closed_poll_position img hc read hs1 limit1 scan bh hs2 limit2 h hdr hs3 limit3
        next hnext
      omega
  obtain ⟨r1, r2, r3⟩ := next_term_rotation img next hv hsame hend
  have r1b : and32 (wrap32 next.subscriberPosition) next.termLengthMask = 0 := r1
  have r3b : next.termBuffers (indexByPosition next.subscriberPosition
      next.positionBitsToShift) = partition := r3
  refine ⟨?_, ?_, ?_, ?_⟩
  · have hv2 := hv
    obtain ⟨hk, hm, hcap, hp0, hp1⟩ := hv2
    have hc : img.termBuffer.capacity = 2 ^ img.positionBitsToShift := hcap _
    have hoff : next.termOffset = next.subscriberPosition % 2 ^ img.positionBitsToShift := by
      unfold Image.termOffset
      rw [hsame.2.1, hm]
      exact and32_pow_mask _ _ hk
    rw [hc, ← hoff]
    exact r1
  · intro read2 hs fragmentLimit
    unfold Image.poll
    simp only [hopen, Bool.not_false, if_true, r1b, r3b]
  · intro scan2 bh2 hs blockLengthLimit
    intro limit resultingOffset bytes termId r
    have hr : r = Image.blockPoll scan2 bh2 next hs blockLengthLimit := rfl
    unfold Image.blockPoll at hr
    simp only [hopen, Bool.not_false, if_true, r1b, r3b] at hr
    by_cases hgt : resultingOffset > 0
    · rw [if_pos hgt] at hr
      rcases hcall : bh2 hs 0 bytes next.sessionId termId with ⟨inv, hs2'⟩
      have hcall2 : bh2 hs 0 (wrap32 (wrap32 (scan2 partition 0
          (min (wrap32 (0 + blockLengthLimit)) partition.capacity)) - 0)) next.sessionId
          (wrap32 (partition.termIdAt 0)) = (inv, hs2') := hcall
      rw [hcall2] at hr
      rcases inv with _ | _ | _ | _ <;>
      · simp only at hr
        rw [hr]
        exact ⟨rfl, ⟨_, rfl⟩, fun _ => ⟨rfl, _, rfl⟩⟩
    · rw [if_neg hgt] at hr
      rw [hr]
      exact ⟨rfl, ⟨_, rfl⟩, fun h0 => absurd h0 hgt⟩
  · intro h2 hdr2 hs fragmentLimit
    unfold Image.controlledPoll
    simp only [hopen, Bool.not_false, if_true, r3b, Image.controlledPollStart, r1b]
    cases Image.controlledPollLoop h2 hdr2 partition fragmentLimit partition.capacity
      (Image.loopFuel partition) _ <;> rfl

theorem rotatingImage_valid : rotatingImage.Valid := by
  refine ⟨by decide, by decide, ?_, by decide, by decide⟩
  intro i
  show (if i = 0 then paddedTerm else if i = 1 then nextTerm else emptyTerm).capacity = 2 ^ 10
  split
  · rfl
  · split <;> rfl

/-- C12 at the rotating image, whose position 3072 is at offset 0 of partition 0.  A
`poll` whose reader reports the term read up to offset 1024, a `blockPoll` whose scanner
reports a block up to offset 1024, and a `controlledPoll` answered with CONTINUE, which
goes over the data frame and the padding frame of the term, each leave the position at
4096 = 3072 - 0 + 1024.  The next poll is then on partition 1, the term with term id 8,
at offset 0: a `poll` whose reader reports the term id of the buffer it is given returns
8 after a read at offset 0, a `blockPoll` scans from offset 0 and hands the block at
offset 0 with term id 8 to the handler, and a `controlledPoll` delivers the frames at 0,
32 and 64 of that partition. -/
theorem next_poll_reads_next_partition_witness :
    rotatingImage.Valid ∧
      indexByPosition rotatingImage.subscriberPosition rotatingImage.positionBitsToShift = 0 ∧
      (Image.poll (fun _ o (s : Nat) _ => ({ offset := o + 1024, fragmentsRead := 2 }, s, []))
          rotatingImage 0 10).image.subscriberPosition = 3072 - 0 + 1024 ∧
      ((Image.poll (fun tb o (s : Nat) _ =>
          ({ offset := o + 32, fragmentsRead := tb.termIdAt o }, s,
            [TermEvent.frameLengthRead o]))
        (Image.poll (fun _ o (s : Nat) _ => ({ offset := o + 1024, fragmentsRead := 2 }, s, []))
          rotatingImage 0 10).image 0 10).result,
       (Image.poll (fun tb o (s : Nat) _ =>
          ({ offset := o + 32, fragmentsRead := tb.termIdAt o }, s,
            [TermEvent.frameLengthRead o]))
        (Image.poll (fun _ o (s : Nat) _ => ({ offset := o + 1024, fragmentsRead := 2 }, s, []))
          rotatingImage 0 10).image 0 10).trace) =
        (8, [Event.positionGet, Event.term (TermEvent.frameLengthRead 0),
          Event.positionSet 4128]) ∧
      (Image.blockPoll (fun _ o _ => o + 1024)
          (fun (s : Nat) _ _ _ _ => (Invocation.returns (), s + 1))
          rotatingImage 0 4096).image.subscriberPosition = 3072 - 0 + 1024 ∧
      (Image.blockPoll (fun _ o _ => o + 96)
          (fun (s : Nat) _ _ _ _ => (Invocation.returns (), s + 1))
          (Image.blockPoll (fun _ o _ => o + 1024)
            (fun (s : Nat) _ _ _ _ => (Invocation.returns (), s + 1))
            rotatingImage 0 4096).image 0 4096).result = 96 ∧
      (Image.blockPoll (fun _ o _ => o + 96)
          (fun (s : Nat) _ _ _ _ => (Invocation.returns (), s + 1))
          (Image.blockPoll (fun _ o _ => o + 1024)
            (fun (s : Nat) _ _ _ _ => (Invocation.returns (), s + 1))
            rotatingImage 0 4096).image 0 4096).trace =
        [Event.positionGet, Event.term (TermEvent.blockScan 0 1024),
          Event.term (TermEvent.termIdRead 0),
          Event.term (TermEvent.blockHandlerCall 0 96 1 8), Event.positionSet 4192] ∧
      (∃ r, Image.controlledPoll scriptedHandler 32 rotatingImage [CONTINUE] 10 = some r ∧
        r.image.subscriberPosition = 3072 - 0 + 1024 ∧
        r.image.subscriberPosition % rotatingImage.termBuffer.capacity = 0) ∧
      (Image.controlledPoll scriptedHandler 32 rotatingImage [CONTINUE] 10).bind
          (fun r => (Image.controlledPoll scriptedHandler 32 r.image
            [CONTINUE, CONTINUE, CONTINUE] 10).map
            (fun r2 => (r2.result, delivered r2.trace, r2.image.subscriberPosition))) =
          some (3, [0, 32, 64], 4192) := by
  have H1 := next_poll_reads_next_partition rotatingImage rotatingImage_valid
    (fun _ o (s : Nat) _ => ({ offset := o + 1024, fragmentsRead := 2 }, s, [])) 0 10
    (fun _ o _ => o + 1024) (fun (s : Nat) _ _ _ _ => (Invocation.returns (), s + 1)) 0 4096
    scriptedHandler 32 [CONTINUE] 10
    (Image.poll (fun _ o (s : Nat) _ => ({ offset := o + 1024, fragmentsRead := 2 }, s, []))
      rotatingImage 0 10).image (Or.inl rfl) (by decide)
  have H2 := next_poll_reads_next_partition rotatingImage rotatingImage_valid
    (fun _ o (s : Nat) _ => ({ offset := o + 1024, fragmentsRead := 2 }, s, [])) 0 10
    (fun _ o _ => o + 1024) (fun (s : Nat) _ _ _ _ => (Invocation.returns (), s + 1)) 0 4096
    scriptedHandler 32 [CONTINUE] 10
    (Image.blockPoll (fun _ o _ => o + 1024)
      (fun (s : Nat) _ _ _ _ => (Invocation.returns (), s + 1)) rotatingImage 0 4096).image
    (Or.inr (Or.inl rfl)) (by decide)
  obtain ⟨r, hr⟩ : ∃ r, Image.controlledPoll scriptedHandler 32 rotatingImage [CONTINUE] 10 =
      some r := by
    cases hc : Image.controlledPoll scriptedHandler 32 rotatingImage [CONTINUE] 10 with
    | none =>
      have hn : (Image.controlledPoll scriptedHandler 32 rotatingImage [CONTINUE] 10).isSome =
        true := by decide
      rw [hc] at hn
      exact absurd hn (by simp)
    | some r => exact ⟨r, rfl⟩
  have hev : (Image.controlledPoll scriptedHandler 32 rotatingImage [CONTINUE] 10).map
      (fun r => r.image.subscriberPosition) = some (3072 - 0 + 1024) := by decide
  rw [hr] at hev
  simp only [Option.map_some', Option.some.injEq] at hev
  have H3 := next_poll_reads_next_partition rotatingImage rotatingImage_valid
    (fun _ o (s : Nat) _ => ({ offset := o + 1024, fragmentsRead := 2 }, s, [])) 0 10
    (fun _ o _ => o + 1024) (fun (s : Nat) _ _ _ _ => (Invocation.returns (), s + 1)) 0 4096
    scriptedHandler 32 [CONTINUE] 10 r.image (Or.inr (Or.inr ⟨r, hr, rfl⟩)) hev
  dsimp only at H1 H2 H3
  refine ⟨rotatingImage_valid, by decide, by decide, ?_, by decide, ?_, by decide,
    ⟨r, hr, hev, H3.1⟩, by decide⟩
  · rw [H1.2.1]
    decide
  · exact (H2.2.2.1 (fun _ o _ => o + 96)
      (fun (s : Nat) _ _ _ _ => (Invocation.returns (), s + 1)) 0 4096).1.trans (by decide)

/-! ## A pass in which the handler throws -/

namespace Image

open ControlledPollAction in
/-- When from an iteration on the handler throws, so that the exception handler is called
or an exception leaves the loop, and no handler invocation returned COMMIT, the loop is
left with its position and term offset untouched and nothing stored to the counter; the
trace ends with the faulting invocation, followed by the one call of the exception handler
unless the exception was not caught; the offset is at the end of the faulting frame, the
count has risen by the number of invocations that returned, and one more fragment was
handed to the handler than invocations returned. -/
theorem controlledPollLoop_throws {σ : Type} (h : controlled_poll_fragment_handler_t σ)
    (hdr : Int) (tb : TermBuffer) (limit : Int) (htb : tb.FramesWithin) :
    ∀ (fuel : Nat) (s s2 : LoopState σ), LoopInv tb.capacity s →
      controlledPollLoop h hdr tb limit tb.capacity fuel s = some s2 →
      s.escaped = false →
      ∃ new, s2.trace = s.trace ++ new ∧
        (Event.term TermEvent.exceptionHandled ∈ new ∨ s2.escaped = true →
          COMMIT ∉ actions new →
          published new = [] ∧ s2.position = s.position ∧ s2.termOffset = s.termOffset ∧
            s2.fragmentsRead = s.fragmentsRead + (actions new).length ∧
            (delivered new).length = (actions new).length + 1 ∧
            ∃ pre fo po pl tail,
              new = pre ++ Event.term (TermEvent.handlerCall fo po pl) :: tail ∧
              (tail = [Event.term TermEvent.exceptionHandled] ∨
                (tail = [] ∧ s2.escaped = true)) ∧
              Event.term TermEvent.exceptionHandled ∉ pre ∧ s.offset ≤ fo ∧
              0 < alignedLengthAt tb fo ∧ s2.offset = fo + alignedLengthAt tb fo) := by
  apply controlledPollLoop_induct h hdr tb limit htb
    (fun s s2 => s.escaped = false →
      ∃ new, s2.trace = s.trace ++ new ∧
        (Event.term TermEvent.exceptionHandled ∈ new ∨ s2.escaped = true →
          COMMIT ∉ actions new →
          published new = [] ∧ s2.position = s.position ∧ s2.termOffset = s.termOffset ∧
            s2.fragmentsRead = s.fragmentsRead + (actions new).length ∧
            (delivered new).length = (actions new).length + 1 ∧
            ∃ pre fo po pl tail,
              new = pre ++ Event.term (TermEvent.handlerCall fo po pl) :: tail ∧
              (tail = [Event.term TermEvent.exceptionHandled] ∨
                (tail = [] ∧ s2.escaped = true)) ∧
              Event.term TermEvent.exceptionHandled ∉ pre ∧ s.offset ≤ fo ∧
              0 < alignedLengthAt tb fo ∧ s2.offset = fo + alignedLengthAt tb fo))
  · intro s s1 hJ hstep hE hs0
    have H := controlledPollStep_cases h hdr tb limit s htb hJ
    dsimp only at H
    have hpre : Event.term TermEvent.exceptionHandled ∉
        [Event.term (TermEvent.frameLengthRead s.offset),
          Event.term (TermEvent.paddingCheck s.offset)] := by simp
    rcases H with ⟨_, e⟩ | ⟨hl, ⟨a1, a2, a3⟩, ⟨hp, e⟩ | ⟨hp, hs, ⟨_, e⟩ | ⟨_, e⟩ | ⟨_, e⟩ | ⟨_, e⟩ | ⟨_, e⟩ | ⟨_, e⟩ | ⟨_, e⟩⟩⟩ <;>
      rw [e] at hstep <;> simp only [Prod.mk.injEq] at hstep <;>
      obtain ⟨_, rfl⟩ := hstep <;>
      refine ⟨_, rfl, ?_⟩ <;>
      intro hexc hcommit
    · simp [hs0] at hexc
    · simp [hs0] at hexc
    · refine ⟨by simp [published], rfl, rfl, by simp [actions], by simp [actions, delivered],
        [Event.term (TermEvent.frameLengthRead s.offset),
          Event.term (TermEvent.paddingCheck s.offset)], s.offset, _, _,
        [Event.term TermEvent.exceptionHandled], rfl, Or.inl rfl, hpre,
        le_refl _, by omega, rfl⟩
    · simp [hs0] at hexc
    · simp [hs0] at hexc
    · simp [hs0] at hexc
    · simp [hs0] at hexc
    · refine ⟨by simp [published], rfl, rfl, by simp [actions], by simp [actions, delivered],
        [Event.term (TermEvent.frameLengthRead s.offset),
          Event.term (TermEvent.paddingCheck s.offset)], s.offset, _, _,
        [Event.term TermEvent.exceptionHandled], rfl, Or.inl rfl, hpre,
        le_refl _, by omega, rfl⟩
    · refine ⟨by simp [published], rfl, rfl, by simp [actions], by simp [actions, delivered],
        [Event.term (TermEvent.frameLengthRead s.offset),
          Event.term (TermEvent.paddingCheck s.offset)], s.offset, _, _,
        [], rfl, Or.inr ⟨rfl, rfl⟩, hpre,
        le_refl _, by omega, rfl⟩
  · intro s s1 s2 hJ hstep hJ1 _ hR hs0
    have H := controlledPollStep_cases h hdr tb limit s htb hJ
    dsimp only at H
    rcases H with ⟨_, e⟩ | ⟨hl, ⟨a1, a2, a3⟩, ⟨hp, e⟩ | ⟨hp, hs, ⟨_, e⟩ | ⟨_, e⟩ | ⟨_, e⟩ | ⟨_, e⟩ | ⟨_, e⟩ | ⟨_, e⟩ | ⟨_, e⟩⟩⟩ <;>
      rw [e] at hstep <;> simp only [Prod.mk.injEq, Bool.false_eq_true, false_and] at hstep
    · -- a padding frame was skipped
      obtain ⟨_, rfl⟩ := hstep
      obtain ⟨new1, ht, hQ⟩ := hR hs0
      simp only at ht hQ
      refine ⟨_, ht.trans (List.append_assoc _ _ _), ?_⟩
      intro hexc hcommit
      rw [actions_append] at hcommit
      simp only [actions, List.nil_append] at hcommit
      have hexc1 : Event.term TermEvent.exceptionHandled ∈ new1 ∨ s2.escaped = true := by
        rcases hexc with hexc | hexc
        · rcases List.mem_append.mp hexc with hm | hm
          · simp at hm
          · exact Or.inl hm
        · exact Or.inr hexc
      obtain ⟨q1, q2, q3, q4, q5, pre, fo, po, pl, tail, q6, qt, q7, q8, q9, q10⟩ :=
        hQ hexc1 hcommit
      have q8b : s.offset + alignedLengthAt tb s.offset ≤ fo := q8
      clear q8
      rw [published_append, actions_append, delivered_append]
      simp only [published, actions, delivered, List.nil_append]
      refine ⟨q1, q2, q3, q4, q5,
        [Event.term (TermEvent.frameLengthRead s.offset),
          Event.term (TermEvent.paddingCheck s.offset)] ++ pre, fo, po, pl, tail, ?_, qt, ?_,
        by omega, q9, q10⟩
      · rw [q6, List.append_assoc]
      · intro hm
        rcases List.mem_append.mp hm with hm1 | hm1
        · simp at hm1
        · exact q7 hm1
    · -- the handler returned COMMIT
      obtain ⟨_, rfl⟩ := hstep
      obtain ⟨new1, ht, hQ⟩ := hR hs0
      refine ⟨_, ht.trans (List.append_assoc _ _ _), ?_⟩
      intro hexc hcommit
      rw [actions_append] at hcommit
      simp [actions] at hcommit
    · -- the handler returned CONTINUE
      obtain ⟨_, rfl⟩ := hstep
      obtain ⟨new1, ht, hQ⟩ := hR hs0
      simp only at ht hQ
      refine ⟨_, ht.trans (List.append_assoc _ _ _), ?_⟩
      intro hexc hcommit
      rw [actions_append] at hcommit
      have hcommit1 : COMMIT ∉ actions new1 := by
        intro hm; exact hcommit (List.mem_append_right _ hm)
      have hexc1 : Event.term TermEvent.exceptionHandled ∈ new1 ∨ s2.escaped = true := by
        rcases hexc with hexc | hexc
        · rcases List.mem_append.mp hexc with hm | hm
          · simp at hm
          · exact Or.inl hm
        · exact Or.inr hexc
      obtain ⟨q1, q2, q3, q4, q5, pre, fo, po, pl, tail, q6, qt, q7, q8, q9, q10⟩ :=
        hQ hexc1 hcommit1
      have q8b : s.offset + alignedLengthAt tb s.offset ≤ fo := q8
      clear q8
      rw [published_append, actions_append, delivered_append]
      simp only [published, actions, delivered, List.nil_append, List.singleton_append,
        List.length_cons]
      refine ⟨q1, q2, q3, ?_, by rw [q5],
        [Event.term (TermEvent.frameLengthRead s.offset),
          Event.term (TermEvent.paddingCheck s.offset),
          Event.term (TermEvent.handlerCall s.offset (wrap32 (s.offset + hdr))
            (wrap32 (wrap32 (tb.frameLengthVolatile s.offset) - hdr))),
          Event.term (TermEvent.handlerReturned CONTINUE)] ++ pre, fo, po, pl, tail, ?_, qt, ?_,
        by omega, q9, q10⟩
      · rw [q4]; push_cast; ring
      · rw [q6, List.append_assoc]
      · intro hm
        rcases List.mem_append.mp hm with hm1 | hm1
        · simp at hm1
        · exact q7 hm1

end Image

/-- C13, as stated, fails: at the three-frame image the handler returns CONTINUE for the
frame at offset 0 and then throws on the frame at offset 32.  When what it throws is not
derived from `std::exception` the catch clause does not take it: the exception handler is
not called, the exception leaves `controlledPoll`, nothing is returned and the position
stays at 3072.  When it throws a `std::exception` and the exception handler throws in its
turn, the exception handler was called once and the exception leaves the poll in the same
way.  In both cases the position is not updated past the faulting frame, not even past
the frame answered with CONTINUE, and the next poll delivers the frame at offset 0
again. -/
theorem controlledPoll_uncaught_exception_skips_update :
    (Image.controlledPoll outcomeHandler 32 threeFrameImage
        [Invocation.returns CONTINUE, Invocation.escapes false] 10).map
        (fun r => (r.returned, r.escaped, r.image.subscriberPosition, r.trace)) =
      some (none, true, 3072, [Event.positionGet,
        Event.term (TermEvent.frameLengthRead 0), Event.term (TermEvent.paddingCheck 0),
        Event.term (TermEvent.handlerCall 0 32 0),
        Event.term (TermEvent.handlerReturned CONTINUE),
        Event.term (TermEvent.frameLengthRead 32), Event.term (TermEvent.paddingCheck 32),
        Event.term (TermEvent.handlerCall 32 64 0)]) ∧
    (Image.controlledPoll outcomeHandler 32 threeFrameImage
        [Invocation.returns CONTINUE, Invocation.escapes true] 10).map
        (fun r => (r.returned, r.escaped, r.image.subscriberPosition, r.trace)) =
      some (none, true, 3072, [Event.positionGet,
        Event.term (TermEvent.frameLengthRead 0), Event.term (TermEvent.paddingCheck 0),
        Event.term (TermEvent.handlerCall 0 32 0),
        Event.term (TermEvent.handlerReturned CONTINUE),
        Event.term (TermEvent.frameLengthRead 32), Event.term (TermEvent.paddingCheck 32),
        Event.term (TermEvent.handlerCall 32 64 0),
        Event.term TermEvent.exceptionHandled]) ∧
    (Image.controlledPoll outcomeHandler 32 threeFrameImage
        [Invocation.returns CONTINUE, Invocation.escapes false] 10).bind
        (fun r => (Image.controlledPoll outcomeHandler 32 r.image [] 1).map
          (fun r2 => delivered r2.trace)) = some [0] := by
  decide

/-- C13, amended: a `controlledPoll` of an open, valid image over well-formed frames comes
to an end, and when the handler threw in the pass (the exception handler was called, or an
exception left the poll) and no invocation before it returned COMMIT, the faulting
invocation is the last one, one more fragment was handed to the handler than invocations
returned, and nothing was stored to the counter before it.  When the exception was caught
and the exception handler returned, the exception handler was called exactly once, right
after the faulting invocation, and the only step after it is the final store of the
position; the returned count is the number of invocations that returned, and the
subscriber position after the pass is the stream position of the end of the faulting
frame: the old position plus frame offset plus aligned frame length minus the initial
term offset.  When the exception left the poll, because it was not derived from
`std::exception` or because the exception handler threw, the exception handler was called
at most once, the faulting invocation or that call is the last step, nothing is returned
and the subscriber position is the one before the pass. -/
theorem controlledPoll_handler_throws {σ : Type} (h : controlled_poll_fragment_handler_t σ)
    (hdr : Int) (img : Image) (hs : σ) (limit : Int) (hopen : img.isClosed = false)
    (hv : img.Valid) (hf : img.termBuffer.FramesWithin) :
    ∃ r, Image.controlledPoll h hdr img hs limit = some r ∧
      (Event.term TermEvent.exceptionHandled ∈ r.trace ∨ r.escaped = true →
        COMMIT ∉ actions r.trace →
        ∃ pre fo po pl,
          Event.term TermEvent.exceptionHandled ∉ pre ∧ published pre = [] ∧
          r.result = (actions r.trace).length ∧
          (delivered r.trace).length = (actions r.trace).length + 1 ∧
          (r.escaped = false →
            r.trace = pre ++ [Event.term (TermEvent.handlerCall fo po pl),
              Event.term TermEvent.exceptionHandled,
              Event.positionSet (img.subscriberPosition +
                (fo + alignedLengthAt img.termBuffer fo - img.termOffset))] ∧
            r.returned = some r.result ∧
            r.image.subscriberPosition = img.subscriberPosition +
              (fo + alignedLengthAt img.termBuffer fo - img.termOffset)) ∧
          (r.escaped = true →
            (r.trace = pre ++ [Event.term (TermEvent.handlerCall fo po pl)] ∨
              r.trace = pre ++ [Event.term (TermEvent.handlerCall fo po pl),
                Event.term TermEvent.exceptionHandled]) ∧
            r.returned = none ∧
            r.image.subscriberPosition = img.subscriberPosition)) := by
  obtain ⟨s2, hloop, hpoll⟩ := Image.controlledPoll_run h hdr img hs limit hopen hv hf
  have hJ := Image.controlledPollStart_inv img hs hv
  obtain ⟨hE, _⟩ := Image.controlledPollLoop_published h hdr img.termBuffer limit hf _ _ _ hJ hloop
  obtain ⟨new, ht, hQ⟩ :=
    Image.controlledPollLoop_throws h hdr img.termBuffer limit hf _ _ _ hJ hloop rfl
  refine ⟨_, hpoll, ?_⟩
  have ht2 : s2.trace = Event.positionGet :: new := ht
  have hfacts : ∀ tail : List Event, (tail = [] ∨ ∃ v, tail = [Event.positionSet v]) →
      delivered (Event.positionGet :: new ++ tail) = delivered new ∧
      actions (Event.positionGet :: new ++ tail) = actions new ∧
      (Event.term TermEvent.exceptionHandled ∈ Event.positionGet :: new ++ tail →
        Event.term TermEvent.exceptionHandled ∈ new) := by
    intro tail htail
    rcases htail with rfl | ⟨v, rfl⟩ <;>
      simp [delivered_append, actions_append, delivered, actions]
  rcases hesc : s2.escaped with _ | _
  · rw [Image.controlledPollFinish_eq img s2 hE hesc]
    dsimp only
    rw [ht2]
    have htail : ((if s2.termOffset < s2.offset then
        [Event.positionSet (s2.position + (s2.offset - s2.termOffset))] else []) = [] ∨
        ∃ v, (if s2.termOffset < s2.offset then
          [Event.positionSet (s2.position + (s2.offset - s2.termOffset))] else []) =
          [Event.positionSet v]) := by
      split
      · exact Or.inr ⟨_, rfl⟩
      · exact Or.inl rfl
    obtain ⟨v1, v2, v3⟩ := hfacts _ htail
    rw [v1, v2]
    intro hexc hcommit
    have hexc1 : Event.term TermEvent.exceptionHandled ∈ new ∨ s2.escaped = true := by
      rcases hexc with hexc | hexc
      · exact Or.inl (v3 hexc)
      · exact absurd hexc (by simp)
    obtain ⟨q1, q2, q3, q4, q5, pre, fo, po, pl, tail, q6, qt, q7, q8, q9, q10⟩ :=
      hQ hexc1 hcommit
    have htl : tail = [Event.term TermEvent.exceptionHandled] := by
      rcases qt with qt | ⟨_, qt⟩
      · exact qt
      · rw [hesc] at qt; exact absurd qt (by simp)
    subst htl
    have p2 : s2.position = img.subscriberPosition := q2
    have p3 : s2.termOffset = img.termOffset := q3
    have p8 : img.termOffset ≤ fo := q8
    have p4 : s2.fragmentsRead = (actions new).length := q4.trans (zero_add _)
    have hlt0 : img.termOffset < fo + alignedLengthAt img.termBuffer fo :=
      lt_of_le_of_lt p8 (lt_add_of_pos_right _ q9)
    have hlt : s2.termOffset < s2.offset := by rw [p3, q10]; exact hlt0
    clear hQ q2 q3 q4 q8 qt
    rw [if_pos hlt, p2, p3, q10]
    have hpub : published new = published pre := by
      rw [q6, published_append]; simp [published]
    refine ⟨Event.positionGet :: pre, fo, po, pl, ?_, ?_, p4, q5, ?_, ?_⟩
    · intro hm
      rcases List.mem_cons.mp hm with hm1 | hm1
      · exact absurd hm1 (by simp)
      · exact q7 hm1
    · rw [← q1, hpub]
      simp [published]
    · intro _
      refine ⟨?_, rfl, rfl⟩
      rw [q6]; simp
    · intro habs
      exact absurd habs (by simp)
  · rw [Image.controlledPollFinish_escaped img s2 hE hesc]
    dsimp only
    rw [ht2]
    have v1 : delivered (Event.positionGet :: new) = delivered new := rfl
    have v2 : actions (Event.positionGet :: new) = actions new := rfl
    rw [v1, v2]
    intro _ hcommit
    obtain ⟨q1, q2, q3, q4, q5, pre, fo, po, pl, tail, q6, qt, q7, q8, q9, q10⟩ :=
      hQ (Or.inr hesc) hcommit
    have p2 : s2.position = img.subscriberPosition := q2
    have p4 : s2.fragmentsRead = (actions new).length := q4.trans (zero_add _)
    have hpub : published new = published pre := by
      rcases qt with qt | ⟨qt, _⟩ <;> rw [q6, qt, published_append] <;> simp [published]
    clear hQ q2 q3 q4 q8
    refine ⟨Event.positionGet :: pre, fo, po, pl, ?_, ?_, p4, q5, ?_, ?_⟩
    · intro hm
      rcases List.mem_cons.mp hm with hm1 | hm1
      · exact absurd hm1 (by simp)
      · exact q7 hm1
    · rw [← q1, hpub]
      simp [published]
    · intro habs
      exact absurd habs (by simp)
    · intro _
      refine ⟨?_, rfl, ?_⟩
      · rcases qt with qt | ⟨qt, _⟩
        · right; rw [q6, qt]; simp
        · left; rw [q6, qt]; simp
      · exact p2

/-- C13, amended, at the three-frame image with a handler that returns CONTINUE once and
then throws a `std::exception` on the frame at offset 32, which the exception handler
takes: the count is 1 and the position is 3072 + (32 + 32 - 0), past the faulting
frame. -/
theorem controlledPoll_handler_throws_witness :
    threeFrameImage.isClosed = false ∧ threeFrameImage.Valid ∧
      threeFrameImage.termBuffer.FramesWithin ∧
      ∃ r, Image.controlledPoll scriptedHandler 32 threeFrameImage [CONTINUE] 10 = some r ∧
        Event.term TermEvent.exceptionHandled ∈ r.trace ∧ COMMIT ∉ actions r.trace ∧
        r.escaped = false ∧
        delivered r.trace = [0, 32] ∧ r.result = 1 ∧ r.returned = some 1 ∧
        r.image.subscriberPosition = 3072 + (32 + 32 - 0) := by
  refine ⟨rfl, threeFrameImage_valid, threeFrameImage_framesWithin, ?_⟩
  obtain ⟨r, hr, H⟩ := controlledPoll_handler_throws scriptedHandler 32 threeFrameImage
    [CONTINUE] 10 rfl threeFrameImage_valid threeFrameImage_framesWithin
  have hev : (Image.controlledPoll scriptedHandler 32 threeFrameImage [CONTINUE] 10).map
      (fun r => (decide (Event.term TermEvent.exceptionHandled ∈ r.trace), actions r.trace,
        delivered r.trace, r.escaped, r.image.subscriberPosition)) =
      some (true, [CONTINUE], [0, 32], false, 3072 + (32 + 32 - 0)) := by decide
  rw [hr] at hev
  simp only [Option.map_some', Option.some.injEq, Prod.mk.injEq, decide_eq_true_eq] at hev
  obtain ⟨e1, e2, e3, e4, e5⟩ := hev
  have hc : COMMIT ∉ actions r.trace := by rw [e2]; decide
  obtain ⟨pre, fo, po, pl, _, _, h3, _, h5, _⟩ := H (Or.inl e1) hc
  have h3b : r.result = 1 := by rw [h3, e2]; rfl
  obtain ⟨_, h6, _⟩ := h5 e4
  exact ⟨r, hr, e1, hc, e4, e3, h3b, by rw [h6, h3b], e5⟩

/-! ## Uncommitted frames and padding frames -/

namespace Image

open ControlledPollAction in
/-- Facts about every pass of the loop: each fragment handed to the handler is a committed
frame that is not padding, at or after the offset the pass started from; the loop's
position never gets further ahead of its term offset; a pass that starts on an uncommitted
frame is over after the probe; and a probe that finds an uncommitted frame is the last
step of the loop, with the offset left on that frame and every fragment handed to the
handler before it. -/
theorem controlledPollLoop_frames {σ : Type} (h : controlled_poll_fragment_handler_t σ)
    (hdr : Int) (tb : TermBuffer) (limit : Int) (htb : tb.FramesWithin) :
    ∀ (fuel : Nat) (s s2 : LoopState σ), LoopInv tb.capacity s →
      controlledPollLoop h hdr tb limit tb.capacity fuel s = some s2 →
      ∃ new, s2.trace = s.trace ++ new ∧
        (∀ x ∈ delivered new, 0 < wrap32 (tb.frameLengthVolatile x) ∧
          tb.isPaddingFrame x = false ∧ s.offset ≤ x) ∧
        s2.position - s2.termOffset ≤ s.position - s.termOffset ∧
        (wrap32 (tb.frameLengthVolatile s.offset) ≤ 0 →
          s2 = { s with trace := s.trace ++ [Event.term (TermEvent.frameLengthRead s.offset)] }) ∧
        (∀ o, Event.term (TermEvent.frameLengthRead o) ∈ new →
          wrap32 (tb.frameLengthVolatile o) ≤ 0 →
          (∃ pre, new = pre ++ [Event.term (TermEvent.frameLengthRead o)]) ∧
            s2.offset = o ∧ s.offset ≤ o ∧ ∀ x ∈ delivered new, x < o) := by
  apply controlledPollLoop_induct h hdr tb limit htb
  · intro s s1 hJ hstep hE
    have H := controlledPollStep_cases h hdr tb limit s htb hJ
    dsimp only at H
    obtain ⟨j1, j2, j3, j4, j5, j6, j7, j8⟩ := hJ
    rcases H with ⟨hle, e⟩ | ⟨hl, ⟨a1, a2, a3⟩, ⟨hp, e⟩ | ⟨hp, hs, ⟨_, e⟩ | ⟨_, e⟩ | ⟨_, e⟩ | ⟨_, e⟩ | ⟨_, e⟩ | ⟨_, e⟩ | ⟨_, e⟩⟩⟩ <;>
      rw [e] at hstep <;> simp only [Prod.mk.injEq] at hstep <;>
      obtain ⟨_, rfl⟩ := hstep <;>
      refine ⟨_, rfl, ?_, ?_, ?_, ?_⟩
    -- the frame is not committed
    · intro x hx; simp [delivered] at hx
    · exact le_refl _
    · intro _; rfl
    · intro o ho _
      simp only [List.mem_singleton, Event.term.injEq, TermEvent.frameLengthRead.injEq] at ho
      subst ho
      exact ⟨⟨[], rfl⟩, rfl, le_refl _, by intro x hx; simp [delivered] at hx⟩
    -- a padding frame
    · intro x hx; simp [delivered] at hx
    · exact le_refl _
    · intro hc; omega
    · intro o ho hc
      simp at ho
      subst ho; omega
    -- the handler threw
    · intro x hx
      simp [delivered] at hx
      subst hx; exact ⟨hl, hp, le_refl _⟩
    · exact le_refl _
    · intro hc; omega
    · intro o ho hc
      simp at ho
      subst ho; omega
    -- BREAK
    · intro x hx
      simp [delivered] at hx
      subst hx; exact ⟨hl, hp, le_refl _⟩
    · exact le_refl _
    · intro hc; omega
    · intro o ho hc
      simp at ho
      subst ho; omega
    -- ABORT
    · intro x hx
      simp [delivered] at hx
      subst hx; exact ⟨hl, hp, le_refl _⟩
    · exact le_refl _
    · intro hc; omega
    · intro o ho hc
      simp at ho
      subst ho; omega
    -- COMMIT
    · intro x hx
      simp [delivered] at hx
      subst hx; exact ⟨hl, hp, le_refl _⟩
    · show s.position + alignedLengthAt tb s.offset - (s.offset + alignedLengthAt tb s.offset) ≤
        s.position - s.termOffset
      omega
    · intro hc; omega
    · intro o ho hc
      simp at ho
      subst ho; omega
    -- CONTINUE
    · intro x hx
      simp [delivered] at hx
      subst hx; exact ⟨hl, hp, le_refl _⟩
    · exact le_refl _
    · intro hc; omega
    · intro o ho hc
      simp at ho
      subst ho; omega
    -- an exception thrown by the exception handler leaves the loop
    · intro x hx
      simp [delivered] at hx
      subst hx; exact ⟨hl, hp, le_refl _⟩
    · exact le_refl _
    · intro hc; omega
    · intro o ho hc
      simp at ho
      subst ho; omega
    -- an exception that is not caught leaves the loop
    · intro x hx
      simp [delivered] at hx
      subst hx; exact ⟨hl, hp, le_refl _⟩
    · exact le_refl _
    · intro hc; omega
    · intro o ho hc
      simp at ho
      subst ho; omega
  · intro s s1 s2 hJ hstep hJ1 _ hR
    obtain ⟨new1, ht, hd, hpos, _, hprobe⟩ := hR
    have H := controlledPollStep_cases h hdr tb limit s htb hJ
    dsimp only at H
    obtain ⟨j1, j2, j3, j4, j5, j6, j7, j8⟩ := hJ
    rcases H with ⟨_, e⟩ | ⟨hl, ⟨a1, a2, a3⟩, ⟨hp, e⟩ | ⟨hp, hs, ⟨_, e⟩ | ⟨_, e⟩ | ⟨_, e⟩ | ⟨_, e⟩ | ⟨_, e⟩ | ⟨_, e⟩ | ⟨_, e⟩⟩⟩ <;>
      rw [e] at hstep <;> simp only [Prod.mk.injEq, Bool.false_eq_true, false_and] at hstep
    · -- a padding frame was skipped
      obtain ⟨_, rfl⟩ := hstep
      simp only at ht hd hpos hprobe
      refine ⟨_, ht.trans (List.append_assoc _ _ _), ?_, hpos, ?_, ?_⟩
      · intro x hx
        rw [delivered_append] at hx
        simp only [delivered, List.nil_append] at hx
        obtain ⟨d1, d2, d3⟩ := hd x hx
        exact ⟨d1, d2, by omega⟩
      · intro hc; omega
      · intro o ho hc
        rcases List.mem_append.mp ho with hm | hm
        · simp at hm
          subst hm; omega
        · obtain ⟨⟨pre, hpre⟩, p2, p3, p4⟩ := hprobe o hm hc
          refine ⟨⟨_, by rw [hpre, ← List.append_assoc]⟩, p2, by omega, ?_⟩
          intro x hx
          rw [delivered_append] at hx
          simp only [delivered, List.nil_append] at hx
          exact p4 x hx
    · -- the handler returned COMMIT
      obtain ⟨_, rfl⟩ := hstep
      simp only at ht hd hpos hprobe
      refine ⟨_, ht.trans (List.append_assoc _ _ _), ?_, by omega, ?_, ?_⟩
      · intro x hx
        rw [delivered_append] at hx
        simp only [delivered, List.singleton_append, List.mem_cons] at hx
        rcases hx with rfl | hx
        · exact ⟨hl, hp, le_refl _⟩
        · obtain ⟨d1, d2, d3⟩ := hd x hx
          exact ⟨d1, d2, by omega⟩
      · intro hc; omega
      · intro o ho hc
        rcases List.mem_append.mp ho with hm | hm
        · simp at hm
          subst hm; omega
        · obtain ⟨⟨pre, hpre⟩, p2, p3, p4⟩ := hprobe o hm hc
          refine ⟨⟨_, by rw [hpre, ← List.append_assoc]⟩, p2, by omega, ?_⟩
          intro x hx
          rw [delivered_append] at hx
          simp only [delivered, List.singleton_append, List.mem_cons] at hx
          rcases hx with rfl | hx
          · omega
          · exact p4 x hx
    · -- the handler returned CONTINUE
      obtain ⟨_, rfl⟩ := hstep
      simp only at ht hd hpos hprobe
      refine ⟨_, ht.trans (List.append_assoc _ _ _), ?_, hpos, ?_, ?_⟩
      · intro x hx
        rw [delivered_append] at hx
        simp only [delivered, List.singleton_append, List.mem_cons] at hx
        rcases hx with rfl | hx
        · exact ⟨hl, hp, le_refl _⟩
        · obtain ⟨d1, d2, d3⟩ := hd x hx
          exact ⟨d1, d2, by omega⟩
      · intro hc; omega
      · intro o ho hc
        rcases List.mem_append.mp ho with hm | hm
        · simp at hm
          subst hm; omega
        · obtain ⟨⟨pre, hpre⟩, p2, p3, p4⟩ := hprobe o hm hc
          refine ⟨⟨_, by rw [hpre, ← List.append_assoc]⟩, p2, by omega, ?_⟩
          intro x hx
          rw [delivered_append] at hx
          simp only [delivered, List.singleton_append, List.mem_cons] at hx
          rcases hx with rfl | hx
          · omega
          · exact p4 x hx

end Image

/-- C16: a `controlledPoll` of an open, valid image over well-formed frames comes to an
end, and a probe that finds a frame whose volatile frame length is not positive ends the
pass: the probe is the last step on the term, followed by at most the final store of the
position; every fragment handed to the handler lies at a smaller offset, so neither that
frame nor a frame after it is delivered; and the subscriber position after the pass is at
most the stream position of that frame's offset.  When the first frame probed is
uncommitted, the call returns 0, leaves the subscriber position unchanged and takes no step
but the load of the position and the probe. -/
theorem controlledPoll_stops_at_uncommitted {σ : Type}
    (h : controlled_poll_fragment_handler_t σ) (hdr : Int) (img : Image) (hs : σ)
    (limit : Int) (hopen : img.isClosed = false) (hv : img.Valid)
    (hf : img.termBuffer.FramesWithin) :
    ∃ r, Image.controlledPoll h hdr img hs limit = some r ∧
      (∀ o, Event.term (TermEvent.frameLengthRead o) ∈ r.trace →
        wrap32 (img.termBuffer.frameLengthVolatile o) ≤ 0 →
        (∃ pre tail, r.trace = pre ++ [Event.term (TermEvent.frameLengthRead o)] ++ tail ∧
          (tail = [] ∨ ∃ v, tail = [Event.positionSet v])) ∧
        o ∉ delivered r.trace ∧ (∀ x ∈ delivered r.trace, x < o) ∧
        r.image.subscriberPosition ≤ img.subscriberPosition + (o - img.termOffset)) ∧
      (wrap32 (img.termBuffer.frameLengthVolatile img.termOffset) ≤ 0 →
        r.returned = some 0 ∧ r.result = 0 ∧
        r.image.subscriberPosition = img.subscriberPosition ∧
        r.trace = [Event.positionGet,
          Event.term (TermEvent.frameLengthRead img.termOffset)]) := by
  obtain ⟨s2, hloop, hpoll⟩ := Image.controlledPoll_run h hdr img hs limit hopen hv hf
  have hJ := Image.controlledPollStart_inv img hs hv
  obtain ⟨hE, _⟩ := Image.controlledPollLoop_published h hdr img.termBuffer limit hf _ _ _ hJ hloop
  obtain ⟨new, ht, hd, hpos, hfirst, hprobe⟩ :=
    Image.controlledPollLoop_frames h hdr img.termBuffer limit hf _ _ _ hJ hloop
  refine ⟨_, hpoll, ?_, ?_⟩
  · have ht2 : s2.trace = Event.positionGet :: new := ht
    have hpos2 : s2.position - s2.termOffset ≤ img.subscriberPosition - img.termOffset := hpos
    rcases hesc : s2.escaped with _ | _
    swap
    · rw [Image.controlledPollFinish_escaped img s2 hE hesc]
      dsimp only
      rw [ht2]
      clear hfirst hpos ht hd
      intro o ho hc
      have ho1 : Event.term (TermEvent.frameLengthRead o) ∈ new := by
        rcases List.mem_cons.mp ho with hm | hm
        · exact absurd hm (by simp)
        · exact hm
      obtain ⟨⟨pre, hpre⟩, p2, _, p4⟩ := hprobe o ho1 hc
      obtain ⟨e1, e2, e3, e4, e5, e6, e7⟩ := hE
      refine ⟨⟨Event.positionGet :: pre, [], ?_, Or.inl rfl⟩, ?_, p4, ?_⟩
      · rw [hpre]; simp
      · intro hm; exact lt_irrefl _ (p4 o hm)
      · rw [← p2]; omega
    rw [Image.controlledPollFinish_eq img s2 hE hesc]
    dsimp only
    rw [ht2]
    clear hfirst hpos ht hd
    intro o ho hc
    have htail : ∀ tail : List Event, (tail = [] ∨ ∃ v, tail = [Event.positionSet v]) →
        (Event.term (TermEvent.frameLengthRead o) ∈ Event.positionGet :: new ++ tail →
          Event.term (TermEvent.frameLengthRead o) ∈ new) ∧
        delivered (Event.positionGet :: new ++ tail) = delivered new := by
      intro tail htl
      rcases htl with rfl | ⟨v, rfl⟩ <;> simp [delivered_append, delivered]
    have hshape : ((if s2.termOffset < s2.offset then
        [Event.positionSet (s2.position + (s2.offset - s2.termOffset))] else []) = [] ∨
        ∃ v, (if s2.termOffset < s2.offset then
          [Event.positionSet (s2.position + (s2.offset - s2.termOffset))] else []) =
          [Event.positionSet v]) := by
      split
      · exact Or.inr ⟨_, rfl⟩
      · exact Or.inl rfl
    obtain ⟨t1, t2⟩ := htail _ hshape
    obtain ⟨⟨pre, hpre⟩, p2, _, p4⟩ := hprobe o (t1 ho) hc
    rw [t2]
    refine ⟨⟨Event.positionGet :: pre, _, ?_, hshape⟩, ?_, p4, ?_⟩
    · rw [hpre]; rfl
    · intro hm; exact lt_irrefl _ (p4 o hm)
    · rw [p2]; omega
  · intro hc
    have hs2 := hfirst hc
    have hesc : s2.escaped = false := by rw [hs2]; rfl
    rw [Image.controlledPollFinish_eq img s2 hE hesc, hs2]
    have hnot : ¬ (img.termOffset < img.termOffset) := lt_irrefl _
    refine ⟨rfl, rfl, ?_, ?_⟩
    · show img.subscriberPosition + (img.termOffset - img.termOffset) = img.subscriberPosition
      omega
    · show [Event.positionGet] ++ [Event.term (TermEvent.frameLengthRead img.termOffset)] ++
        (if img.termOffset < img.termOffset then _ else []) = _
      rw [if_neg hnot]; rfl

/-- C16 at the three-frame image, with a handler that returns CONTINUE three times: the
probe at offset 96 finds an uncommitted frame, the fragments delivered are those at 0, 32
and 64, and the position ends at 3072 + 96. -/
theorem controlledPoll_stops_at_uncommitted_witness :
    threeFrameImage.isClosed = false ∧ threeFrameImage.Valid ∧
      threeFrameImage.termBuffer.FramesWithin ∧
      ∃ r, Image.controlledPoll scriptedHandler 32 threeFrameImage
          [CONTINUE, CONTINUE, CONTINUE] 10 = some r ∧
        Event.term (TermEvent.frameLengthRead 96) ∈ r.trace ∧
        wrap32 (threeFrameImage.termBuffer.frameLengthVolatile 96) ≤ 0 ∧
        delivered r.trace = [0, 32, 64] ∧ (∀ x ∈ delivered r.trace, x < 96) ∧
        r.image.subscriberPosition ≤ 3072 + (96 - 0) := by
  refine ⟨rfl, threeFrameImage_valid, threeFrameImage_framesWithin, ?_⟩
  obtain ⟨r, hr, H, _⟩ := controlledPoll_stops_at_uncommitted scriptedHandler 32
    threeFrameImage [CONTINUE, CONTINUE, CONTINUE] 10 rfl threeFrameImage_valid
    threeFrameImage_framesWithin
  have hev : (Image.controlledPoll scriptedHandler 32 threeFrameImage
      [CONTINUE, CONTINUE, CONTINUE] 10).map
      (fun r => (decide (Event.term (TermEvent.frameLengthRead 96) ∈ r.trace),
        delivered r.trace)) = some (true, [0, 32, 64]) := by decide
  rw [hr] at hev
  simp only [Option.map_some', Option.some.injEq, Prod.mk.injEq, decide_eq_true_eq] at hev
  obtain ⟨e1, e2⟩ := hev
  have hc : wrap32 (threeFrameImage.termBuffer.frameLengthVolatile 96) ≤ 0 := by decide
  obtain ⟨_, _, h3, h4⟩ := H 96 e1 hc
  exact ⟨r, hr, e1, hc, e2, h3, h4⟩

/-- C15: at an image whose term holds a committed padding frame of aligned length 64 at
offset 0 and a committed data frame of aligned length 32 at offset 64, with the position
3072 at term offset 0, a `controlledPoll` goes over both frames and invokes the handler for
the data frame only, so that the padding frame is neither delivered nor counted.  When the
handler returns COMMIT the pass returns 1 and stores 3104 = 3072 + 32 to the counter, and
that is the position after the pass: the aligned length 64 of the padding frame is not
included in the advance.  When the handler returns CONTINUE instead, the position after
the pass is 3168 = 3072 + 64 + 32. -/
theorem controlledPoll_padding_before_commit_dropped :
    (Image.controlledPoll scriptedHandler 32 paddingFirstImage [COMMIT] 10).map
        (fun r => (visited r.trace, delivered r.trace, r.result, published r.trace,
          r.image.subscriberPosition - paddingFirstImage.subscriberPosition)) =
      some ([0, 64], [64], 1, [3104], 32) ∧
    (Image.controlledPoll scriptedHandler 32 paddingFirstImage [CONTINUE] 1).map
        (fun r => (visited r.trace, delivered r.trace, r.result, published r.trace,
          r.image.subscriberPosition - paddingFirstImage.subscriberPosition)) =
      some ([0, 64], [64], 1, [3168], 96) ∧
    alignedLengthAt paddingFirstImage.termBuffer 0 = 64 ∧
    alignedLengthAt paddingFirstImage.termBuffer 64 = 32 :=
  ⟨by decide, by decide, by decide, by decide⟩

/-! ## Closing an image -/

/-- A call on a closed image leaves the image as it is and returns its closed answer. -/
theorem ImageCall.run_closed {σ : Type} (img : Image) (hclosed : img.isClosed = true)
    (c : ImageCall σ) : c.run img = some (img, c.closedReturn) := by
  cases c with
  | close =>
    have : img.close = img := by
      cases img; simp only [Image.close] at *; simp [hclosed]
    simp [ImageCall.run, ImageCall.closedReturn, this]
  | position => simp [ImageCall.run, ImageCall.closedReturn, Image.position, hclosed]
  | poll read hs limit =>
    simp [ImageCall.run, ImageCall.closedReturn, Image.poll, hclosed, PollResult.returned]
  | controlledPoll h hdr hs limit =>
    simp [ImageCall.run, ImageCall.closedReturn, Image.controlledPoll, hclosed,
      PollResult.returned]
  | blockPoll scan bh hs limit =>
    simp [ImageCall.run, ImageCall.closedReturn, Image.blockPoll, hclosed,
      PollResult.returned]

/-- C14: `close()` is idempotent, closing a closed image changes nothing; and whatever
sequence of `close`, `position`, `poll`, `controlledPoll` and `blockPoll` calls is made on
a closed image, with whatever handlers and limits, every call returns, the image at the
end is the closed image it was, `isClosed()` is still true, and `position` and every poll
returned -1. -/
theorem close_idempotent_and_final {σ : Type} (img : Image) (calls : List (ImageCall σ)) :
    img.close.close = img.close ∧
      runCalls img.close calls = some (img.close, calls.map ImageCall.closedReturn) ∧
      img.close.isClosed = true ∧
      (∀ c ∈ calls, c.closedReturn = none ∨ c.closedReturn = some (-1)) := by
  refine ⟨rfl, ?_, rfl, ?_⟩
  · induction calls with
    | nil => rfl
    | cons c cs ih =>
      simp only [runCalls, ImageCall.run_closed img.close rfl c, ih, List.map_cons]
  · intro c _
    cases c <;> simp [ImageCall.closedReturn, IMAGE_CLOSED]

/-! ## The closed flag -/

/-- No step of a thread on an image is a release or an acquire operation, so no pair of
them synchronizes. -/
theorem synchronizesWith_operation (a b : ImageThreadStep) :
    synchronizesWith a.operation b.operation = false := by
  cases a <;> cases b <;> rfl

/-- C18, as stated, fails: thread A writes 1 to a shared location and then calls
`close()`; thread B calls `isClosed()`, which takes its value from the store of `close()`
and so returns true, and then reads the location.  The store is made with
`std::memory_order_relaxed`, not as a release operation, and the load with
`std::memory_order_relaxed`, not as an acquire operation, so the store does not
synchronize with the load and the write does not happen before the read: B has observed
the image as closed and is not guaranteed to observe what A wrote before the close.  Had
`close()` stored with `release` and `isClosed()` loaded with `acquire`, the write would
have happened before the read. -/
theorem closed_flag_observed_without_ordering :
    Image.closeOperation ≠ MemoryOperation.atomicStore true MemoryOrder.release ∧
    Image.isClosedOperation ≠ MemoryOperation.atomicLoad MemoryOrder.acquire ∧
    loadedValue
      ([ImageThreadStep.write 0 1, ImageThreadStep.close].map ImageThreadStep.operation)
      (fun l => if l = 0 then some 1 else none) 0 = true ∧
    happensBefore
      ([ImageThreadStep.write 0 1, ImageThreadStep.close].map ImageThreadStep.operation)
      ([ImageThreadStep.isClosed, ImageThreadStep.read 0].map ImageThreadStep.operation)
      (fun l => if l = 0 then some 1 else none) 0 1 = false ∧
    happensBefore
      [MemoryOperation.plainWrite 0 1, MemoryOperation.atomicStore true MemoryOrder.release]
      [MemoryOperation.atomicLoad MemoryOrder.acquire, MemoryOperation.plainRead 0]
      (fun l => if l = 0 then some 1 else none) 0 1 = true := by
  decide

/-- C18, amended: `close()` stores the closed flag and `isClosed()`, and with it every
poll, loads it with `std::memory_order_relaxed`.  Whatever two threads do with an image and
with the data they share (plain writes and reads, calls of `close()`, calls of
`isClosed()`), and whichever store each load takes its value from, no operation of the one
thread happens before an operation of the other through the closed flag: observing the
image as closed orders nothing. -/
theorem closed_flag_accesses_are_relaxed (first second : List ImageThreadStep)
    (readsFrom : Nat → Option Nat) (i j : Nat) :
    Image.closeOperation = MemoryOperation.atomicStore true MemoryOrder.relaxed ∧
    Image.isClosedOperation = MemoryOperation.atomicLoad MemoryOrder.relaxed ∧
    happensBefore (first.map ImageThreadStep.operation)
      (second.map ImageThreadStep.operation) readsFrom i j = false := by
  refine ⟨rfl, rfl, ?_⟩
  unfold happensBefore
  rw [List.any_eq_false]
  intro k _
  rw [Bool.not_eq_true, List.any_eq_false]
  intro l _
  rw [Bool.not_eq_true]
  simp only [List.getElem?_map]
  rcases first[k]? with _ | a <;> rcases second[l]? with _ | b <;>
    simp [synchronizesWith_operation]

/-! ## The fragment limit -/

/-- C17: at the three-frame image, a `controlledPoll` with fragment limit 0 whose handler
returns CONTINUE invokes the handler once, for the frame at offset 0, returns 1 and
advances the position by 32: the loop tests the limit only after its body has run. -/
theorem controlledPoll_limit_zero_delivers_one :
    (Image.controlledPoll scriptedHandler 32 threeFrameImage [CONTINUE] 0).map
        (fun r => (r.result, delivered r.trace, r.image.subscriberPosition)) =
      some (1, [0], 3104) := by
  decide

/-! ## The layout of the CnC file -/

open CncFileDescriptor in
/-- C19: `VERSION_AND_META_DATA_LENGTH` is 128: it is
`align(sizeof(MetaDataDefn), CACHE_LINE_LENGTH * 2)` at `size_t`, where `MetaDataDefn`,
six `int32` members and one `int64` member packed to 4 bytes, has size 32 and
`CACHE_LINE_LENGTH` is 64. -/
theorem version_and_meta_data_length_eq :
    VERSION_AND_META_DATA_LENGTH = 128 ∧
      VERSION_AND_META_DATA_LENGTH =
        BitUtil.alignUnsigned 64 MetaDataDefn.sizeof (2 * BitUtil.CACHE_LINE_LENGTH) ∧
      MetaDataDefn.sizeof = 32 ∧ MetaDataDefn.sizeof = 6 * 4 + 8 ∧
      BitUtil.CACHE_LINE_LENGTH = 64 := by
  decide

open CncFileDescriptor in
/-- C20: for a CnC file whose recorded sub-buffer lengths are non-negative (the length of
the error log, the last view, does not even matter), the to-driver view starts at `VERSION_AND_META_DATA_LENGTH`, the to-clients, counters
metadata, counters values and error log views each start where the view before ends, each
view has its recorded length as capacity, no view starts before the end of the header,
and the five views are pairwise disjoint. -/
theorem cnc_buffers_contiguous (cncFile : CncFile)
    (h1 : 0 ≤ cncFile.metaData.toDriverBufferLength)
    (h2 : 0 ≤ cncFile.metaData.toClientsBufferLength)
    (h3 : 0 ≤ cncFile.metaData.counterMetadataBufferLength)
    (h4 : 0 ≤ cncFile.metaData.counterValuesBufferLength) :
    (createToDriverBuffer cncFile).offset = VERSION_AND_META_DATA_LENGTH ∧
      (createToClientsBuffer cncFile).offset =
        (createToDriverBuffer cncFile).offset + (createToDriverBuffer cncFile).capacity ∧
      (createCounterMetadataBuffer cncFile).offset =
        (createToClientsBuffer cncFile).offset + (createToClientsBuffer cncFile).capacity ∧
      (createCounterValuesBuffer cncFile).offset =
        (createCounterMetadataBuffer cncFile).offset +
          (createCounterMetadataBuffer cncFile).capacity ∧
      (createErrorLogBuffer cncFile).offset =
        (createCounterValuesBuffer cncFile).offset +
          (createCounterValuesBuffer cncFile).capacity ∧
      ((createToDriverBuffer cncFile).capacity = cncFile.metaData.toDriverBufferLength ∧
        (createToClientsBuffer cncFile).capacity = cncFile.metaData.toClientsBufferLength ∧
        (createCounterMetadataBuffer cncFile).capacity =
          cncFile.metaData.counterMetadataBufferLength ∧
        (createCounterValuesBuffer cncFile).capacity =
          cncFile.metaData.counterValuesBufferLength ∧
        (createErrorLogBuffer cncFile).capacity = cncFile.metaData.errorLogBufferLength) ∧
      (∀ v ∈ [createToDriverBuffer cncFile, createToClientsBuffer cncFile,
          createCounterMetadataBuffer cncFile, createCounterValuesBuffer cncFile,
          createErrorLogBuffer cncFile], (VERSION_AND_META_DATA_LENGTH : Int) ≤ v.offset) ∧
      List.Pairwise BufferView.Disjoint
        [createToDriverBuffer cncFile, createToClientsBuffer cncFile,
          createCounterMetadataBuffer cncFile, createCounterValuesBuffer cncFile,
          createErrorLogBuffer cncFile] := by
  refine ⟨rfl, rfl, rfl, rfl, rfl, ⟨rfl, rfl, rfl, rfl, rfl⟩, ?_, ?_⟩
  · intro v hv
    simp only [List.mem_cons, List.mem_singleton, List.not_mem_nil, or_false] at hv
    rcases hv with rfl | rfl | rfl | rfl | rfl <;>
      simp only [createToDriverBuffer, createToClientsBuffer, createCounterMetadataBuffer,
        createCounterValuesBuffer, createErrorLogBuffer] <;>
      omega
  · simp only [List.pairwise_cons, List.mem_cons, List.mem_singleton, List.not_mem_nil,
      or_false, forall_eq_or_imp, forall_eq, List.Pairwise.nil, and_true,
      BufferView.Disjoint, createToDriverBuffer, createToClientsBuffer,
      createCounterMetadataBuffer, createCounterValuesBuffer, createErrorLogBuffer,
      IsEmpty.forall_iff, implies_true]
    omega

open CncFileDescriptor in
/-- C20 at a CnC file with sub-buffers of 1024, 2048, 512, 256 and 128 bytes: the views
start at 128, 1152, 3200, 3712 and 3968. -/
theorem cnc_buffers_contiguous_witness :
    (createToDriverBuffer exampleCncFile).offset = 128 ∧
      (createToClientsBuffer exampleCncFile).offset = 128 + 1024 ∧
      (createErrorLogBuffer exampleCncFile).offset = 128 + 1024 + 2048 + 512 + 256 ∧
      List.Pairwise BufferView.Disjoint
        [createToDriverBuffer exampleCncFile, createToClientsBuffer exampleCncFile,
          createCounterMetadataBuffer exampleCncFile, createCounterValuesBuffer exampleCncFile,
          createErrorLogBuffer exampleCncFile] :=
  have H := cnc_buffers_contiguous exampleCncFile (by decide) (by decide) (by decide)
    (by decide)
  ⟨by decide, by decide, by decide, H.2.2.2.2.2.2.2⟩

/-! ## The scan limit of a block poll -/

/-- C30, as the code stands: at term offset 64 of a term of 1024 bytes, with a block
length limit of `2 ^ 31 - 1`, the sum `termOffset + blockLengthLimit` wraps in 32-bit
arithmetic to -2147483585, so the limit handed to the scan is -2147483585: it is below the
term offset, whereas the smaller block length limit 32 gives the larger limit 96. -/
theorem blockPoll_limit_wraps :
    Image.termOffset { threeFrameImage with subscriberPosition := 3136 } = 64 ∧
    (Image.termBuffer { threeFrameImage with subscriberPosition := 3136 }).capacity = 1024 ∧
    (Image.blockPoll (fun _ termOffset _ => termOffset)
      (fun (s : Unit) _ _ _ _ => (Invocation.returns (), s))
      { threeFrameImage with subscriberPosition := 3136 } () 2147483647).trace =
      [Event.positionGet, Event.term (TermEvent.blockScan 64 (-2147483585))] ∧
    (Image.blockPoll (fun _ termOffset _ => termOffset)
      (fun (s : Unit) _ _ _ _ => (Invocation.returns (), s))
      { threeFrameImage with subscriberPosition := 3136 } () 32).trace =
      [Event.positionGet, Event.term (TermEvent.blockScan 64 96)] ∧
    (-2147483585 : Int) < 64 := by
  decide

/-! ## The driver proxy -/

/-- What a command of the proxy does, in one equation: it draws a correlation id; when
the record of the command is longer than the scratch buffer it throws
`OutOfBoundsException` without a call of `write`; otherwise it writes the record under its
message type id, and returns the id when the write returned true and throws
`IllegalStateException` when it returned false. -/
theorem DriverCommand.run_eq {ρ : Type} (rb : ManyToOneRingBuffer ρ) (proxy : DriverProxy)
    (ring : ρ) (command : DriverCommand) :
    command.run rb proxy ring =
      if DriverProxy.COMMAND_BUFFER_LENGTH <
          (command.record proxy.clientId (rb.nextCorrelationId ring).1).length then
        { outcome := CommandOutcome.throws CommandFailure.OutOfBoundsException
          ring := (rb.nextCorrelationId ring).2
          calls := [RingCall.nextCorrelationId (rb.nextCorrelationId ring).1] }
      else
      { outcome :=
          if (rb.write (rb.nextCorrelationId ring).2 command.msgTypeId
              (command.record proxy.clientId (rb.nextCorrelationId ring).1) 0
              (command.record proxy.clientId (rb.nextCorrelationId ring).1).length).1 then
            CommandOutcome.returns (rb.nextCorrelationId ring).1
          else CommandOutcome.throws CommandFailure.IllegalStateException
        ring := (rb.write (rb.nextCorrelationId ring).2 command.msgTypeId
          (command.record proxy.clientId (rb.nextCorrelationId ring).1) 0
          (command.record proxy.clientId (rb.nextCorrelationId ring).1).length).2
        calls := [RingCall.nextCorrelationId (rb.nextCorrelationId ring).1,
          RingCall.write command.msgTypeId
            (command.record proxy.clientId (rb.nextCorrelationId ring).1) 0
            (command.record proxy.clientId (rb.nextCorrelationId ring).1).length
            (rb.write (rb.nextCorrelationId ring).2 command.msgTypeId
              (command.record proxy.clientId (rb.nextCorrelationId ring).1) 0
              (command.record proxy.clientId (rb.nextCorrelationId ring).1).length).1] } := by
  by_cases hfit : DriverProxy.COMMAND_BUFFER_LENGTH <
      (command.record proxy.clientId (rb.nextCorrelationId ring).1).length
  · rw [if_pos hfit]
    cases command <;>
      simp only [DriverCommand.record] at hfit <;>
      simp only [DriverCommand.run, DriverProxy.addPublication, DriverProxy.removePublication,
        DriverProxy.addSubscription, DriverProxy.removeSubscription,
        DriverProxy.writeCommandToDriver, if_pos hfit]
  · rw [if_neg hfit]
    cases command <;>
      simp only [DriverCommand.record] at hfit <;>
      simp only [DriverCommand.run, DriverProxy.addPublication, DriverProxy.removePublication,
        DriverProxy.addSubscription, DriverProxy.removeSubscription,
        DriverProxy.writeCommandToDriver, if_neg hfit, DriverCommand.record,
        DriverCommand.msgTypeId] <;>
      split <;> rename_i hw <;> split at hw <;> simp_all

/-- The record of a remove command is 24 bytes long and fits the scratch buffer. -/
theorem removeMessage_fits (clientId correlationId registrationId : Int) :
    ¬ DriverProxy.COMMAND_BUFFER_LENGTH <
      (CommandBuffer.removeMessage clientId correlationId registrationId).length := by
  show ¬ ((512 : Int) < 16 + 8)
  decide

/-- Under a strict increment the correlation ids returned by successive commands are at
least the counter the first command found and strictly increasing. -/
theorem runCommands_ids {ρ : Type} (rb : ManyToOneRingBuffer ρ) (counter : ρ → Int)
    (hinc : StrictIncrement rb counter) (proxy : DriverProxy) :
    ∀ (commands : List DriverCommand) (ring : ρ),
      (∀ id ∈ returnedIds (runCommands rb proxy ring commands), counter ring ≤ id) ∧
      List.Pairwise (fun a b => a < b) (returnedIds (runCommands rb proxy ring commands)) := by
  intro commands
  induction commands with
  | nil => intro ring; simp [runCommands, returnedIds]
  | cons command rest ih =>
    intro ring
    obtain ⟨hnext, hwrite⟩ := hinc
    obtain ⟨h1, h2⟩ := hnext ring
    have heq := DriverCommand.run_eq rb proxy ring command
    have hring : counter (command.run rb proxy ring).ring =
        counter (rb.nextCorrelationId ring).2 := by
      rw [heq]
      split
      · rfl
      · exact hwrite _ _ _ _ _
    obtain ⟨ih1, ih2⟩ := ih (command.run rb proxy ring).ring
    have hrest : ∀ id ∈ returnedIds (runCommands rb proxy (command.run rb proxy ring).ring rest),
        (rb.nextCorrelationId ring).1 < id := by
      intro id hid
      have := ih1 id hid
      rw [hring] at this
      exact lt_of_lt_of_le h2 this
    have hout : (command.run rb proxy ring).outcome =
          CommandOutcome.returns (rb.nextCorrelationId ring).1 ∨
        ∃ failure, (command.run rb proxy ring).outcome = CommandOutcome.throws failure := by
      rw [heq]
      split
      · exact Or.inr ⟨_, rfl⟩
      · dsimp only
        split
        · exact Or.inl rfl
        · exact Or.inr ⟨_, rfl⟩
    simp only [runCommands, returnedIds]
    rcases hout with ho | ⟨failure, ho⟩ <;> rw [ho] <;> dsimp only
    · refine ⟨?_, List.pairwise_cons.mpr ⟨hrest, ih2⟩⟩
      intro id hid
      rcases List.mem_cons.mp hid with rfl | hid
      · exact h1
      · exact le_of_lt (lt_of_le_of_lt h1 (hrest id hid))
    · refine ⟨?_, ih2⟩
      intro id hid
      exact le_of_lt (lt_of_le_of_lt h1 (hrest id hid))

/-- The example ring hands out its counter and adds one, and writing leaves the counter
alone. -/
theorem exampleRingBuffer_strictIncrement :
    StrictIncrement exampleRingBuffer (fun ring => ring.counter) := by
  refine ⟨fun ring => ⟨le_refl _, ?_⟩, ?_⟩
  · show ring.counter < ring.counter + 1
    omega
  · intro ring msgTypeId buffer srcIndex length
    simp only [exampleRingBuffer]
    split <;> rfl

/-- C21: the client id of a proxy is the correlation id drawn at its construction.  Each
of `addPublication`, `removePublication`, `addSubscription` and `removeSubscription` draws
exactly one correlation id from the ring.  When the ring write succeeds, that is when the
record was built in the scratch buffer and the write of it returned true, or, which is the
same, when the call wrote a record at all, the call returns that id and the one record it
wrote carries the proxy's client id and that id.  When `nextCorrelationId()` is a strict
increment, the client id followed by the ids returned by successive commands is strictly
increasing, so the ids are pairwise distinct and distinct from the client id. -/
theorem driverProxy_correlation_ids {ρ : Type} (rb : ManyToOneRingBuffer ρ)
    (counter : ρ → Int) (hinc : StrictIncrement rb counter) (ring0 : ρ)
    (commands : List DriverCommand) :
    (DriverProxy.construct rb ring0).1.clientId = (rb.nextCorrelationId ring0).1 ∧
    (∀ (proxy : DriverProxy) (command : DriverCommand) (ring : ρ),
      idsDrawn (command.run rb proxy ring).calls = [(rb.nextCorrelationId ring).1] ∧
      ((command.record proxy.clientId (rb.nextCorrelationId ring).1).length ≤
          DriverProxy.COMMAND_BUFFER_LENGTH →
        (rb.write (rb.nextCorrelationId ring).2 command.msgTypeId
          (command.record proxy.clientId (rb.nextCorrelationId ring).1) 0
          (command.record proxy.clientId (rb.nextCorrelationId ring).1).length).1 = true →
        (command.run rb proxy ring).outcome =
          CommandOutcome.returns (rb.nextCorrelationId ring).1 ∧
        recordsWritten (command.run rb proxy ring).calls =
          [(command.msgTypeId, command.record proxy.clientId (rb.nextCorrelationId ring).1,
            (command.record proxy.clientId (rb.nextCorrelationId ring).1).length)]) ∧
      (recordsWritten (command.run rb proxy ring).calls ≠ [] →
        (command.run rb proxy ring).outcome =
          CommandOutcome.returns (rb.nextCorrelationId ring).1 ∧
        recordsWritten (command.run rb proxy ring).calls =
          [(command.msgTypeId, command.record proxy.clientId (rb.nextCorrelationId ring).1,
            (command.record proxy.clientId (rb.nextCorrelationId ring).1).length)])) ∧
    List.Pairwise (fun a b => a < b) ((DriverProxy.construct rb ring0).1.clientId ::
      returnedIds (runCommands rb (DriverProxy.construct rb ring0).1
        (DriverProxy.construct rb ring0).2 commands)) ∧
    ((DriverProxy.construct rb ring0).1.clientId ::
      returnedIds (runCommands rb (DriverProxy.construct rb ring0).1
        (DriverProxy.construct rb ring0).2 commands)).Nodup := by
  have hsorted : List.Pairwise (fun a b => a < b)
      ((DriverProxy.construct rb ring0).1.clientId ::
        returnedIds (runCommands rb (DriverProxy.construct rb ring0).1
          (DriverProxy.construct rb ring0).2 commands)) := by
    obtain ⟨h1, h2⟩ := runCommands_ids rb counter hinc (DriverProxy.construct rb ring0).1
      commands (DriverProxy.construct rb ring0).2
    refine List.pairwise_cons.mpr ⟨?_, h2⟩
    intro id hid
    exact lt_of_lt_of_le (hinc.1 ring0).2 (h1 id hid)
  refine ⟨rfl, ?_, hsorted, hsorted.imp (fun hab => ne_of_lt hab)⟩
  intro proxy command ring
  rw [DriverCommand.run_eq rb proxy ring command]
  by_cases hfit : DriverProxy.COMMAND_BUFFER_LENGTH <
      (command.record proxy.clientId (rb.nextCorrelationId ring).1).length
  · rw [if_pos hfit]
    refine ⟨rfl, fun hle => absurd hfit (not_lt.mpr hle), fun hne => absurd rfl hne⟩
  · rw [if_neg hfit]
    dsimp only
    refine ⟨rfl, ?_, ?_⟩
    · intro _ hw
      rw [hw]
      exact ⟨rfl, rfl⟩
    · intro hne
      rcases hw : (rb.write (rb.nextCorrelationId ring).2 command.msgTypeId
        (command.record proxy.clientId (rb.nextCorrelationId ring).1) 0
        (command.record proxy.clientId (rb.nextCorrelationId ring).1).length).1 with _ | _
      · rw [hw] at hne
        exact absurd rfl hne
      · exact ⟨rfl, rfl⟩

/-- C21 at the example ring, whose counter stands at 100 and which has room for two
records: the client id is 100, and an add and a remove of a publication return 101 and
102. -/
theorem driverProxy_correlation_ids_witness :
    StrictIncrement exampleRingBuffer (fun ring => ring.counter) ∧
      (DriverProxy.construct exampleRingBuffer exampleRing).1.clientId = 100 ∧
      returnedIds (runCommands exampleRingBuffer
        (DriverProxy.construct exampleRingBuffer exampleRing).1
        (DriverProxy.construct exampleRingBuffer exampleRing).2
        [DriverCommand.addPublication exampleChannel 1001,
          DriverCommand.removePublication 101]) = [101, 102] ∧
      List.Pairwise (fun a b => a < b)
        ((DriverProxy.construct exampleRingBuffer exampleRing).1.clientId ::
          returnedIds (runCommands exampleRingBuffer
            (DriverProxy.construct exampleRingBuffer exampleRing).1
            (DriverProxy.construct exampleRingBuffer exampleRing).2
            [DriverCommand.addPublication exampleChannel 1001,
              DriverCommand.removePublication 101])) :=
  ⟨exampleRingBuffer_strictIncrement, rfl, by decide,
    (driverProxy_correlation_ids exampleRingBuffer (fun ring => ring.counter)
      exampleRingBuffer_strictIncrement exampleRing
      [DriverCommand.addPublication exampleChannel 1001,
        DriverCommand.removePublication 101]).2.2.1⟩

/-- C22, as the code stands: on the example ring, whose counter stands at 101 once the
proxy with client id 100 has been constructed, `sendClientKeepalive` writes one
CLIENT_KEEPALIVE record of length `CORRELATED_MESSAGE_LENGTH` that carries the client id
and the correlation id 0; it draws no id from the ring and leaves the counter at 101. -/
theorem sendClientKeepalive_correlation_id_zero :
    recordsWritten (DriverProxy.sendClientKeepalive exampleRingBuffer
        (DriverProxy.construct exampleRingBuffer exampleRing).1
        (DriverProxy.construct exampleRingBuffer exampleRing).2).calls =
      [(ControlProtocolEvents.CLIENT_KEEPALIVE, CommandBuffer.correlatedMessage 100 0,
        CORRELATED_MESSAGE_LENGTH)] ∧
    idsDrawn (DriverProxy.sendClientKeepalive exampleRingBuffer
        (DriverProxy.construct exampleRingBuffer exampleRing).1
        (DriverProxy.construct exampleRingBuffer exampleRing).2).calls = [] ∧
    (DriverProxy.construct exampleRingBuffer exampleRing).2.counter = 101 ∧
    (DriverProxy.sendClientKeepalive exampleRingBuffer
        (DriverProxy.construct exampleRingBuffer exampleRing).1
        (DriverProxy.construct exampleRingBuffer exampleRing).2).ring.counter = 101 := by
  decide

/-- The record of a keepalive is 16 bytes long and fits the scratch buffer. -/
theorem correlatedMessage_fits (clientId correlationId : Int) :
    ¬ DriverProxy.COMMAND_BUFFER_LENGTH <
      (CommandBuffer.correlatedMessage clientId correlationId).length := by
  show ¬ ((512 : Int) < 16)
  decide

/-- C22, amended: `sendClientKeepalive` makes exactly one call on the ring, a write of a
CLIENT_KEEPALIVE message of length `CORRELATED_MESSAGE_LENGTH` from index 0 of a buffer
that carries the proxy's client id and the correlation id 0; it draws no correlation id,
the ring is left as the write left it, and the call returns when the write returned true
and throws `IllegalStateException` when it returned false. -/
theorem sendClientKeepalive_writes_one_record {ρ : Type} (rb : ManyToOneRingBuffer ρ)
    (proxy : DriverProxy) (ring : ρ) :
    (DriverProxy.sendClientKeepalive rb proxy ring).calls =
      [RingCall.write ControlProtocolEvents.CLIENT_KEEPALIVE
        (CommandBuffer.correlatedMessage proxy.clientId 0) 0 CORRELATED_MESSAGE_LENGTH
        (rb.write ring ControlProtocolEvents.CLIENT_KEEPALIVE
          (CommandBuffer.correlatedMessage proxy.clientId 0) 0 CORRELATED_MESSAGE_LENGTH).1] ∧
    idsDrawn (DriverProxy.sendClientKeepalive rb proxy ring).calls = [] ∧
    (DriverProxy.sendClientKeepalive rb proxy ring).ring =
      (rb.write ring ControlProtocolEvents.CLIENT_KEEPALIVE
        (CommandBuffer.correlatedMessage proxy.clientId 0) 0 CORRELATED_MESSAGE_LENGTH).2 ∧
    (DriverProxy.sendClientKeepalive rb proxy ring).outcome =
      (if (rb.write ring ControlProtocolEvents.CLIENT_KEEPALIVE
          (CommandBuffer.correlatedMessage proxy.clientId 0) 0 CORRELATED_MESSAGE_LENGTH).1
        then CommandOutcome.returns ()
        else CommandOutcome.throws CommandFailure.IllegalStateException) := by
  simp only [DriverProxy.sendClientKeepalive, DriverProxy.writeCommandToDriver,
    if_neg (correlatedMessage_fits proxy.clientId 0)]
  cases (rb.write ring ControlProtocolEvents.CLIENT_KEEPALIVE
    (CommandBuffer.correlatedMessage proxy.clientId 0) 0 CORRELATED_MESSAGE_LENGTH).1 <;>
    simp [idsDrawn]

/-- C23, as the code stands: on a ring without room the write returns false and
`addPublication` throws `IllegalStateException`, which is not BACK_PRESSURED. -/
theorem addPublication_throws_illegal_state :
    (exampleRingBuffer.write (exampleRingBuffer.nextCorrelationId fullRing).2
      ControlProtocolEvents.ADD_PUBLICATION
      (CommandBuffer.publicationMessage 7 100 1001 exampleChannel) 0
      (CommandBuffer.publicationMessage 7 100 1001 exampleChannel).length).1 = false ∧
    (DriverProxy.addPublication exampleRingBuffer { clientId := 7 } fullRing exampleChannel
      1001).outcome = CommandOutcome.throws CommandFailure.IllegalStateException ∧
    (DriverProxy.addPublication exampleRingBuffer { clientId := 7 } fullRing exampleChannel
      1001).outcome ≠ CommandOutcome.throws CommandFailure.BACK_PRESSURED := by
  refine ⟨rfl, by decide, ?_⟩
  intro hc
  have h2 : (DriverProxy.addPublication exampleRingBuffer { clientId := 7 } fullRing
      exampleChannel 1001).outcome =
      CommandOutcome.throws CommandFailure.IllegalStateException := by decide
  rw [h2] at hc
  exact absurd hc (by decide)

/-- C23, amended: each of the four add and remove commands of the proxy throws
`OutOfBoundsException` when its record is longer than the 512 bytes of the scratch buffer,
which only the record of an add with a long channel is; otherwise it returns the
correlation id it drew when the ring write returns true and throws
`IllegalStateException` when the ring write returns false.  So such a command fails
exactly when its record does not fit the scratch buffer or the write returns false, and a
remove command exactly when the write returns false.  `sendClientKeepalive`, whose record
always fits, returns when the write returns true and throws `IllegalStateException` when
it returns false.  No command fails with BACK_PRESSURED. -/
theorem driverProxy_fails_iff_write_fails {ρ : Type} (rb : ManyToOneRingBuffer ρ)
    (proxy : DriverProxy) (ring : ρ) :
    (∀ command : DriverCommand,
      (command.run rb proxy ring).outcome =
        (if DriverProxy.COMMAND_BUFFER_LENGTH <
            (command.record proxy.clientId (rb.nextCorrelationId ring).1).length then
          CommandOutcome.throws CommandFailure.OutOfBoundsException
        else if (rb.write (rb.nextCorrelationId ring).2 command.msgTypeId
            (command.record proxy.clientId (rb.nextCorrelationId ring).1) 0
            (command.record proxy.clientId (rb.nextCorrelationId ring).1).length).1
          then CommandOutcome.returns (rb.nextCorrelationId ring).1
          else CommandOutcome.throws CommandFailure.IllegalStateException) ∧
      ((∃ failure, (command.run rb proxy ring).outcome = CommandOutcome.throws failure) ↔
        (DriverProxy.COMMAND_BUFFER_LENGTH <
            (command.record proxy.clientId (rb.nextCorrelationId ring).1).length ∨
          (rb.write (rb.nextCorrelationId ring).2 command.msgTypeId
            (command.record proxy.clientId (rb.nextCorrelationId ring).1) 0
            (command.record proxy.clientId (rb.nextCorrelationId ring).1).length).1 = false)) ∧
      (command.run rb proxy ring).outcome ≠
        CommandOutcome.throws CommandFailure.BACK_PRESSURED) ∧
    (∀ (registrationId : Int) (command : DriverCommand),
      command = DriverCommand.removePublication registrationId ∨
        command = DriverCommand.removeSubscription registrationId →
      ((∃ failure, (command.run rb proxy ring).outcome = CommandOutcome.throws failure) ↔
        (rb.write (rb.nextCorrelationId ring).2 command.msgTypeId
          (command.record proxy.clientId (rb.nextCorrelationId ring).1) 0
          (command.record proxy.clientId (rb.nextCorrelationId ring).1).length).1 = false)) ∧
    (DriverProxy.sendClientKeepalive rb proxy ring).outcome =
      (if (rb.write ring ControlProtocolEvents.CLIENT_KEEPALIVE
          (CommandBuffer.correlatedMessage proxy.clientId 0) 0 CORRELATED_MESSAGE_LENGTH).1
        then CommandOutcome.returns ()
        else CommandOutcome.throws CommandFailure.IllegalStateException) ∧
    ((∃ failure, (DriverProxy.sendClientKeepalive rb proxy ring).outcome =
        CommandOutcome.throws failure) ↔
      (rb.write ring ControlProtocolEvents.CLIENT_KEEPALIVE
        (CommandBuffer.correlatedMessage proxy.clientId 0) 0
        CORRELATED_MESSAGE_LENGTH).1 = false) := by
  have hall : ∀ command : DriverCommand,
      (command.run rb proxy ring).outcome =
        (if DriverProxy.COMMAND_BUFFER_LENGTH <
            (command.record proxy.clientId (rb.nextCorrelationId ring).1).length then
          CommandOutcome.throws CommandFailure.OutOfBoundsException
        else if (rb.write (rb.nextCorrelationId ring).2 command.msgTypeId
            (command.record proxy.clientId (rb.nextCorrelationId ring).1) 0
            (command.record proxy.clientId (rb.nextCorrelationId ring).1).length).1
          then CommandOutcome.returns (rb.nextCorrelationId ring).1
          else CommandOutcome.throws CommandFailure.IllegalStateException) := by
    intro command
    rw [DriverCommand.run_eq rb proxy ring command]
    split <;> rfl
  refine ⟨?_, ?_, ?_⟩
  · intro command
    refine ⟨hall command, ?_, ?_⟩
    · rw [hall command]
      by_cases hfit : DriverProxy.COMMAND_BUFFER_LENGTH <
          (command.record proxy.clientId (rb.nextCorrelationId ring).1).length
      · simp [hfit]
      · rw [if_neg hfit]
        cases (rb.write (rb.nextCorrelationId ring).2 command.msgTypeId
          (command.record proxy.clientId (rb.nextCorrelationId ring).1) 0
          (command.record proxy.clientId (rb.nextCorrelationId ring).1).length).1 <;>
          simp [hfit]
    · rw [hall command]
      split
      · decide
      · split <;> simp
  · intro registrationId command hc
    rw [hall command]
    have hfit : ¬ DriverProxy.COMMAND_BUFFER_LENGTH <
        (command.record proxy.clientId (rb.nextCorrelationId ring).1).length := by
      rcases hc with rfl | rfl <;> exact removeMessage_fits _ _ _
    rw [if_neg hfit]
    cases (rb.write (rb.nextCorrelationId ring).2 command.msgTypeId
      (command.record proxy.clientId (rb.nextCorrelationId ring).1) 0
      (command.record proxy.clientId (rb.nextCorrelationId ring).1).length).1 <;> simp
  · simp only [DriverProxy.sendClientKeepalive, DriverProxy.writeCommandToDriver,
      if_neg (correlatedMessage_fits proxy.clientId 0)]
    cases (rb.write ring ControlProtocolEvents.CLIENT_KEEPALIVE
      (CommandBuffer.correlatedMessage proxy.clientId 0) 0 CORRELATED_MESSAGE_LENGTH).1 <;>
      simp

set_option maxRecDepth 20000 in
/-- C24, as stated, fails: `addPublication` with a channel of 489 bytes, on a ring with
room for two records, draws the correlation id 100 and then makes no call of `write`: the
record would be 513 bytes long, one more than the scratch buffer holds, and the call
throws `OutOfBoundsException`.  No record is written. -/
theorem addPublication_long_channel_writes_nothing :
    longChannel.utf8ByteSize = 489 ∧
    (CommandBuffer.publicationMessage 7 100 1001 longChannel).length = 513 ∧
    exampleRing.room = 2 ∧
    (DriverProxy.addPublication exampleRingBuffer { clientId := 7 } exampleRing longChannel
      1001).calls = [RingCall.nextCorrelationId 100] ∧
    recordsWritten (DriverProxy.addPublication exampleRingBuffer { clientId := 7 } exampleRing
      longChannel 1001).calls = [] ∧
    (DriverProxy.addPublication exampleRingBuffer { clientId := 7 } exampleRing longChannel
      1001).outcome = CommandOutcome.throws CommandFailure.OutOfBoundsException ∧
    (DriverProxy.addPublication exampleRingBuffer { clientId := 7 } exampleRing longChannel
      1001).ring.records = [] := by
  decide

/-- C24, amended: when the channel of an add is short enough for the record to fit the 512
bytes of the scratch buffer, at most 488 bytes for a publication and at most 480 bytes for
a subscription, each of the four add and remove commands makes exactly one `write` call on
the ring, after drawing its correlation id, with the message type id of the operation,
from index 0 of a buffer that carries the caller's arguments unchanged behind the client id
and the correlation id: an add carries the given stream id and channel, a remove the given
registration id, and a subscription add the registration correlation id -1.  That call
writes the one record when it returns true, and no record is written when it returns
false. -/
theorem driverProxy_writes_one_record {ρ : Type} (rb : ManyToOneRingBuffer ρ)
    (proxy : DriverProxy) (ring : ρ) (channel subscriptionChannel : String)
    (streamId registrationId : Int)
    (hpublication : channel.utf8ByteSize ≤ 488)
    (hsubscription : subscriptionChannel.utf8ByteSize ≤ 480) :
    (∃ length ok, (DriverProxy.addPublication rb proxy ring channel streamId).calls =
      [RingCall.nextCorrelationId (rb.nextCorrelationId ring).1,
        RingCall.write ControlProtocolEvents.ADD_PUBLICATION
          (CommandBuffer.publicationMessage proxy.clientId (rb.nextCorrelationId ring).1
            streamId channel) 0 length ok]) ∧
    (∃ length ok, (DriverProxy.removePublication rb proxy ring registrationId).calls =
      [RingCall.nextCorrelationId (rb.nextCorrelationId ring).1,
        RingCall.write ControlProtocolEvents.REMOVE_PUBLICATION
          (CommandBuffer.removeMessage proxy.clientId (rb.nextCorrelationId ring).1
            registrationId) 0 length ok]) ∧
    (∃ length ok,
      (DriverProxy.addSubscription rb proxy ring subscriptionChannel streamId).calls =
      [RingCall.nextCorrelationId (rb.nextCorrelationId ring).1,
        RingCall.write ControlProtocolEvents.ADD_SUBSCRIPTION
          (CommandBuffer.subscriptionMessage proxy.clientId (-1)
            (rb.nextCorrelationId ring).1 streamId subscriptionChannel) 0 length ok]) ∧
    (∃ length ok, (DriverProxy.removeSubscription rb proxy ring registrationId).calls =
      [RingCall.nextCorrelationId (rb.nextCorrelationId ring).1,
        RingCall.write ControlProtocolEvents.REMOVE_SUBSCRIPTION
          (CommandBuffer.removeMessage proxy.clientId (rb.nextCorrelationId ring).1
            registrationId) 0 length ok]) ∧
    ∀ command : DriverCommand,
      (command.record proxy.clientId (rb.nextCorrelationId ring).1).length ≤
          DriverProxy.COMMAND_BUFFER_LENGTH →
      recordsWritten (command.run rb proxy ring).calls =
        if (rb.write (rb.nextCorrelationId ring).2 command.msgTypeId
            (command.record proxy.clientId (rb.nextCorrelationId ring).1) 0
            (command.record proxy.clientId (rb.nextCorrelationId ring).1).length).1
        then [(command.msgTypeId,
          command.record proxy.clientId (rb.nextCorrelationId ring).1,
          (command.record proxy.clientId (rb.nextCorrelationId ring).1).length)]
        else [] := by
  have h1 := DriverCommand.run_eq rb proxy ring (DriverCommand.addPublication channel streamId)
  have h2 := DriverCommand.run_eq rb proxy ring (DriverCommand.removePublication registrationId)
  have h3 := DriverCommand.run_eq rb proxy ring
    (DriverCommand.addSubscription subscriptionChannel streamId)
  have h4 := DriverCommand.run_eq rb proxy ring (DriverCommand.removeSubscription registrationId)
  have f1 : ¬ DriverProxy.COMMAND_BUFFER_LENGTH <
      ((DriverCommand.addPublication channel streamId).record proxy.clientId
        (rb.nextCorrelationId ring).1).length := by
    show ¬ ((512 : Int) < 16 + 4 + 4 + channel.utf8ByteSize)
    omega
  have f3 : ¬ DriverProxy.COMMAND_BUFFER_LENGTH <
      ((DriverCommand.addSubscription subscriptionChannel streamId).record proxy.clientId
        (rb.nextCorrelationId ring).1).length := by
    show ¬ ((512 : Int) < 16 + 8 + 4 + 4 + subscriptionChannel.utf8ByteSize)
    omega
  have f2 : ¬ DriverProxy.COMMAND_BUFFER_LENGTH <
      ((DriverCommand.removePublication registrationId).record proxy.clientId
        (rb.nextCorrelationId ring).1).length := removeMessage_fits _ _ _
  have f4 : ¬ DriverProxy.COMMAND_BUFFER_LENGTH <
      ((DriverCommand.removeSubscription registrationId).record proxy.clientId
        (rb.nextCorrelationId ring).1).length := removeMessage_fits _ _ _
  rw [if_neg f1] at h1
  rw [if_neg f2] at h2
  rw [if_neg f3] at h3
  rw [if_neg f4] at h4
  simp only [DriverCommand.run] at h1 h2 h3 h4
  refine ⟨⟨_, _, by rw [h1]; rfl⟩, ⟨_, _, by rw [h2]; rfl⟩, ⟨_, _, by rw [h3]; rfl⟩,
    ⟨_, _, by rw [h4]; rfl⟩, ?_⟩
  intro command hfit
  rw [DriverCommand.run_eq rb proxy ring command, if_neg (not_lt.mpr hfit)]
  dsimp only
  cases (rb.write (rb.nextCorrelationId ring).2 command.msgTypeId
    (command.record proxy.clientId (rb.nextCorrelationId ring).1) 0
    (command.record proxy.clientId (rb.nextCorrelationId ring).1).length).1 <;>
    simp [recordsWritten]

/-- C24, amended, at the example ring with the channel `aeron:ipc` of 9 bytes: an
`addPublication` writes one ADD_PUBLICATION record of 33 bytes that carries the client id
7, the correlation id 100, the stream id 1001 and the channel. -/
theorem driverProxy_writes_one_record_witness :
    exampleChannel.utf8ByteSize ≤ 488 ∧ exampleChannel.utf8ByteSize ≤ 480 ∧
    recordsWritten ((DriverCommand.addPublication exampleChannel 1001).run exampleRingBuffer
      { clientId := 7 } exampleRing).calls =
      [(ControlProtocolEvents.ADD_PUBLICATION,
        CommandBuffer.publicationMessage 7 100 1001 exampleChannel, 33)] := by
  have H := driverProxy_writes_one_record exampleRingBuffer { clientId := 7 } exampleRing
    exampleChannel exampleChannel 1001 101 (by decide) (by decide)
  refine ⟨by decide, by decide, ?_⟩
  rw [H.2.2.2.2 (DriverCommand.addPublication exampleChannel 1001) (by decide)]
  decide

/-! ## The agent runner -/

/-- C25, as the code stands: when the first `doWork()` of the example agent throws an
exception that is not a `util::SourcedException`, the exception leaves `run`: the
exception handler is not invoked and no further iteration follows, although `m_running`
still reads true. -/
theorem agentRunner_unsourced_exception_ends_run :
    (exampleRunner ExampleException.other).doWork 0 =
      (AgentInvocation.throws ExampleException.other, 1) ∧
    ((exampleRunner ExampleException.other).run [true, true, false] 0).events =
      [AgentEvent.doWork] ∧
    ((exampleRunner ExampleException.other).run [true, true, false] 0).ending =
      RunEnding.threw ExampleException.other := by
  decide

/-- C25, amended: an iteration of `run` entered because `m_running` read true invokes
`doWork()` once.  When `doWork()` returns, its result is passed unchanged to `idle`, and
when `idle` returns the run goes on with the next read of `m_running`.  When `doWork()`
throws a `util::SourcedException`, the exception handler is invoked with that exception
and `idle` is not invoked in the iteration; the run goes on with the next read of
`m_running` when the handler returns, and ends with the exception the handler throws when
it throws.  When `doWork()` throws any other exception, that exception leaves `run` and
the handler is not invoked. -/
theorem agentRunner_iteration {σ ε : Type} (runner : AgentRunner σ ε) (rest : List Bool)
    (s s1 : σ) :
    (∀ workCount s2, runner.doWork s = (AgentInvocation.returns workCount, s1) →
      runner.idle s1 workCount = (AgentInvocation.returns (), s2) →
      runner.run (true :: rest) s =
        { state := (runner.run rest s2).state
          events := [AgentEvent.doWork, AgentEvent.idle workCount] ++ (runner.run rest s2).events
          ending := (runner.run rest s2).ending }) ∧
    (∀ exception s2, runner.doWork s = (AgentInvocation.throws exception, s1) →
      runner.isSourcedException exception = true →
      runner.exceptionHandler s1 exception = (AgentInvocation.returns (), s2) →
      runner.run (true :: rest) s =
        { state := (runner.run rest s2).state
          events := [AgentEvent.doWork, AgentEvent.exceptionHandler exception] ++
            (runner.run rest s2).events
          ending := (runner.run rest s2).ending }) ∧
    (∀ exception thrown s2, runner.doWork s = (AgentInvocation.throws exception, s1) →
      runner.isSourcedException exception = true →
      runner.exceptionHandler s1 exception = (AgentInvocation.throws thrown, s2) →
      runner.run (true :: rest) s =
        { state := s2
          events := [AgentEvent.doWork, AgentEvent.exceptionHandler exception]
          ending := RunEnding.threw thrown }) ∧
    (∀ exception, runner.doWork s = (AgentInvocation.throws exception, s1) →
      runner.isSourcedException exception = false →
      runner.run (true :: rest) s =
        { state := s1, events := [AgentEvent.doWork], ending := RunEnding.threw exception }) := by
  refine ⟨?_, ?_, ?_, ?_⟩
  · intro workCount s2 h1 h2
    simp [AgentRunner.run, AgentRunner.iteration, h1, h2]
  · intro exception s2 h1 h2 h3
    simp [AgentRunner.run, AgentRunner.iteration, AgentRunner.catchClause, h1, h2, h3]
  · intro exception thrown s2 h1 h2 h3
    simp [AgentRunner.run, AgentRunner.iteration, AgentRunner.catchClause, h1, h2, h3]
  · intro exception h1 h2
    simp [AgentRunner.run, AgentRunner.iteration, AgentRunner.catchClause, h1, h2]

/-- C25 at the example agent whose first `doWork()` throws a `util::SourcedException`: the
handler is invoked with it, `idle` is not invoked in that iteration, and the second
iteration invokes `doWork()` and passes its result 5 to `idle` before `m_running` reads
false. -/
theorem agentRunner_iteration_witness :
    (exampleRunner ExampleException.sourced).doWork 0 =
      (AgentInvocation.throws ExampleException.sourced, 1) ∧
    (exampleRunner ExampleException.sourced).isSourcedException ExampleException.sourced =
      true ∧
    (exampleRunner ExampleException.sourced).exceptionHandler 1 ExampleException.sourced =
      (AgentInvocation.returns (), 1) ∧
    ((exampleRunner ExampleException.sourced).run [true, true, false] 0).events =
      [AgentEvent.doWork, AgentEvent.exceptionHandler ExampleException.sourced,
        AgentEvent.doWork, AgentEvent.idle 5] ∧
    ((exampleRunner ExampleException.sourced).run [true, true, false] 0).ending =
      RunEnding.returned := by
  have H := (agentRunner_iteration (exampleRunner ExampleException.sourced) [true, false]
    0 1).2.1 ExampleException.sourced 1 rfl rfl rfl
  refine ⟨rfl, rfl, rfl, ?_, ?_⟩
  · rw [H]; decide
  · rw [H]; decide

/-! ## The data packet dispatcher -/

namespace UnorderedMap

/-- Looking a key up among the entries kept by an erase. -/
theorem findIn_filter {κ ν : Type} [DecidableEq κ] (key k : κ) :
    ∀ l : List (κ × ν), findIn (l.filter (fun e => decide (e.1 ≠ key))) k =
      if k = key then none else findIn l k := by
  intro l
  induction l with
  | nil => simp [findIn]
  | cons e rest ih =>
    obtain ⟨k1, v1⟩ := e
    by_cases h1 : k1 = key
    · subst h1
      rw [List.filter_cons_of_neg (by simp), ih]
      by_cases h2 : k = k1
      · simp [h2]
      · have h3 : ¬ k1 = k := fun h => h2 h.symm
        simp [findIn, h2, h3]
    · rw [List.filter_cons_of_pos (by simpa using h1)]
      simp only [findIn, ih]
      by_cases h2 : k1 = k
      · subst h2
        simp [h1]
      · simp [h2]

/-- An erased key is not found. -/
theorem find_erase_self {κ ν : Type} [DecidableEq κ] (m : UnorderedMap κ ν) (key : κ) :
    (m.erase key).find key = none := by
  unfold find erase
  rw [findIn_filter]
  simp

/-- An erase leaves the other keys as they were. -/
theorem find_erase_ne {κ ν : Type} [DecidableEq κ] (m : UnorderedMap κ ν) (key k : κ)
    (h : k ≠ key) : (m.erase key).find k = m.find k := by
  unfold find erase
  rw [findIn_filter]
  simp [h]

/-- An assigned key is found with the value assigned. -/
theorem find_set_self {κ ν : Type} [DecidableEq κ] (m : UnorderedMap κ ν) (key : κ)
    (value : ν) : (m.set key value).find key = some value := by
  simp [find, set, findIn]

/-- An assignment leaves the other keys as they were. -/
theorem find_set_ne {κ ν : Type} [DecidableEq κ] (m : UnorderedMap κ ν) (key k : κ)
    (value : ν) (h : k ≠ key) : (m.set key value).find k = m.find k := by
  have h2 : ¬ key = k := fun e => h e.symm
  have h3 := find_erase_ne m key k h
  unfold find at h3
  unfold find set
  simp only [findIn, h2, if_false]
  exact h3

end UnorderedMap

/-- C26: when the stream of a data packet has a registered subscription and its session
has neither an active image nor an entry in the ignored-session table, `onDataPacket`
returns 0, sets the status of the session to PENDING_SETUP_FRAME and changes nothing else
in the tables, and makes exactly two calls on its collaborators: one setup-eliciting
status message, sent to the remote control address of the channel when the endpoint is
multicast and to the source address of the packet otherwise, and one registration of a
pending setup with the receiver. -/
theorem onDataPacket_first_data {α β : Type}
    (insertPacket : PublicationImage → Int → Int → β → Int → Int) (d : DataPacketDispatcher)
    (channelEndpoint : ReceiveChannelEndpoint α) (header : DataHeaderFlyweight)
    (atomicBuffer : β) (length : Int) (srcAddress : α)
    (hsub : d.sessionsByStreamId.find header.streamId ≠ none)
    (himg : d.activeImage header.sessionId header.streamId = none)
    (hign : d.ignoredSessions.find (header.sessionId, header.streamId) = none) :
    (d.onDataPacket insertPacket channelEndpoint header atomicBuffer length srcAddress).result
      = 0 ∧
    (d.onDataPacket insertPacket channelEndpoint header atomicBuffer length
      srcAddress).dispatcher.ignoredSessions.find (header.sessionId, header.streamId) =
        some SessionStatus.PENDING_SETUP_FRAME ∧
    (∀ key, key ≠ (header.sessionId, header.streamId) →
      (d.onDataPacket insertPacket channelEndpoint header atomicBuffer length
        srcAddress).dispatcher.ignoredSessions.find key = d.ignoredSessions.find key) ∧
    (d.onDataPacket insertPacket channelEndpoint header atomicBuffer length
      srcAddress).dispatcher.sessionsByStreamId = d.sessionsByStreamId ∧
    (d.onDataPacket insertPacket channelEndpoint header atomicBuffer length
      srcAddress).effects =
      [DispatcherEffect.sendSetupElicitingStatusMessage
          (if channelEndpoint.isMulticast then channelEndpoint.remoteControl else srcAddress)
          header.sessionId header.streamId,
        DispatcherEffect.addPendingSetupMessage header.sessionId header.streamId
          channelEndpoint] := by
  rcases hfind : d.sessionsByStreamId.find header.streamId with _ | sessions
  · exact absurd hfind hsub
  · have himg2 : sessions.find header.sessionId = none := by
      simpa [DataPacketDispatcher.activeImage, hfind] using himg
    have hr : d.onDataPacket insertPacket channelEndpoint header atomicBuffer length
        srcAddress =
        { result := 0
          dispatcher :=
            { d with ignoredSessions := (d.ignoredSessions.set
                (header.sessionId, header.streamId) SessionStatus.PENDING_SETUP_FRAME) }
          effects :=
            [DispatcherEffect.sendSetupElicitingStatusMessage
                (if channelEndpoint.isMulticast then channelEndpoint.remoteControl
                  else srcAddress) header.sessionId header.streamId,
              DispatcherEffect.addPendingSetupMessage header.sessionId header.streamId
                channelEndpoint] } := by
      simp [DataPacketDispatcher.onDataPacket, hfind, himg2, hign]
    rw [hr]
    exact ⟨rfl, UnorderedMap.find_set_self _ _ _,
      fun key hk => UnorderedMap.find_set_ne _ _ _ _ hk, rfl, rfl⟩

/-- C26 at the example dispatcher, which has a subscription to stream 10 and knows nothing
of session 5: a data packet of that session from address 4 on a unicast endpoint returns
0, leaves the session pending its setup frame, and elicits one setup from address 4. -/
theorem onDataPacket_first_data_witness :
    exampleDispatcher.sessionsByStreamId.find exampleDataHeader.streamId ≠ none ∧
    exampleDispatcher.activeImage exampleDataHeader.sessionId exampleDataHeader.streamId =
      none ∧
    exampleDispatcher.ignoredSessions.find
      (exampleDataHeader.sessionId, exampleDataHeader.streamId) = none ∧
    (exampleDispatcher.onDataPacket exampleInsertPacket exampleEndpoint exampleDataHeader ()
      100 4).result = 0 ∧
    (exampleDispatcher.onDataPacket exampleInsertPacket exampleEndpoint exampleDataHeader ()
      100 4).dispatcher.ignoredSessions.find (5, 10) =
        some SessionStatus.PENDING_SETUP_FRAME ∧
    (exampleDispatcher.onDataPacket exampleInsertPacket exampleEndpoint exampleDataHeader ()
      100 4).effects =
      [DispatcherEffect.sendSetupElicitingStatusMessage 4 5 10,
        DispatcherEffect.addPendingSetupMessage 5 10 exampleEndpoint] := by
  have H := onDataPacket_first_data exampleInsertPacket exampleDispatcher exampleEndpoint
    exampleDataHeader () 100 4 (by decide) (by decide) (by decide)
  exact ⟨by decide, by decide, by decide, H.1, H.2.1, H.2.2.2.2⟩

/-- The test `isNotAlreadyInProgressOrOnCoolDown` holds exactly for a session that has no
entry in the ignored-session table or is pending its setup frame. -/
theorem isNotAlreadyInProgressOrOnCoolDown_iff
    (ignoredSessions : UnorderedMap (Int × Int) SessionStatus) (sessionId streamId : Int) :
    isNotAlreadyInProgressOrOnCoolDown ignoredSessions sessionId streamId = true ↔
      (ignoredSessions.find (sessionId, streamId) = none ∨
        ignoredSessions.find (sessionId, streamId) = some SessionStatus.PENDING_SETUP_FRAME) := by
  unfold isNotAlreadyInProgressOrOnCoolDown
  rcases ignoredSessions.find (sessionId, streamId) with _ | status
  · simp
  · cases status <;> simp

/-- A setup message for a session whose status is INIT_IN_PROGRESS or ON_COOL_DOWN
changes nothing and requests nothing. -/
theorem onSetupMessage_ignored {α β : Type} (d : DataPacketDispatcher)
    (channelEndpoint : ReceiveChannelEndpoint α) (header : SetupFlyweight) (atomicBuffer : β)
    (srcAddress : α)
    (hst : d.ignoredSessions.find (header.sessionId, header.streamId) =
        some SessionStatus.INIT_IN_PROGRESS ∨
      d.ignoredSessions.find (header.sessionId, header.streamId) =
        some SessionStatus.ON_COOL_DOWN) :
    d.onSetupMessage channelEndpoint header atomicBuffer srcAddress =
      { result := (), dispatcher := d, effects := [] } := by
  have hnot : ¬ isNotAlreadyInProgressOrOnCoolDown d.ignoredSessions header.sessionId
      header.streamId = true := by
    rw [isNotAlreadyInProgressOrOnCoolDown_iff]
    rcases hst with h | h <;> rw [h] <;> simp
  rcases hfind : d.sessionsByStreamId.find header.streamId with _ | sessions
  · simp [DataPacketDispatcher.onSetupMessage, hfind]
  · simp [DataPacketDispatcher.onSetupMessage, hfind, hnot]

/-- What `onSetupMessage` does, by the tables: for a stream that has an entry in the table
of subscriptions, when the session of a setup message has no active image and its status
is unknown or PENDING_SETUP_FRAME, `onSetupMessage` sets the status to INIT_IN_PROGRESS,
changes nothing else in the tables and requests the creation of a publication image
exactly once, and a further setup message for the session then changes nothing and
requests nothing.  In every other case, a stream without an entry in the table of
subscriptions included, it leaves the dispatcher as it is and requests nothing. -/
theorem onSetupMessage_by_table_entry {α β : Type} (d : DataPacketDispatcher)
    (channelEndpoint : ReceiveChannelEndpoint α) (header : SetupFlyweight) (atomicBuffer : β)
    (srcAddress : α) :
    ((d.sessionsByStreamId.find header.streamId ≠ none ∧
        d.activeImage header.sessionId header.streamId = none ∧
        (d.ignoredSessions.find (header.sessionId, header.streamId) = none ∨
          d.ignoredSessions.find (header.sessionId, header.streamId) =
            some SessionStatus.PENDING_SETUP_FRAME)) →
      (d.onSetupMessage channelEndpoint header atomicBuffer
        srcAddress).dispatcher.ignoredSessions.find (header.sessionId, header.streamId) =
          some SessionStatus.INIT_IN_PROGRESS ∧
      (∀ key, key ≠ (header.sessionId, header.streamId) →
        (d.onSetupMessage channelEndpoint header atomicBuffer
          srcAddress).dispatcher.ignoredSessions.find key = d.ignoredSessions.find key) ∧
      (d.onSetupMessage channelEndpoint header atomicBuffer
        srcAddress).dispatcher.sessionsByStreamId = d.sessionsByStreamId ∧
      (d.onSetupMessage channelEndpoint header atomicBuffer srcAddress).effects =
        [DispatcherEffect.createPublicationImage header.sessionId header.streamId
          header.initialTermId header.actionTermId header.termOffset header.termLength
          header.mtu
          (if channelEndpoint.isMulticast then channelEndpoint.remoteControl else srcAddress)
          srcAddress channelEndpoint] ∧
      ∀ (endpoint2 : ReceiveChannelEndpoint α) (header2 : SetupFlyweight) (buffer2 : β)
        (src2 : α), header2.sessionId = header.sessionId →
        header2.streamId = header.streamId →
        (d.onSetupMessage channelEndpoint header atomicBuffer
            srcAddress).dispatcher.onSetupMessage endpoint2 header2 buffer2 src2 =
          { result := ()
            dispatcher := (d.onSetupMessage channelEndpoint header atomicBuffer
              srcAddress).dispatcher
            effects := [] }) ∧
    (¬ (d.sessionsByStreamId.find header.streamId ≠ none ∧
        d.activeImage header.sessionId header.streamId = none ∧
        (d.ignoredSessions.find (header.sessionId, header.streamId) = none ∨
          d.ignoredSessions.find (header.sessionId, header.streamId) =
            some SessionStatus.PENDING_SETUP_FRAME)) →
      d.onSetupMessage channelEndpoint header atomicBuffer srcAddress =
        { result := (), dispatcher := d, effects := [] }) := by
  refine ⟨?_, ?_⟩
  · rintro ⟨hsub, himg, hst⟩
    rcases hfind : d.sessionsByStreamId.find header.streamId with _ | sessions
    · exact absurd hfind hsub
    · have himg2 : sessions.find header.sessionId = none := by
        simpa [DataPacketDispatcher.activeImage, hfind] using himg
      have hok := (isNotAlreadyInProgressOrOnCoolDown_iff d.ignoredSessions header.sessionId
        header.streamId).mpr hst
      have hr : d.onSetupMessage channelEndpoint header atomicBuffer srcAddress =
          { result := ()
            dispatcher :=
              { d with ignoredSessions := (d.ignoredSessions.set
                  (header.sessionId, header.streamId) SessionStatus.INIT_IN_PROGRESS) }
            effects :=
              [DispatcherEffect.createPublicationImage header.sessionId header.streamId
                header.initialTermId header.actionTermId header.termOffset header.termLength
                header.mtu
                (if channelEndpoint.isMulticast then channelEndpoint.remoteControl
                  else srcAddress) srcAddress channelEndpoint] } := by
        simp [DataPacketDispatcher.onSetupMessage, hfind, himg2, hok]
      rw [hr]
      refine ⟨UnorderedMap.find_set_self _ _ _,
        fun key hk => UnorderedMap.find_set_ne _ _ _ _ hk, rfl, rfl, ?_⟩
      intro endpoint2 header2 buffer2 src2 e1 e2
      apply onSetupMessage_ignored
      left
      rw [e1, e2]
      exact UnorderedMap.find_set_self _ _ _
  · intro hnot
    rcases hfind : d.sessionsByStreamId.find header.streamId with _ | sessions
    · simp [DataPacketDispatcher.onSetupMessage, hfind]
    · have hcond : ¬ (sessions.find header.sessionId = none ∧
          isNotAlreadyInProgressOrOnCoolDown d.ignoredSessions header.sessionId
            header.streamId = true) := by
        rintro ⟨c1, c2⟩
        apply hnot
        refine ⟨by rw [hfind]; simp, ?_, (isNotAlreadyInProgressOrOnCoolDown_iff _ _ _).mp c2⟩
        simp [DataPacketDispatcher.activeImage, hfind, c1]
      simp only [DataPacketDispatcher.onSetupMessage, hfind, hcond, if_false]

/-- C27: stream 10 is subscribed with `addSubscription(10)` and unsubscribed again with
`removeSubscription(10)`, which returns.  A setup message for session 5 of stream 10 then
still sets the status of the session to INIT_IN_PROGRESS and requests the creation of a
publication image, although the stream is unsubscribed: `removeSubscription` has left the
entry of the stream in the table of subscriptions.  On the dispatcher as constructed, where
stream 10 was never subscribed, the same setup message changes nothing and requests
nothing. -/
theorem onSetupMessage_after_removeSubscription_requests_image :
    ((DataPacketDispatcher.construct.addSubscription 10).removeSubscription 10).outcome =
      DispatchOutcome.returned ∧
    ((DataPacketDispatcher.construct.addSubscription 10).removeSubscription
      10).dispatcher.sessionsByStreamId.find 10 ≠ none ∧
    (((DataPacketDispatcher.construct.addSubscription 10).removeSubscription
      10).dispatcher.onSetupMessage exampleEndpoint exampleSetupHeader () 4).effects =
      [DispatcherEffect.createPublicationImage 5 10 3 3 0 65536 4096 4 4 exampleEndpoint] ∧
    (((DataPacketDispatcher.construct.addSubscription 10).removeSubscription
      10).dispatcher.onSetupMessage exampleEndpoint exampleSetupHeader
      () 4).dispatcher.ignoredSessions.find (5, 10) = some SessionStatus.INIT_IN_PROGRESS ∧
    (DataPacketDispatcher.construct.onSetupMessage exampleEndpoint exampleSetupHeader
      () 4).effects = [] ∧
    (DataPacketDispatcher.construct.onSetupMessage exampleEndpoint exampleSetupHeader
      () 4).dispatcher.ignoredSessions.find (5, 10) = none := by
  decide

/-- C28: `addPublicationImage` on a stream with a registered subscription returns, makes
the image the active image of its session and stream, erases the ignored-session entry of
the pair and sets the status of the image to ACTIVE; and in every state of the dispatcher
in which that image is the active image of the pair, `onDataPacket` for the pair returns
what `insertPacket` of the image returns for the term id, term offset, buffer and length
of the packet, leaves the dispatcher as it is and makes no other call. -/
theorem addPublicationImage_installs (d : DataPacketDispatcher) (image : PublicationImage)
    (hsub : d.sessionsByStreamId.find image.streamId ≠ none) :
    (d.addPublicationImage image).outcome = DispatchOutcome.returned ∧
    (d.addPublicationImage image).dispatcher.activeImage image.sessionId image.streamId =
      some image ∧
    (d.addPublicationImage image).dispatcher.ignoredSessions.find
      (image.sessionId, image.streamId) = none ∧
    (d.addPublicationImage image).calls =
      [PublicationImageCall.status image PublicationImageStatus.ACTIVE] ∧
    ∀ (α β : Type) (insertPacket : PublicationImage → Int → Int → β → Int → Int)
      (d2 : DataPacketDispatcher) (channelEndpoint : ReceiveChannelEndpoint α)
      (header : DataHeaderFlyweight) (atomicBuffer : β) (length : Int) (srcAddress : α),
      d2.activeImage image.sessionId image.streamId = some image →
      header.sessionId = image.sessionId → header.streamId = image.streamId →
      d2.onDataPacket insertPacket channelEndpoint header atomicBuffer length srcAddress =
        { result := insertPacket image header.termId header.termOffset atomicBuffer length
          dispatcher := d2
          effects :=
            [DispatcherEffect.insertPacket image header.termId header.termOffset length] } := by
  rcases hfind : d.sessionsByStreamId.find image.streamId with _ | sessions
  · exact absurd hfind hsub
  · have hr : d.addPublicationImage image =
        { outcome := DispatchOutcome.returned
          dispatcher :=
            { ignoredSessions := d.ignoredSessions.erase (image.sessionId, image.streamId)
              sessionsByStreamId := (d.sessionsByStreamId.set image.streamId
                (sessions.set image.sessionId image)) }
          calls := [PublicationImageCall.status image PublicationImageStatus.ACTIVE] } := by
      simp [DataPacketDispatcher.addPublicationImage, hfind]
    rw [hr]
    refine ⟨rfl, ?_, UnorderedMap.find_erase_self _ _, rfl, ?_⟩
    · simp [DataPacketDispatcher.activeImage, UnorderedMap.find_set_self]
    · intro α β insertPacket d2 channelEndpoint header atomicBuffer length srcAddress hact e1 e2
      unfold DataPacketDispatcher.activeImage at hact
      unfold DataPacketDispatcher.onDataPacket
      rw [e1, e2]
      rcases hf2 : d2.sessionsByStreamId.find image.streamId with _ | sessions2
      · rw [hf2] at hact; simp at hact
      · rw [hf2] at hact
        simp only at hact
        simp only [hf2, hact]

/-- C28 at the example dispatcher: once the example image of session 5 of stream 10 is
installed, a data packet of that session returns what `insertPacket` returns, here the
length 100, and the only call made is that `insertPacket`. -/
theorem addPublicationImage_installs_witness :
    exampleDispatcher.sessionsByStreamId.find exampleImage.streamId ≠ none ∧
    (exampleDispatcher.addPublicationImage exampleImage).dispatcher.activeImage 5 10 =
      some exampleImage ∧
    ((exampleDispatcher.addPublicationImage exampleImage).dispatcher.onDataPacket
      exampleInsertPacket exampleEndpoint exampleDataHeader () 100 4).result = 100 ∧
    ((exampleDispatcher.addPublicationImage exampleImage).dispatcher.onDataPacket
      exampleInsertPacket exampleEndpoint exampleDataHeader () 100 4).effects =
      [DispatcherEffect.insertPacket exampleImage 3 64 100] := by
  obtain ⟨_, h2, _, _, h5⟩ := addPublicationImage_installs exampleDispatcher exampleImage
    (by decide)
  have h6 := h5 Nat Unit exampleInsertPacket
    (exampleDispatcher.addPublicationImage exampleImage).dispatcher exampleEndpoint
    exampleDataHeader () 100 4 h2 rfl rfl
  refine ⟨by decide, h2, ?_, ?_⟩
  · rw [h6]; rfl
  · rw [h6]; rfl

/-- C29: `removePublicationImage` returns, leaves the session and stream of the image
without an active image and with the status ON_COOL_DOWN, and calls `ifActiveGoInactive`
on the image; and in every state of the dispatcher in which the pair has no active image
and the status ON_COOL_DOWN, `onDataPacket` for the pair returns 0 and `onSetupMessage`
for the pair returns, both leaving the dispatcher as it is and making no call: no packet
is inserted, no status message is sent and no image is requested. -/
theorem removePublicationImage_cools_down (d : DataPacketDispatcher)
    (image : PublicationImage) :
    (d.removePublicationImage image).outcome = DispatchOutcome.returned ∧
    (d.removePublicationImage image).dispatcher.activeImage image.sessionId image.streamId =
      none ∧
    (d.removePublicationImage image).dispatcher.ignoredSessions.find
      (image.sessionId, image.streamId) = some SessionStatus.ON_COOL_DOWN ∧
    (d.removePublicationImage image).calls = [PublicationImageCall.ifActiveGoInactive image] ∧
    ∀ (α β : Type) (insertPacket : PublicationImage → Int → Int → β → Int → Int)
      (d2 : DataPacketDispatcher) (channelEndpoint : ReceiveChannelEndpoint α)
      (atomicBuffer : β) (srcAddress : α),
      d2.activeImage image.sessionId image.streamId = none →
      d2.ignoredSessions.find (image.sessionId, image.streamId) =
        some SessionStatus.ON_COOL_DOWN →
      (∀ (header : DataHeaderFlyweight) (length : Int),
        header.sessionId = image.sessionId → header.streamId = image.streamId →
        d2.onDataPacket insertPacket channelEndpoint header atomicBuffer length srcAddress =
          { result := 0, dispatcher := d2, effects := [] }) ∧
      (∀ header : SetupFlyweight,
        header.sessionId = image.sessionId → header.streamId = image.streamId →
        d2.onSetupMessage channelEndpoint header atomicBuffer srcAddress =
          { result := (), dispatcher := d2, effects := [] }) := by
  refine ⟨rfl, ?_, ?_, rfl, ?_⟩
  · unfold DataPacketDispatcher.removePublicationImage DataPacketDispatcher.activeImage
    rcases hfind : d.sessionsByStreamId.find image.streamId with _ | sessions
    · simp [hfind]
    · simp [hfind, UnorderedMap.find_set_self, UnorderedMap.find_erase_self]
  · unfold DataPacketDispatcher.removePublicationImage
    exact UnorderedMap.find_set_self _ _ _
  · intro α β insertPacket d2 channelEndpoint atomicBuffer srcAddress hact hst
    refine ⟨?_, ?_⟩
    · intro header length e1 e2
      unfold DataPacketDispatcher.activeImage at hact
      unfold DataPacketDispatcher.onDataPacket
      rw [e1, e2]
      rcases hf2 : d2.sessionsByStreamId.find image.streamId with _ | sessions2
      · simp only [hf2]
      · rw [hf2] at hact
        simp only at hact
        simp [hf2, hact, hst]
    · intro header e1 e2
      apply onSetupMessage_ignored
      right
      rw [e1, e2]
      exact hst

/-- C29 at the example dispatcher with the example image installed: after the removal of
the image the session is on cool-down, a data packet of the session returns 0 and a setup
message of the session requests nothing, and neither makes a call. -/
theorem removePublicationImage_cools_down_witness :
    ((exampleDispatcher.addPublicationImage exampleImage).dispatcher.removePublicationImage
      exampleImage).dispatcher.activeImage 5 10 = none ∧
    ((exampleDispatcher.addPublicationImage exampleImage).dispatcher.removePublicationImage
      exampleImage).dispatcher.ignoredSessions.find (5, 10) =
        some SessionStatus.ON_COOL_DOWN ∧
    (((exampleDispatcher.addPublicationImage exampleImage).dispatcher.removePublicationImage
      exampleImage).dispatcher.onDataPacket exampleInsertPacket exampleEndpoint
        exampleDataHeader () 100 4).result = 0 ∧
    (((exampleDispatcher.addPublicationImage exampleImage).dispatcher.removePublicationImage
      exampleImage).dispatcher.onDataPacket exampleInsertPacket exampleEndpoint
        exampleDataHeader () 100 4).effects = [] ∧
    (((exampleDispatcher.addPublicationImage exampleImage).dispatcher.removePublicationImage
      exampleImage).dispatcher.onSetupMessage exampleEndpoint exampleSetupHeader
        () 4).effects = [] := by
  obtain ⟨_, h2, h3, _, h5⟩ := removePublicationImage_cools_down
    (exampleDispatcher.addPublicationImage exampleImage).dispatcher exampleImage
  obtain ⟨h6, h7⟩ := h5 Nat Unit exampleInsertPacket _ exampleEndpoint () 4 h2 h3
  refine ⟨h2, h3, ?_, ?_, ?_⟩
  · rw [h6 exampleDataHeader 100 rfl rfl]
  · rw [h6 exampleDataHeader 100 rfl rfl]
  · rw [h7 exampleSetupHeader rfl rfl]

/-! ## BitUtil: fastMod3 and isMulticast -/

/-- Every entry of the table of `fastMod3` is its index modulo 3. -/
theorem fastMod3Table_get (i : Nat) (hi : i ≤ 61) :
    BitUtil.fastMod3Table[i]? = some (i % 3) := by
  have h : ∀ j : Fin 62, BitUtil.fastMod3Table[j.val]? = some (j.val % 3) := by decide
  exact h ⟨i, by omega⟩

/-- C38: for every value below `2 ^ 32`, taken as an unsigned 32-bit integer, the index
the three folding steps of `fastMod3` produce is at most 61, so the read of the 62-entry
table is in bounds, and `fastMod3` returns the value modulo 3. -/
theorem fastMod3_eq_mod (value : Nat) (hv : value < 4294967296) :
    BitUtil.fastMod3Index value ≤ 61 ∧ BitUtil.fastMod3Table.length = 62 ∧
      BitUtil.fastMod3 value = some (value % 3) := by
  have e16 : (0xFFFF : Nat) = 2 ^ 16 - 1 := by norm_num
  have e8 : (0x00FF : Nat) = 2 ^ 8 - 1 := by norm_num
  have e4 : (0x000F : Nat) = 2 ^ 4 - 1 := by norm_num
  have hfold : ∀ a b c : Nat, a = (b / 65536 + b % 65536) % 4294967296 →
      b < 4294967296 → c = ((a / 256 + a % 256) % 4294967296) →
      ((c / 16 + c % 16) % 4294967296 ≤ 61 ∧
        ((c / 16 + c % 16) % 4294967296) % 3 = b % 3) := by
    intro a b c ha hb hc
    have ha2 : a = b / 65536 + b % 65536 := by omega
    have ha3 : a ≤ 131070 := by omega
    have hc2 : c = a / 256 + a % 256 := by omega
    have hc3 : c ≤ 765 := by omega
    have hd : (c / 16 + c % 16) % 4294967296 = c / 16 + c % 16 := by omega
    rw [hd]
    refine ⟨by omega, ?_⟩
    have m1 : a % 3 = b % 3 := by omega
    have m2 : c % 3 = a % 3 := by omega
    omega
  have hidx : BitUtil.fastMod3Index value =
      (((value / 65536 + value % 65536) % 4294967296 / 256 +
        (value / 65536 + value % 65536) % 4294967296 % 256) % 4294967296 / 16 +
        ((value / 65536 + value % 65536) % 4294967296 / 256 +
        (value / 65536 + value % 65536) % 4294967296 % 256) % 4294967296 % 16) %
        4294967296 := by
    unfold BitUtil.fastMod3Index
    simp only [e16, e8, e4, Nat.and_pow_two_sub_one_eq_mod, Nat.shiftRight_eq_div_pow]
  obtain ⟨hle0, hmod0⟩ := hfold _ value _ rfl hv rfl
  have hle : BitUtil.fastMod3Index value ≤ 61 := by rw [hidx]; exact hle0
  have hmod : BitUtil.fastMod3Index value % 3 = value % 3 := by rw [hidx]; exact hmod0
  refine ⟨hle, rfl, ?_⟩
  unfold BitUtil.fastMod3
  rw [fastMod3Table_get _ hle, hmod]

/-- C38 at the largest unsigned 32-bit value: the index is 60, and the result is 0, the
value modulo 3. -/
theorem fastMod3_eq_mod_witness :
    (4294967295 : Nat) < 4294967296 ∧ BitUtil.fastMod3Index 4294967295 = 60 ∧
      BitUtil.fastMod3 4294967295 = some 0 ∧ 4294967295 % 3 = 0 := by
  have H := fastMod3_eq_mod 4294967295 (by decide)
  exact ⟨by decide, by decide, H.2.2, by decide⟩

/-- C37: for an address whose four bytes are octets, `isMulticast()` holds exactly when
the address read in host byte order lies in `[0xE0000000, 0xF0000000)`, which is exactly
when its first octet lies in 224..239; and the result is the same whatever the port. -/
theorem inet4_isMulticast_iff (address : Inet4Address) (h0 : address.octet0 < 256)
    (h1 : address.octet1 < 256) (h2 : address.octet2 < 256) (h3 : address.octet3 < 256) :
    (address.isMulticast = true ↔
      (0xE0000000 ≤ address.hostOrder ∧ address.hostOrder < 0xF0000000)) ∧
    (address.isMulticast = true ↔ (224 ≤ address.octet0 ∧ address.octet0 ≤ 239)) ∧
    ∀ port : Nat, Inet4Address.isMulticast { address with port := port } =
      address.isMulticast := by
  refine ⟨?_, ?_, fun _ => rfl⟩
  · simp [Inet4Address.isMulticast]
  · simp only [Inet4Address.isMulticast, Inet4Address.hostOrder, Bool.and_eq_true,
      decide_eq_true_eq]
    omega

/-- C37 at 224.0.1.1 and at 192.168.0.1, both with port 40123: the first is multicast, the
second is not. -/
theorem inet4_isMulticast_iff_witness :
    Inet4Address.isMulticast
        { octet0 := 224, octet1 := 0, octet2 := 1, octet3 := 1, port := 40123 } = true ∧
    Inet4Address.isMulticast
        { octet0 := 192, octet1 := 168, octet2 := 0, octet3 := 1, port := 40123 } = false ∧
    Inet4Address.isMulticast
        { octet0 := 239, octet1 := 255, octet2 := 255, octet3 := 255, port := 0 } = true ∧
    Inet4Address.isMulticast
        { octet0 := 240, octet1 := 0, octet2 := 0, octet3 := 0, port := 0 } = false :=
  ⟨((inet4_isMulticast_iff
      { octet0 := 224, octet1 := 0, octet2 := 1, octet3 := 1, port := 40123 }
      (by decide) (by decide) (by decide) (by decide)).2.1).mpr ⟨by decide, by decide⟩,
    by decide, by decide, by decide⟩

/-! ## The lowest set bit -/

/-- The parity of a bitwise and. -/
theorem nat_and_mod_two (a b : Nat) : (a &&& b) % 2 = (a % 2) * (b % 2) := by
  have h := Nat.testBit_and a b 0
  simp only [Nat.testBit_zero] at h
  rcases Nat.mod_two_eq_zero_or_one a with ha | ha <;>
    rcases Nat.mod_two_eq_zero_or_one b with hb | hb <;>
    rcases Nat.mod_two_eq_zero_or_one (a &&& b) with hc | hc <;>
    simp [ha, hb, hc] at h ⊢

/-- A number and its complement in `n` bits have no bit in common. -/
theorem nat_and_complement (n q : Nat) (hq : q < 2 ^ n) : q &&& (2 ^ n - (q + 1)) = 0 := by
  apply Nat.eq_of_testBit_eq
  intro i
  rw [Nat.testBit_and, Nat.testBit_two_pow_sub_succ hq]
  cases q.testBit i <;> simp

/-- The scan for the lowest set bit counts on from the bit it starts at. -/
theorem builtin_ctz_from_shift : ∀ (fuel bit value : Nat),
    builtin_ctz_from fuel bit value = bit + builtin_ctz_from fuel 0 value := by
  intro fuel
  induction fuel with
  | zero => intro bit value; simp [builtin_ctz_from]
  | succ n ih =>
    intro bit value
    simp only [builtin_ctz_from]
    by_cases h : value % 2 = 1
    · simp [h]
    · simp only [h, if_false]
      rw [ih (bit + 1), ih (0 + 1)]
      omega

/-- A non-zero value below `2 ^ n` and its negation modulo `2 ^ n` have exactly one bit in
common, the lowest set bit of the value, which the scan of `n` bits finds. -/
theorem nat_and_neg_eq_lowest_bit : ∀ (n v : Nat), 0 < v → v < 2 ^ n →
    v &&& (2 ^ n - v) = 2 ^ builtin_ctz_from n 0 v ∧ builtin_ctz_from n 0 v < n := by
  intro n
  induction n with
  | zero => intro v h0 h1; simp at h1; omega
  | succ n ih =>
    intro v h0 h1
    have hpow : 2 ^ (n + 1) = 2 * 2 ^ n := by rw [pow_succ]; ring
    have hdiv := Nat.and_div_two (a := v) (b := 2 ^ (n + 1) - v)
    have hmod := nat_and_mod_two v (2 ^ (n + 1) - v)
    simp only [builtin_ctz_from]
    by_cases hodd : v % 2 = 1
    · simp only [hodd, if_true, pow_zero]
      have hq : v / 2 < 2 ^ n := by omega
      have hw : (2 ^ (n + 1) - v) / 2 = 2 ^ n - (v / 2 + 1) := by omega
      have hw2 : (2 ^ (n + 1) - v) % 2 = 1 := by omega
      rw [hw, nat_and_complement n (v / 2) hq] at hdiv
      rw [hodd, hw2] at hmod
      refine ⟨by omega, by omega⟩
    · simp only [hodd, if_false]
      have hq : v / 2 < 2 ^ n := by omega
      have hq0 : 0 < v / 2 := by omega
      have hw : (2 ^ (n + 1) - v) / 2 = 2 ^ n - v / 2 := by omega
      have hv2 : v % 2 = 0 := by omega
      obtain ⟨ih1, ih2⟩ := ih (v / 2) hq0 hq
      rw [hw, ih1] at hdiv
      rw [hv2, Nat.zero_mul] at hmod
      rw [builtin_ctz_from_shift n (0 + 1) (v / 2)]
      have hp : 2 ^ (0 + 1 + builtin_ctz_from n 0 (v / 2)) =
          2 * 2 ^ builtin_ctz_from n 0 (v / 2) := by
        rw [Nat.add_comm (0 + 1), pow_add]; ring
      rw [hp]
      refine ⟨by omega, by omega⟩

/-- The bitwise complement of an `int32` is its negation minus one. -/
theorem not32_eq (a : Int) (h1 : -2147483648 ≤ a) (h2 : a < 2147483648) :
    not32 a = -a - 1 := by
  have hlt := toU32_lt a
  have hx : toU32 a ^^^ 4294967295 = 4294967295 - toU32 a := by
    apply Nat.eq_of_testBit_eq
    intro i
    have e1 : (4294967295 : Nat) = 2 ^ 32 - 1 := by norm_num
    have e2 : 4294967295 - toU32 a = 2 ^ 32 - (toU32 a + 1) := by omega
    rw [Nat.testBit_xor, e2, Nat.testBit_two_pow_sub_succ (by simpa using hlt), e1,
      Nat.testBit_two_pow_sub_one]
    by_cases hi : i < 32
    · simp [hi]
    · have : (toU32 a).testBit i = false := by
        apply Nat.testBit_lt_two_pow
        calc toU32 a < 2 ^ 32 := by simpa using hlt
          _ ≤ 2 ^ i := Nat.pow_le_pow_right (by decide) (by omega)
      simp [hi, this]
  unfold not32
  rw [hx]
  have hu : (toU32 a : Int) = a % 4294967296 := by
    unfold toU32
    rw [Int.toNat_of_nonneg (by omega)]
  have hc : ((4294967295 - toU32 a : Nat) : Int) = 4294967295 - (toU32 a : Int) := by
    omega
  rw [hc, hu]
  unfold wrap32
  omega

/-- For a positive `int32`, `value & (~value + 1)` is the bitwise and of the value with its
negation modulo `2 ^ 32`. -/
theorem and32_neg_eq (value : Int) (h1 : 0 < value) (h2 : value < 2147483648) :
    and32 value (wrap32 (not32 value + 1)) =
      ((value.toNat &&& (2 ^ 32 - value.toNat) : Nat) : Int) := by
  have hv : (value.toNat : Int) = value := Int.toNat_of_nonneg (by omega)
  have e1 : toU32 value = value.toNat := by
    have := toU32_of_nonneg (x := value) (by omega) (by omega)
    omega
  have e2 : wrap32 (not32 value + 1) = -value := by
    rw [not32_eq value (by omega) h2]
    have e : -value - 1 + 1 = -value := by ring
    rw [e]
    apply wrap32_of_range <;> omega
  have e3 : toU32 (-value) = 2 ^ 32 - value.toNat := by
    unfold toU32
    have : (-value) % 4294967296 = 4294967296 - value := by omega
    rw [this]
    omega
  have hle : value.toNat &&& (2 ^ 32 - value.toNat) ≤ value.toNat := Nat.and_le_left
  unfold and32
  rw [e2, e1, e3]
  apply wrap32_of_range <;> omega

/-- C36: for every 32-bit signed integer, `isPowerOfTwo` holds exactly when the value is
`2 ^ k` for some `k` in 0..30; it is false for zero and for every negative value, the
minimum integer included. -/
theorem isPowerOfTwo_iff (value : Int) (h1 : -2147483648 ≤ value) (h2 : value < 2147483648) :
    (BitUtil.isPowerOfTwo value = true ↔ ∃ k : Nat, k ≤ 30 ∧ value = 2 ^ k) ∧
    (value ≤ 0 → BitUtil.isPowerOfTwo value = false) ∧
    BitUtil.isPowerOfTwo 0 = false ∧ BitUtil.isPowerOfTwo (-2147483648) = false := by
  have hneg : value ≤ 0 → BitUtil.isPowerOfTwo value = false := by
    intro h
    have : ¬ value > 0 := by omega
    simp [BitUtil.isPowerOfTwo, this]
  refine ⟨?_, hneg, by decide, by decide⟩
  by_cases hpos : 0 < value
  · have hv : (value.toNat : Int) = value := Int.toNat_of_nonneg (by omega)
    have hvlt : value.toNat < 2 ^ 32 := by
      have : (value.toNat : Int) < 4294967296 := by omega
      have h3 : value.toNat < 4294967296 := by exact_mod_cast this
      simpa using h3
    have hv0 : 0 < value.toNat := by omega
    have hand := and32_neg_eq value hpos h2
    obtain ⟨hlow, _⟩ := nat_and_neg_eq_lowest_bit 32 value.toNat hv0 hvlt
    simp only [BitUtil.isPowerOfTwo, hpos, gt_iff_lt, decide_True, Bool.true_and,
      decide_eq_true_eq]
    rw [hand]
    constructor
    · intro heq
      rw [hlow] at heq
      refine ⟨builtin_ctz_from 32 0 value.toNat, ?_, ?_⟩
      · have h5 : (2 : Int) ^ builtin_ctz_from 32 0 value.toNat < 2 ^ 31 := by
          have : ((2 ^ builtin_ctz_from 32 0 value.toNat : Nat) : Int) < 2147483648 := by
            rw [heq]; exact h2
          push_cast at this
          norm_num
          exact this
        have h6 := (pow_lt_pow_iff_right₀ (by norm_num : (1 : Int) < 2)).mp h5
        omega
      · have h7 := heq
        push_cast at h7
        exact h7.symm
    · rintro ⟨k, hk, rfl⟩
      have hk2 : ((2 : Int) ^ k).toNat = 2 ^ k := by
        have : (((2 : Nat) ^ k : Nat) : Int) = (2 : Int) ^ k := by push_cast; rfl
        rw [← this, Int.toNat_natCast]
      rw [hk2, nat_and_high_mask (2 ^ k) k 32
        (Nat.pow_lt_pow_right (by decide) (by omega)) (by omega),
        Nat.div_self (by positivity), Nat.one_mul]
      push_cast
      rfl
  · have hle : value ≤ 0 := by omega
    rw [hneg hle]
    constructor
    · intro h; exact absurd h (by simp)
    · rintro ⟨k, _, rfl⟩
      have : (0 : Int) < 2 ^ k := by positivity
      omega

/-- C36 at 1024, which is `2 ^ 10`, and at 1000, which is no power of two. -/
theorem isPowerOfTwo_iff_witness :
    BitUtil.isPowerOfTwo 1024 = true ∧ BitUtil.isPowerOfTwo 1000 = false ∧
      BitUtil.isPowerOfTwo 1073741824 = true ∧ BitUtil.isPowerOfTwo (-8) = false :=
  ⟨((isPowerOfTwo_iff 1024 (by decide) (by decide)).1).mpr ⟨10, by decide, by norm_num⟩,
    by decide, by decide, by decide⟩

/-- The bit the scan for the lowest set bit finds is the number of trailing zero bits: the
largest power of two that divides the value. -/
theorem builtin_ctz_from_spec : ∀ (n v : Nat), 0 < v → v < 2 ^ n →
    2 ^ builtin_ctz_from n 0 v ∣ v ∧ ¬ 2 ^ (builtin_ctz_from n 0 v + 1) ∣ v := by
  intro n
  induction n with
  | zero => intro v h0 h1; simp at h1; omega
  | succ n ih =>
    intro v h0 h1
    have hpow : 2 ^ (n + 1) = 2 * 2 ^ n := by rw [pow_succ]; ring
    simp only [builtin_ctz_from]
    by_cases hodd : v % 2 = 1
    · simp only [hodd, if_true, pow_zero, zero_add, pow_one]
      exact ⟨one_dvd _, by omega⟩
    · simp only [hodd, if_false]
      obtain ⟨ih1, ih2⟩ := ih (v / 2) (by omega) (by omega)
      rw [builtin_ctz_from_shift n (0 + 1) (v / 2)]
      have hv : v = 2 * (v / 2) := by omega
      have e1 : 2 ^ (0 + 1 + builtin_ctz_from n 0 (v / 2)) =
          2 * 2 ^ builtin_ctz_from n 0 (v / 2) := by
        rw [Nat.add_comm (0 + 1), pow_add]; ring
      have e2 : 2 ^ (0 + 1 + builtin_ctz_from n 0 (v / 2) + 1) =
          2 * 2 ^ (builtin_ctz_from n 0 (v / 2) + 1) := by
        rw [Nat.add_comm (0 + 1), Nat.add_assoc, pow_add]; ring
      rw [e1, e2]
      constructor
      · have h3 := Nat.mul_dvd_mul_left 2 ih1
        rwa [← hv] at h3
      · intro hd
        have hd2 : 2 * 2 ^ (builtin_ctz_from n 0 (v / 2) + 1) ∣ 2 * (v / 2) := by
          rw [← hv]; exact hd
        exact ih2 (Nat.dvd_of_mul_dvd_mul_left (by decide) hd2)

/-- The table of the trailing-zero count, read at the top five bits of the product of a
power of two with the multiplier, holds the exponent. -/
theorem numberOfTrailingZeroesTable_get (c : Nat) (hc : c < 32) :
    BitUtil.numberOfTrailingZeroesTable[((2 ^ c * 0x04D7651F) % 4294967296) >>> 27]? =
      some c := by
  have h : ∀ j : Fin 32,
      BitUtil.numberOfTrailingZeroesTable[((2 ^ j.val * 0x04D7651F) % 4294967296) >>> 27]? =
        some j.val := by decide
  exact h ⟨c, hc⟩

/-- C39: for every non-zero unsigned 32-bit value the table branch of
`numberOfTrailingZeroes` reads inside its table and returns the number of trailing zero
bits of the value, the largest `c` with `2 ^ c` dividing it, which is below 32 and is what
the builtin branch returns for the same bit pattern; for the value 0 it returns 32. -/
theorem numberOfTrailingZeroes_table_eq_builtin (value : Nat) (h0 : 0 < value)
    (h1 : value < 4294967296) :
    BitUtil.numberOfTrailingZeroesByTable value = some (builtin_ctz_from 32 0 value) ∧
    builtin_ctz_from 32 0 value < 32 ∧
    2 ^ builtin_ctz_from 32 0 value ∣ value ∧
    ¬ 2 ^ (builtin_ctz_from 32 0 value + 1) ∣ value ∧
    BitUtil.numberOfTrailingZeroes (wrap32 value) = (builtin_ctz_from 32 0 value : Nat) ∧
    BitUtil.numberOfTrailingZeroesByTable 0 = some 32 := by
  have hlt : value < 2 ^ 32 := by simpa using h1
  obtain ⟨hlow, hc⟩ := nat_and_neg_eq_lowest_bit 32 value h0 hlt
  obtain ⟨hd1, hd2⟩ := builtin_ctz_from_spec 32 value h0 hlt
  refine ⟨?_, hc, hd1, hd2, ?_, rfl⟩
  · have hne : ¬ value = 0 := by omega
    have hneg : (4294967296 - value) % 4294967296 = 2 ^ 32 - value := by
      have : (2 : Nat) ^ 32 = 4294967296 := by norm_num
      omega
    simp only [BitUtil.numberOfTrailingZeroesByTable, hne, if_false]
    rw [hneg, hlow]
    exact numberOfTrailingZeroesTable_get _ hc
  · have hu : toU32 (wrap32 value) = value := by
      unfold toU32 wrap32
      omega
    unfold BitUtil.numberOfTrailingZeroes
    rw [hu]

/-- C39 at 40 = 8 * 5 and at `2 ^ 31`: the table branch returns 3 and 31. -/
theorem numberOfTrailingZeroes_table_eq_builtin_witness :
    BitUtil.numberOfTrailingZeroesByTable 40 = some 3 ∧
      BitUtil.numberOfTrailingZeroesByTable 2147483648 = some 31 ∧
      BitUtil.numberOfTrailingZeroes 40 = 3 := by
  have H := numberOfTrailingZeroes_table_eq_builtin 40 (by decide) (by decide)
  refine ⟨?_, by decide, by decide⟩
  rw [H.1]
  decide

/-! ## Leading zeroes and the next power of two -/

/-- The scan from the highest bit of an `n`-bit word stops at the highest set bit of a
non-zero value: with `z` leading zeroes the value lies between `2 ^ (n - 1 - z)` and
`2 ^ (n - z)`. -/
theorem builtin_clz_from_spec : ∀ (n x : Nat), 0 < x → x < 2 ^ n →
    builtin_clz_from n x < n ∧ 2 ^ (n - 1 - builtin_clz_from n x) ≤ x ∧
      x < 2 ^ (n - builtin_clz_from n x) := by
  intro n
  induction n with
  | zero => intro x h0 h1; simp at h1; omega
  | succ n ih =>
    intro x h0 h1
    simp only [builtin_clz_from]
    by_cases hb : x.testBit n = true
    · simp only [hb, if_true]
      have hge := Nat.testBit_implies_ge hb
      exact ⟨by omega, by simpa using hge, by simpa using h1⟩
    · have hlt : x < 2 ^ n := by
        by_contra hcon
        have hx : x = 2 ^ n + (x - 2 ^ n) := by omega
        have hr : x - 2 ^ n < 2 ^ n := by
          have : 2 ^ (n + 1) = 2 * 2 ^ n := by rw [pow_succ]; ring
          omega
        have ht : (2 ^ n + (x - 2 ^ n)).testBit n = true := by
          rw [Nat.testBit_two_pow_add_eq, Nat.testBit_lt_two_pow hr]
          rfl
        rw [← hx] at ht
        exact hb ht
      have hb2 : x.testBit n = false := by simpa using hb
      simp only [hb2, Bool.false_eq_true, if_false]
      obtain ⟨i1, i2, i3⟩ := ih x h0 hlt
      have e1 : n + 1 - 1 - (1 + builtin_clz_from n x) = n - 1 - builtin_clz_from n x := by
        omega
      have e2 : n + 1 - (1 + builtin_clz_from n x) = n - builtin_clz_from n x := by omega
      rw [e1, e2]
      exact ⟨by omega, i2, i3⟩

/-- C40: for every 32-bit value between 2 and `2 ^ 30`, `findNextPowerOfTwo` returns
`2 ^ m` for the `m <= 30` with `2 ^ (m - 1) < value <= 2 ^ m`, which is the number of bits
`32 - numberOfLeadingZeroes(value - 1)` of `value - 1`; it is the smallest power of two
that is not below the value, and the value itself when the value is a power of two. -/
theorem findNextPowerOfTwo_spec (value : Int) (h1 : 2 ≤ value) (h2 : value ≤ 1073741824) :
    ∃ m : Nat, 1 ≤ m ∧ m ≤ 30 ∧
      32 - BitUtil.numberOfLeadingZeroes (wrap32 (value - 1)) = m ∧
      BitUtil.findNextPowerOfTwo value = 2 ^ m ∧
      2 ^ (m - 1) < value ∧ value ≤ 2 ^ m ∧
      (∀ j : Nat, value ≤ 2 ^ j → (2 : Int) ^ m ≤ 2 ^ j) ∧
      ((∃ j : Nat, value = 2 ^ j) → BitUtil.findNextPowerOfTwo value = value) := by
  obtain ⟨x, hx⟩ : ∃ x : Nat, value - 1 = (x : Int) := ⟨(value - 1).toNat, by omega⟩
  have hx0 : 0 < x := by omega
  have hx1 : x < 2 ^ 30 := by
    have : (x : Int) < 1073741824 := by omega
    have h3 : x < 1073741824 := by exact_mod_cast this
    simpa using h3
  have hx2 : x < 2 ^ 32 := lt_trans hx1 (by norm_num)
  have hw : wrap32 (value - 1) = (x : Int) := by
    rw [hx]; apply wrap32_of_range <;> omega
  have hu : toU32 (x : Int) = x := by
    have h30 : (2 : Nat) ^ 30 = 1073741824 := by norm_num
    have := toU32_of_nonneg (x := (x : Int)) (by omega) (by omega)
    omega
  obtain ⟨c1, c2, c3⟩ := builtin_clz_from_spec 32 x hx0 hx2
  have hz2 : 2 ≤ builtin_clz_from 32 x := by
    by_contra hcon
    have hle : 2 ^ 30 ≤ 2 ^ (32 - 1 - builtin_clz_from 32 x) :=
      Nat.pow_le_pow_right (by decide) (by omega)
    omega
  have hnlz : BitUtil.numberOfLeadingZeroes (wrap32 (value - 1)) =
      (builtin_clz_from 32 x : Nat) := by
    unfold BitUtil.numberOfLeadingZeroes
    rw [hw, hu]
  have hm : (32 : Int) - (builtin_clz_from 32 x : Nat) =
      ((32 - builtin_clz_from 32 x : Nat) : Int) := by omega
  have hpm : 32 - 1 - builtin_clz_from 32 x = 32 - builtin_clz_from 32 x - 1 := by omega
  rw [hpm] at c2
  have hpowle : (2 : Nat) ^ (32 - builtin_clz_from 32 x) ≤ 2 ^ 30 :=
    Nat.pow_le_pow_right (by decide) (by omega)
  have hres : BitUtil.findNextPowerOfTwo value = 2 ^ (32 - builtin_clz_from 32 x) := by
    unfold BitUtil.findNextPowerOfTwo
    rw [hnlz, hm, Int.toNat_natCast, Nat.shiftLeft_eq, Nat.one_mul]
    have h30 : (2 : Nat) ^ 30 = 1073741824 := by norm_num
    have hc : ((2 ^ (32 - builtin_clz_from 32 x) : Nat) : Int) ≤ 1073741824 := by
      exact_mod_cast (h30 ▸ hpowle)
    have hc0 : (0 : Int) ≤ ((2 ^ (32 - builtin_clz_from 32 x) : Nat) : Int) :=
      Int.natCast_nonneg _
    rw [wrap32_of_range (by omega) (by omega)]
    push_cast
    rfl
  have c2i : ((2 : Int) ^ (32 - builtin_clz_from 32 x - 1)) ≤ (x : Int) := by
    exact_mod_cast c2
  have c3i : (x : Int) < (2 : Int) ^ (32 - builtin_clz_from 32 x) := by
    exact_mod_cast c3
  have hmin : ∀ j : Nat, value ≤ 2 ^ j →
      (2 : Int) ^ (32 - builtin_clz_from 32 x) ≤ 2 ^ j := by
    intro j hj
    have h5 : (2 : Int) ^ (32 - builtin_clz_from 32 x - 1) < 2 ^ j := by omega
    have h6 := (pow_lt_pow_iff_right₀ (by norm_num : (1 : Int) < 2)).mp h5
    exact pow_le_pow_right₀ (by norm_num) (by omega)
  refine ⟨32 - builtin_clz_from 32 x, by omega, by omega, ?_, hres, by omega, by omega,
    hmin, ?_⟩
  · rw [hnlz, hm]
  · rintro ⟨j, hj⟩
    rw [hres]
    have := hmin j (le_of_eq hj)
    omega

/-- C40 at 1000 and at 1024: both give 1024, which is `2 ^ 10`. -/
theorem findNextPowerOfTwo_spec_witness :
    BitUtil.findNextPowerOfTwo 1000 = 1024 ∧ BitUtil.findNextPowerOfTwo 1024 = 1024 ∧
      BitUtil.findNextPowerOfTwo 1025 = 2048 ∧
      ∃ m : Nat, m ≤ 30 ∧ BitUtil.findNextPowerOfTwo 1000 = 2 ^ m := by
  obtain ⟨m, _, hm, _, hr, _⟩ := findNextPowerOfTwo_spec 1000 (by decide) (by decide)
  exact ⟨by decide, by decide, by decide, m, hm, hr⟩

/-! ## BitUtil::align -/

/-- Rounding up to a multiple of a positive number: the rounded value is the smallest
multiple that is not below the value, it is less than one step above the value, and
rounding it again changes nothing. -/
theorem round_up_spec (a v : Int) (ha : 0 < a) :
    a ∣ (v + a - 1) / a * a ∧ v ≤ (v + a - 1) / a * a ∧ (v + a - 1) / a * a < v + a ∧
      (∀ m, a ∣ m → v ≤ m → (v + a - 1) / a * a ≤ m) ∧
      ((v + a - 1) / a * a + a - 1) / a * a = (v + a - 1) / a * a := by
  have hdm := Int.emod_add_ediv (v + a - 1) a
  have hm0 := Int.emod_nonneg (v + a - 1) (ne_of_gt ha)
  have hm1 := Int.emod_lt_of_pos (v + a - 1) ha
  have hr : (v + a - 1) / a * a = v + a - 1 - (v + a - 1) % a := by
    rw [mul_comm]; omega
  have hdvd : a ∣ (v + a - 1) / a * a := Dvd.intro_left _ rfl
  refine ⟨hdvd, by omega, by omega, ?_, ?_⟩
  · intro m hm hvm
    by_contra hcon
    have hlt : m < (v + a - 1) / a * a := by omega
    have hd2 : a ∣ (v + a - 1) / a * a - m := Int.dvd_sub hdvd hm
    have := Int.le_of_dvd (by omega) hd2
    omega
  · have e : (v + a - 1) / a * a + a - 1 = (a - 1) + a * ((v + a - 1) / a) := by ring
    rw [e, Int.add_mul_ediv_left _ _ (ne_of_gt ha),
      Int.ediv_eq_zero_of_lt (by omega) (by omega), zero_add]

/-- The all-ones word without its low `j` bits is `2 ^ n - 2 ^ j`. -/
theorem nat_ones_xor_low (j n : Nat) (hj : j ≤ n) :
    (2 ^ n - 1) ^^^ (2 ^ j - 1) = 2 ^ n - 2 ^ j := by
  have hc : 2 ^ n - 2 ^ j = (2 ^ (n - j) - 1) <<< j := by
    rw [Nat.shiftLeft_eq, Nat.sub_mul, ← Nat.pow_add, Nat.sub_add_cancel hj, Nat.one_mul]
  rw [hc]
  apply Nat.eq_of_testBit_eq
  intro i
  simp only [Nat.testBit_xor, Nat.testBit_two_pow_sub_one, Nat.testBit_shiftLeft]
  by_cases h1 : i < j
  · have h2 : i < n := by omega
    have h3 : ¬ j ≤ i := by omega
    simp [h1, h2, h3]
  · have h3 : j ≤ i := by omega
    by_cases h2 : i < n
    · have h4 : i - j < n - j := by omega
      simp [h1, h2, h3, h4]
    · have h4 : ¬ i - j < n - j := by omega
      simp [h1, h2, h3, h4]

/-- The `int32` instance of `BitUtil::align` at a power-of-two alignment rounds up to the
next multiple of the alignment when `value + alignment - 1` is representable. -/
theorem align_eq_round_up (value : Int) (j : Nat) (hj : j ≤ 30) (h0 : 0 ≤ value)
    (h1 : value + 2 ^ j - 1 ≤ 2147483647) :
    BitUtil.align value (2 ^ j) = (value + 2 ^ j - 1) / 2 ^ j * 2 ^ j := by
  have hpow : (2 : Int) ^ j ≤ 2 ^ 30 := pow_le_pow_right₀ (by norm_num) hj
  have hpos : (0 : Int) < 2 ^ j := by positivity
  have hnpow : (2 : Nat) ^ j ≤ 2 ^ 30 := Nat.pow_le_pow_right (by decide) hj
  have hnpos : 0 < (2 : Nat) ^ j := by positivity
  have hcast : (((2 : Nat) ^ j : Nat) : Int) = (2 : Int) ^ j := by push_cast; rfl
  have e1 : wrap32 ((2 : Int) ^ j - 1) = 2 ^ j - 1 := by
    apply wrap32_of_range <;> omega
  have e2 : not32 ((2 : Int) ^ j - 1) = -(2 ^ j) := by
    rw [not32_eq _ (by omega) (by omega)]; ring
  have e3 : toU32 (-((2 : Int) ^ j)) = 2 ^ 32 - 2 ^ j := by
    unfold toU32
    have : (-((2 : Int) ^ j)) % 4294967296 = 4294967296 - 2 ^ j := by omega
    rw [this]
    omega
  obtain ⟨y, hy⟩ : ∃ y : Nat, value + (2 ^ j - 1) = (y : Int) :=
    ⟨(value + (2 ^ j - 1)).toNat, by omega⟩
  have hy2 : toU32 (value + (2 ^ j - 1)) = y := by
    have := toU32_of_nonneg (x := value + (2 ^ j - 1)) (by omega) (by omega)
    omega
  have hylt : y < 2 ^ 32 := by
    have : (y : Int) < 4294967296 := by omega
    have h3 : y < 4294967296 := by exact_mod_cast this
    simpa using h3
  have hle : y / 2 ^ j * 2 ^ j ≤ y := Nat.div_mul_le_self y (2 ^ j)
  have hc : ((y / 2 ^ j * 2 ^ j : Nat) : Int) = (value + 2 ^ j - 1) / 2 ^ j * 2 ^ j := by
    have e : value + 2 ^ j - 1 = (y : Int) := by omega
    rw [e]
    push_cast
    rfl
  unfold BitUtil.align
  rw [e1, e2, wrap32_of_range (by omega) (by omega)]
  unfold and32
  rw [e3, hy2, nat_and_high_mask y j 32 hylt (by omega), hc]
  have hb := round_up_spec (2 ^ j) value hpos
  apply wrap32_of_range <;> omega

/-- C35: for a power-of-two alignment and a value that is not negative, with
`value + alignment - 1` representable, the `int32` instance of `BitUtil::align` returns
the smallest multiple of the alignment that is not below the value; so the result lies
between the value and the value plus the alignment, and aligning it again changes nothing.
The unsigned instances of any width round up in the same way. -/
theorem align_smallest_multiple (value : Int) (j : Nat) (hj : j ≤ 30) (h0 : 0 ≤ value)
    (h1 : value + 2 ^ j - 1 ≤ 2147483647) :
    (2 : Int) ^ j ∣ BitUtil.align value (2 ^ j) ∧
    value ≤ BitUtil.align value (2 ^ j) ∧
    (∀ m : Int, (2 : Int) ^ j ∣ m → value ≤ m → BitUtil.align value (2 ^ j) ≤ m) ∧
    BitUtil.align value (2 ^ j) < value + 2 ^ j ∧
    BitUtil.align (BitUtil.align value (2 ^ j)) (2 ^ j) = BitUtil.align value (2 ^ j) ∧
    ∀ bits k v : Nat, k ≤ bits → v + 2 ^ k - 1 < 2 ^ bits →
      BitUtil.alignUnsigned bits v (2 ^ k) = (v + 2 ^ k - 1) / 2 ^ k * 2 ^ k := by
  have hpos : (0 : Int) < 2 ^ j := by positivity
  obtain ⟨r1, r2, r3, r4, r5⟩ := round_up_spec (2 ^ j) value hpos
  have he := align_eq_round_up value j hj h0 h1
  refine ⟨by rw [he]; exact r1, by rw [he]; exact r2, by rw [he]; exact r4,
    by rw [he]; exact r3, ?_, ?_⟩
  · rw [he]
    have hd : (2 : Int) ^ j ∣ 2147483648 := by
      have h31 : (2147483648 : Int) = 2 ^ 31 := by norm_num
      rw [h31]
      exact pow_dvd_pow 2 (by omega)
    have hd2 : (2 : Int) ^ j ∣ 2147483648 - (value + 2 ^ j - 1) / 2 ^ j * 2 ^ j :=
      Int.dvd_sub hd r1
    have hle := Int.le_of_dvd (by omega) hd2
    rw [align_eq_round_up _ j hj (by omega) (by omega)]
    exact r5
  · intro bits k v hk hv
    have hkpos : 0 < (2 : Nat) ^ k := by positivity
    have hkle : (2 : Nat) ^ k ≤ 2 ^ bits := Nat.pow_le_pow_right (by decide) hk
    have hbpos : 0 < (2 : Nat) ^ bits := by positivity
    have e1 : (2 ^ k + 2 ^ bits - 1) % 2 ^ bits = 2 ^ k - 1 := by
      have e : 2 ^ k + 2 ^ bits - 1 = (2 ^ k - 1) + 2 ^ bits := by omega
      rw [e, Nat.add_mod_right, Nat.mod_eq_of_lt (by omega)]
    have e2 : (v + (2 ^ k - 1)) % 2 ^ bits = v + 2 ^ k - 1 := by
      rw [Nat.mod_eq_of_lt (by omega)]; omega
    unfold BitUtil.alignUnsigned
    rw [e1, e2, nat_ones_xor_low k bits hk, nat_and_high_mask _ k bits hv hk]

/-- C35 at the value 100 and the alignment `2 ^ 5`: the result is 128, a multiple of 32
that lies in [100, 132). -/
theorem align_smallest_multiple_witness :
    BitUtil.align 100 (2 ^ 5) = 128 ∧ (2 : Int) ^ 5 ∣ BitUtil.align 100 (2 ^ 5) ∧
      100 ≤ BitUtil.align 100 (2 ^ 5) ∧ BitUtil.align 100 (2 ^ 5) < 100 + 2 ^ 5 ∧
      BitUtil.align 128 (2 ^ 5) = 128 := by
  have H := align_smallest_multiple 100 5 (by decide) (by decide) (by norm_num)
  exact ⟨by decide, H.1, H.2.1, H.2.2.2.1, by decide⟩

/-! ## Reachable states of the dispatcher -/

namespace UnorderedMap

/-- Looking a key up after an assignment. -/
theorem find_set {κ ν : Type} [DecidableEq κ] (m : UnorderedMap κ ν) (key k : κ) (value : ν) :
    (m.set key value).find k = if k = key then some value else m.find k := by
  by_cases h : k = key
  · subst h; simp [find_set_self]
  · simp [h, find_set_ne m key k value h]

/-- Looking a key up after an erase. -/
theorem find_erase {κ ν : Type} [DecidableEq κ] (m : UnorderedMap κ ν) (key k : κ) :
    (m.erase key).find k = if k = key then none else m.find k := by
  by_cases h : k = key
  · subst h; simp [find_erase_self]
  · simp [h, find_erase_ne m key k h]

/-- Nothing is found in the map without entries. -/
theorem find_empty {κ ν : Type} [DecidableEq κ] (k : κ) :
    (empty : UnorderedMap κ ν).find k = none := rfl

end UnorderedMap

namespace DataPacketDispatcher

/-- The active image of a session after the map of one stream has been replaced. -/
theorem activeImage_set (ignored : UnorderedMap (Int × Int) SessionStatus)
    (d : DataPacketDispatcher) (streamId : Int) (sessions : UnorderedMap Int PublicationImage)
    (s st : Int) :
    activeImage { ignoredSessions := ignored,
                  sessionsByStreamId := d.sessionsByStreamId.set streamId sessions } s st =
      if st = streamId then sessions.find s else d.activeImage s st := by
  unfold activeImage
  simp only [UnorderedMap.find_set]
  by_cases h : st = streamId
  · simp [h]
  · simp [h]

/-- The active images do not depend on the ignored-session table. -/
theorem activeImage_ignored (ignored : UnorderedMap (Int × Int) SessionStatus)
    (d : DataPacketDispatcher) (s st : Int) :
    activeImage { ignoredSessions := ignored, sessionsByStreamId := d.sessionsByStreamId }
      s st = d.activeImage s st := rfl

/-- The dispatcher as constructed has no active image and no ignored session. -/
theorem construct_exclusive : construct.Exclusive := by
  intro s st _
  rfl

/-- Every call leaves a dispatcher in which no session has both an active image and an
entry in the ignored-session table, when it is made on such a dispatcher. -/
theorem run_exclusive {α β : Type}
    (insertPacket : PublicationImage → Int → Int → β → Int → Int) (d : DataPacketDispatcher)
    (hd : d.Exclusive) (call : DispatcherCall α β) : (call.run insertPacket d).Exclusive := by
  cases call with
  | addSubscription streamId =>
    simp only [DispatcherCall.run, addSubscription]
    split
    · intro s st hact
      rw [activeImage_set] at hact
      by_cases h : st = streamId
      · simp [h, UnorderedMap.find_empty] at hact
      · simp only [h, if_false] at hact
        exact hd s st hact
    · exact hd
  | removeSubscription streamId =>
    simp only [DispatcherCall.run, removeSubscription]
    split <;> exact hd
  | onDataPacket channelEndpoint header atomicBuffer length srcAddress =>
    simp only [DispatcherCall.run, onDataPacket]
    split
    · rename_i sessions hfind
      split
      · exact hd
      · rename_i himg
        split
        · intro s st hact
          rw [activeImage_ignored] at hact
          have hne : (s, st) ≠ (header.sessionId, header.streamId) := by
            intro heq
            injection heq with e1 e2
            subst e1 e2
            apply hact
            simp [activeImage, hfind, himg]
          simp only [UnorderedMap.find_set, hne, if_false]
          exact hd s st hact
        · exact hd
    · exact hd
  | onSetupMessage channelEndpoint header atomicBuffer srcAddress =>
    simp only [DispatcherCall.run, onSetupMessage]
    split
    · rename_i sessions hfind
      split
      · rename_i hcond
        intro s st hact
        rw [activeImage_ignored] at hact
        have hne : (s, st) ≠ (header.sessionId, header.streamId) := by
          intro heq
          injection heq with e1 e2
          subst e1 e2
          apply hact
          simp [activeImage, hfind, hcond.1]
        simp only [UnorderedMap.find_set, hne, if_false]
        exact hd s st hact
      · exact hd
    · exact hd
  | addPublicationImage image =>
    simp only [DispatcherCall.run, addPublicationImage]
    split
    · exact hd
    · rename_i sessions hfind
      intro s st hact
      rw [activeImage_set] at hact
      simp only [UnorderedMap.find_erase]
      by_cases hp : (s, st) = (image.sessionId, image.streamId)
      · simp [hp]
      · simp only [hp, if_false]
        apply hd s st
        by_cases h : st = image.streamId
        · simp only [h, if_true, UnorderedMap.find_set] at hact
          have hs : s ≠ image.sessionId := by
            intro e; apply hp; rw [e, h]
          simp only [hs, if_false] at hact
          simpa [activeImage, h, hfind] using hact
        · simp only [h, if_false] at hact
          exact hact
  | removePublicationImage image =>
    simp only [DispatcherCall.run, removePublicationImage]
    intro s st hact
    by_cases hp : (s, st) = (image.sessionId, image.streamId)
    · exfalso
      injection hp with e1 e2
      subst e1 e2
      apply hact
      rcases hfind : d.sessionsByStreamId.find image.streamId with _ | sessions
      · simp [activeImage, hfind]
      · simp [activeImage, hfind, UnorderedMap.find_set_self, UnorderedMap.find_erase_self]
    · simp only [UnorderedMap.find_set, hp, if_false]
      rcases hfind : d.sessionsByStreamId.find image.streamId with _ | sessions
      · simp only [hfind] at hact ⊢
        exact hd s st hact
      · simp only [hfind] at hact ⊢
        simp only [UnorderedMap.find_erase, hp, if_false]
        apply hd s st
        rw [activeImage_set] at hact
        by_cases h : st = image.streamId
        · simp only [h, if_true, UnorderedMap.find_erase] at hact
          have hs : s ≠ image.sessionId := by
            intro e; apply hp; rw [e, h]
          simp only [hs, if_false] at hact
          simpa [activeImage, h, hfind] using hact
        · simp only [h, if_false] at hact
          exact hact

/-- Every sequence of calls made on a dispatcher in which no session has both an active
image and an ignored-session entry leaves such a dispatcher. -/
theorem runDispatcherCalls_exclusive {α β : Type}
    (insertPacket : PublicationImage → Int → Int → β → Int → Int) :
    ∀ (calls : List (DispatcherCall α β)) (d : DataPacketDispatcher), d.Exclusive →
      (runDispatcherCalls insertPacket d calls).Exclusive := by
  intro calls
  induction calls with
  | nil => intro d hd; exact hd
  | cons call rest ih =>
    intro d hd
    exact ih _ (run_exclusive insertPacket d hd call)

end DataPacketDispatcher

/-- A data packet for a session that has no active image but an entry in the
ignored-session table returns 0, leaves the dispatcher as it is and makes no call. -/
theorem onDataPacket_ignored {α β : Type}
    (insertPacket : PublicationImage → Int → Int → β → Int → Int) (d : DataPacketDispatcher)
    (channelEndpoint : ReceiveChannelEndpoint α) (header : DataHeaderFlyweight)
    (atomicBuffer : β) (length : Int) (srcAddress : α)
    (hact : d.activeImage header.sessionId header.streamId = none)
    (hst : d.ignoredSessions.find (header.sessionId, header.streamId) ≠ none) :
    d.onDataPacket insertPacket channelEndpoint header atomicBuffer length srcAddress =
      { result := 0, dispatcher := d, effects := [] } := by
  unfold DataPacketDispatcher.activeImage at hact
  rcases hfind : d.sessionsByStreamId.find header.streamId with _ | sessions
  · simp [DataPacketDispatcher.onDataPacket, hfind]
  · rw [hfind] at hact
    simp only at hact
    simp [DataPacketDispatcher.onDataPacket, hfind, hact, hst]

/-- Data packets of one session that has no active image but an entry in the
ignored-session table all return 0, leave the dispatcher as it is and make no call. -/
theorem onDataPackets_ignored {α β : Type}
    (insertPacket : PublicationImage → Int → Int → β → Int → Int) (d : DataPacketDispatcher)
    (sessionId streamId : Int)
    (hact : d.activeImage sessionId streamId = none)
    (hst : d.ignoredSessions.find (sessionId, streamId) ≠ none) :
    ∀ packets : List (DataPacket α β),
      (∀ p ∈ packets, p.header.sessionId = sessionId ∧ p.header.streamId = streamId) →
      onDataPackets insertPacket d packets =
        { result := List.replicate packets.length 0, dispatcher := d, effects := [] } := by
  intro packets
  induction packets with
  | nil => intro _; rfl
  | cons p rest ih =>
    intro hall
    obtain ⟨e1, e2⟩ := hall p (List.mem_cons_self _ _)
    have hfirst := onDataPacket_ignored insertPacket d p.channelEndpoint p.header
      p.atomicBuffer p.length p.srcAddress (by rw [e1, e2]; exact hact)
      (by rw [e1, e2]; exact hst)
    have hrest := ih (fun q hq => hall q (List.mem_cons_of_mem _ hq))
    simp only [onDataPackets, hfirst, hrest, List.length_cons, List.replicate_succ,
      List.append_nil]

/-- C31: in every state of the dispatcher reached from the dispatcher as constructed by a
sequence of calls of `addSubscription`, `removeSubscription`, `onDataPacket`,
`onSetupMessage`, `addPublicationImage` and `removePublicationImage`, no session of a
stream has both an active image and an entry in the ignored-session table. -/
theorem dispatcher_image_and_ignored_exclusive {α β : Type}
    (insertPacket : PublicationImage → Int → Int → β → Int → Int)
    (calls : List (DispatcherCall α β)) (sessionId streamId : Int) :
    ¬ ((runDispatcherCalls insertPacket DataPacketDispatcher.construct calls).activeImage
          sessionId streamId ≠ none ∧
        (runDispatcherCalls insertPacket DataPacketDispatcher.construct
          calls).ignoredSessions.find (sessionId, streamId) ≠ none) := by
  rintro ⟨h1, h2⟩
  exact h2 (DataPacketDispatcher.runDispatcherCalls_exclusive insertPacket calls _
    DataPacketDispatcher.construct_exclusive sessionId streamId h1)

/-- C31 at a sequence of calls that subscribes to stream 10, receives a data packet and a
setup message of session 5 and installs the example image: the session then has the
image and no ignored-session entry, and after the removal of the image it has the entry
ON_COOL_DOWN and no image. -/
theorem dispatcher_image_and_ignored_exclusive_witness :
    (runDispatcherCalls exampleInsertPacket DataPacketDispatcher.construct
      [DispatcherCall.addSubscription 10,
        DispatcherCall.onDataPacket exampleEndpoint exampleDataHeader () 100 4,
        DispatcherCall.onSetupMessage exampleEndpoint exampleSetupHeader () 4,
        DispatcherCall.addPublicationImage exampleImage]).activeImage 5 10 =
      some exampleImage ∧
    (runDispatcherCalls exampleInsertPacket DataPacketDispatcher.construct
      [DispatcherCall.addSubscription 10,
        DispatcherCall.onDataPacket exampleEndpoint exampleDataHeader () 100 4,
        DispatcherCall.onSetupMessage exampleEndpoint exampleSetupHeader () 4,
        DispatcherCall.addPublicationImage exampleImage]).ignoredSessions.find (5, 10) =
      none ∧
    (runDispatcherCalls exampleInsertPacket DataPacketDispatcher.construct
      [DispatcherCall.addSubscription 10,
        DispatcherCall.onDataPacket exampleEndpoint exampleDataHeader () 100 4,
        DispatcherCall.onSetupMessage exampleEndpoint exampleSetupHeader () 4,
        DispatcherCall.addPublicationImage exampleImage,
        DispatcherCall.removePublicationImage exampleImage]).ignoredSessions.find (5, 10) =
      some SessionStatus.ON_COOL_DOWN ∧
    (runDispatcherCalls exampleInsertPacket DataPacketDispatcher.construct
      [DispatcherCall.addSubscription 10,
        DispatcherCall.onDataPacket exampleEndpoint exampleDataHeader () 100 4,
        DispatcherCall.onSetupMessage exampleEndpoint exampleSetupHeader () 4,
        DispatcherCall.addPublicationImage exampleImage,
        DispatcherCall.removePublicationImage exampleImage]).activeImage 5 10 = none := by
  have H := dispatcher_image_and_ignored_exclusive exampleInsertPacket
    [DispatcherCall.addSubscription 10,
      DispatcherCall.onDataPacket exampleEndpoint exampleDataHeader () 100 4,
      DispatcherCall.onSetupMessage exampleEndpoint exampleSetupHeader () 4,
      DispatcherCall.addPublicationImage exampleImage,
      DispatcherCall.removePublicationImage exampleImage] 5 10
  have h3 : (runDispatcherCalls exampleInsertPacket DataPacketDispatcher.construct
      [DispatcherCall.addSubscription 10,
        DispatcherCall.onDataPacket exampleEndpoint exampleDataHeader () 100 4,
        DispatcherCall.onSetupMessage exampleEndpoint exampleSetupHeader () 4,
        DispatcherCall.addPublicationImage exampleImage,
        DispatcherCall.removePublicationImage exampleImage]).ignoredSessions.find (5, 10) =
      some SessionStatus.ON_COOL_DOWN := by decide
  refine ⟨by decide, by decide, h3, ?_⟩
  by_contra hne
  exact H ⟨hne, by rw [h3]; simp⟩

/-- C32: in every state of the dispatcher reached from the dispatcher as constructed, a
data packet of a session whose status is PENDING_SETUP_FRAME or INIT_IN_PROGRESS returns
0, leaves the dispatcher as it is and makes no call on a collaborator.  So when the
stream has a subscription and the session neither an active image nor an ignored-session
entry, any number of data packets of the session, the first one and those after it, all
return 0 and together make exactly the two calls of the first: one setup-eliciting status
message and one registration of a pending setup; the session is left in
PENDING_SETUP_FRAME. -/
theorem onDataPacket_idempotent_awaiting_setup {α β : Type}
    (insertPacket : PublicationImage → Int → Int → β → Int → Int)
    (calls : List (DispatcherCall α β)) (channelEndpoint : ReceiveChannelEndpoint α)
    (header : DataHeaderFlyweight) (atomicBuffer : β) (length : Int) (srcAddress : α) :
    (((runDispatcherCalls insertPacket DataPacketDispatcher.construct
          calls).ignoredSessions.find (header.sessionId, header.streamId) =
          some SessionStatus.PENDING_SETUP_FRAME ∨
        (runDispatcherCalls insertPacket DataPacketDispatcher.construct
          calls).ignoredSessions.find (header.sessionId, header.streamId) =
          some SessionStatus.INIT_IN_PROGRESS) →
      (runDispatcherCalls insertPacket DataPacketDispatcher.construct calls).onDataPacket
          insertPacket channelEndpoint header atomicBuffer length srcAddress =
        { result := 0
          dispatcher := runDispatcherCalls insertPacket DataPacketDispatcher.construct calls
          effects := [] }) ∧
    ∀ (d : DataPacketDispatcher) (rest : List (DataPacket α β)),
      d.sessionsByStreamId.find header.streamId ≠ none →
      d.activeImage header.sessionId header.streamId = none →
      d.ignoredSessions.find (header.sessionId, header.streamId) = none →
      (∀ p ∈ rest, p.header.sessionId = header.sessionId ∧
        p.header.streamId = header.streamId) →
      (onDataPackets insertPacket d
        ({ channelEndpoint := channelEndpoint, header := header,
           atomicBuffer := atomicBuffer, length := length,
           srcAddress := srcAddress } :: rest)).effects =
        [DispatcherEffect.sendSetupElicitingStatusMessage
            (if channelEndpoint.isMulticast then channelEndpoint.remoteControl
              else srcAddress) header.sessionId header.streamId,
          DispatcherEffect.addPendingSetupMessage header.sessionId header.streamId
            channelEndpoint] ∧
      (onDataPackets insertPacket d
        ({ channelEndpoint := channelEndpoint, header := header,
           atomicBuffer := atomicBuffer, length := length,
           srcAddress := srcAddress } :: rest)).result =
        List.replicate (rest.length + 1) 0 ∧
      (onDataPackets insertPacket d
        ({ channelEndpoint := channelEndpoint, header := header,
           atomicBuffer := atomicBuffer, length := length,
           srcAddress := srcAddress } :: rest)).dispatcher.ignoredSessions.find
          (header.sessionId, header.streamId) = some SessionStatus.PENDING_SETUP_FRAME := by
  refine ⟨?_, ?_⟩
  · intro hst
    have hex := DataPacketDispatcher.runDispatcherCalls_exclusive insertPacket calls _
      DataPacketDispatcher.construct_exclusive header.sessionId header.streamId
    have hne : (runDispatcherCalls insertPacket DataPacketDispatcher.construct
        calls).ignoredSessions.find (header.sessionId, header.streamId) ≠ none := by
      rcases hst with h | h <;> rw [h] <;> simp
    have hact : (runDispatcherCalls insertPacket DataPacketDispatcher.construct
        calls).activeImage header.sessionId header.streamId = none := by
      by_contra hcon
      exact hne (hex hcon)
    exact onDataPacket_ignored insertPacket _ channelEndpoint header atomicBuffer length
      srcAddress hact hne
  · intro d rest hsub hact hign hall
    rcases hfind : d.sessionsByStreamId.find header.streamId with _ | sessions
    · exact absurd hfind hsub
    · have himg2 : sessions.find header.sessionId = none := by
        simpa [DataPacketDispatcher.activeImage, hfind] using hact
      have hr : d.onDataPacket insertPacket channelEndpoint header atomicBuffer length
          srcAddress =
          { result := 0
            dispatcher :=
              { d with ignoredSessions := (d.ignoredSessions.set
                  (header.sessionId, header.streamId) SessionStatus.PENDING_SETUP_FRAME) }
            effects :=
              [DispatcherEffect.sendSetupElicitingStatusMessage
                  (if channelEndpoint.isMulticast then channelEndpoint.remoteControl
                    else srcAddress) header.sessionId header.streamId,
                DispatcherEffect.addPendingSetupMessage header.sessionId header.streamId
                  channelEndpoint] } := by
        simp [DataPacketDispatcher.onDataPacket, hfind, himg2, hign]
      have hst1 : ({ d with ignoredSessions := (d.ignoredSessions.set
          (header.sessionId, header.streamId)
          SessionStatus.PENDING_SETUP_FRAME) } : DataPacketDispatcher).ignoredSessions.find
          (header.sessionId, header.streamId) = some SessionStatus.PENDING_SETUP_FRAME :=
        UnorderedMap.find_set_self _ _ _
      have hrest := onDataPackets_ignored insertPacket
        ({ d with ignoredSessions := (d.ignoredSessions.set
          (header.sessionId, header.streamId)
          SessionStatus.PENDING_SETUP_FRAME) } : DataPacketDispatcher)
        header.sessionId header.streamId hact (by rw [hst1]; simp) rest hall
      simp only [onDataPackets, hr, hrest, List.append_nil, List.replicate_succ, true_and]
      exact hst1

/-- C32 at the example dispatcher, reached by subscribing to stream 10: three data packets
of session 5 return 0 each and elicit one setup from address 4; and once the first of them
has left the session in PENDING_SETUP_FRAME, a further one returns 0 and makes no call. -/
theorem onDataPacket_idempotent_awaiting_setup_witness :
    (onDataPackets exampleInsertPacket exampleDispatcher
      [{ channelEndpoint := exampleEndpoint, header := exampleDataHeader,
         atomicBuffer := (), length := 100, srcAddress := 4 },
       { channelEndpoint := exampleEndpoint, header := exampleDataHeader,
         atomicBuffer := (), length := 200, srcAddress := 4 },
       { channelEndpoint := exampleEndpoint, header := exampleDataHeader,
         atomicBuffer := (), length := 300, srcAddress := 4 }]).effects =
      [DispatcherEffect.sendSetupElicitingStatusMessage 4 5 10,
        DispatcherEffect.addPendingSetupMessage 5 10 exampleEndpoint] ∧
    (onDataPackets exampleInsertPacket exampleDispatcher
      [{ channelEndpoint := exampleEndpoint, header := exampleDataHeader,
         atomicBuffer := (), length := 100, srcAddress := 4 },
       { channelEndpoint := exampleEndpoint, header := exampleDataHeader,
         atomicBuffer := (), length := 200, srcAddress := 4 },
       { channelEndpoint := exampleEndpoint, header := exampleDataHeader,
         atomicBuffer := (), length := 300, srcAddress := 4 }]).result = [0, 0, 0] ∧
    (runDispatcherCalls exampleInsertPacket DataPacketDispatcher.construct
      [DispatcherCall.addSubscription 10,
        DispatcherCall.onDataPacket exampleEndpoint exampleDataHeader () 100
          4]).ignoredSessions.find (5, 10) = some SessionStatus.PENDING_SETUP_FRAME ∧
    ((runDispatcherCalls exampleInsertPacket DataPacketDispatcher.construct
      [DispatcherCall.addSubscription 10,
        DispatcherCall.onDataPacket exampleEndpoint exampleDataHeader () 100
          4]).onDataPacket exampleInsertPacket exampleEndpoint exampleDataHeader () 200
            4).effects = [] := by
  have H := (onDataPacket_idempotent_awaiting_setup exampleInsertPacket
    ([] : List (DispatcherCall Nat Unit)) exampleEndpoint exampleDataHeader () 100 4).2
    exampleDispatcher
    [{ channelEndpoint := exampleEndpoint, header := exampleDataHeader,
       atomicBuffer := (), length := 200, srcAddress := 4 },
     { channelEndpoint := exampleEndpoint, header := exampleDataHeader,
       atomicBuffer := (), length := 300, srcAddress := 4 }]
    (by decide) (by decide) (by decide) (by decide)
  have hst : (runDispatcherCalls exampleInsertPacket DataPacketDispatcher.construct
      [DispatcherCall.addSubscription 10,
        DispatcherCall.onDataPacket exampleEndpoint exampleDataHeader () 100
          4]).ignoredSessions.find (exampleDataHeader.sessionId, exampleDataHeader.streamId) =
      some SessionStatus.PENDING_SETUP_FRAME := by decide
  have H1 := (onDataPacket_idempotent_awaiting_setup exampleInsertPacket
    [DispatcherCall.addSubscription 10,
      DispatcherCall.onDataPacket exampleEndpoint exampleDataHeader () 100 4]
    exampleEndpoint exampleDataHeader () 200 4).1 (Or.inl hst)
  refine ⟨H.1, H.2.1, hst, ?_⟩
  rw [H1]

/-- When `addPublicationImage` and `removeSubscription` throw, by the tables: they throw
`UnknownSubscriptionException` exactly when the stream has no entry in the table of
subscriptions, and return otherwise; when they throw, the dispatcher with its two tables is
left as it is and no call is made on an image, so the status of the image is not touched.
A `removeSubscription` leaves the tables as they are also when it returns. -/
theorem unknownSubscription_by_table_entry (d : DataPacketDispatcher)
    (image : PublicationImage)
    (streamId : Int) :
    ((d.addPublicationImage image).outcome =
        DispatchOutcome.UnknownSubscriptionException image.streamId ↔
      d.sessionsByStreamId.find image.streamId = none) ∧
    ((d.addPublicationImage image).outcome = DispatchOutcome.returned ↔
      d.sessionsByStreamId.find image.streamId ≠ none) ∧
    (d.sessionsByStreamId.find image.streamId = none →
      (d.addPublicationImage image).dispatcher = d ∧ (d.addPublicationImage image).calls = []) ∧
    ((d.removeSubscription streamId).outcome =
        DispatchOutcome.UnknownSubscriptionException streamId ↔
      d.sessionsByStreamId.find streamId = none) ∧
    ((d.removeSubscription streamId).outcome = DispatchOutcome.returned ↔
      d.sessionsByStreamId.find streamId ≠ none) ∧
    (d.sessionsByStreamId.find streamId = none →
      (d.removeSubscription streamId).dispatcher = d ∧
        (d.removeSubscription streamId).calls = []) ∧
    (d.removeSubscription streamId).dispatcher = d := by
  refine ⟨?_, ?_, ?_, ?_, ?_, ?_, ?_⟩
  · rcases hfind : d.sessionsByStreamId.find image.streamId with _ | sessions <;>
      simp [DataPacketDispatcher.addPublicationImage, hfind]
  · rcases hfind : d.sessionsByStreamId.find image.streamId with _ | sessions <;>
      simp [DataPacketDispatcher.addPublicationImage, hfind]
  · intro hfind
    simp [DataPacketDispatcher.addPublicationImage, hfind]
  · rcases hfind : d.sessionsByStreamId.find streamId with _ | sessions <;>
      simp [DataPacketDispatcher.removeSubscription, hfind]
  · rcases hfind : d.sessionsByStreamId.find streamId with _ | sessions <;>
      simp [DataPacketDispatcher.removeSubscription, hfind]
  · intro hfind
    simp [DataPacketDispatcher.removeSubscription, hfind]
  · rcases hfind : d.sessionsByStreamId.find streamId with _ | sessions <;>
      simp [DataPacketDispatcher.removeSubscription, hfind]

/-- C33: stream 10 is subscribed with `addSubscription(10)` and unsubscribed again with
`removeSubscription(10)`, which returns and makes no call on an image.  The stream has no
registered subscription any more, yet a second `removeSubscription(10)` returns instead of
throwing `UnknownSubscriptionException`, and `addPublicationImage` of an image of stream 10
returns, installs the image as the active image of session 5 and sets it ACTIVE:
`removeSubscription` has left the entry of the stream in the table of subscriptions.  On
the dispatcher as constructed, where stream 10 was never subscribed, both calls throw
`UnknownSubscriptionException`. -/
theorem removeSubscription_leaves_stream_registered :
    ((DataPacketDispatcher.construct.addSubscription 10).removeSubscription 10).outcome =
      DispatchOutcome.returned ∧
    ((DataPacketDispatcher.construct.addSubscription 10).removeSubscription 10).calls = [] ∧
    ((DataPacketDispatcher.construct.addSubscription 10).removeSubscription 10).dispatcher =
      DataPacketDispatcher.construct.addSubscription 10 ∧
    (((DataPacketDispatcher.construct.addSubscription 10).removeSubscription
      10).dispatcher.removeSubscription 10).outcome = DispatchOutcome.returned ∧
    (((DataPacketDispatcher.construct.addSubscription 10).removeSubscription
      10).dispatcher.addPublicationImage exampleImage).outcome = DispatchOutcome.returned ∧
    (((DataPacketDispatcher.construct.addSubscription 10).removeSubscription
      10).dispatcher.addPublicationImage exampleImage).dispatcher.activeImage 5 10 =
      some exampleImage ∧
    (DataPacketDispatcher.construct.removeSubscription 10).outcome =
      DispatchOutcome.UnknownSubscriptionException 10 ∧
    (DataPacketDispatcher.construct.addPublicationImage exampleImage).outcome =
      DispatchOutcome.UnknownSubscriptionException 10 := by
  decide

/-- The example ring adds one to its counter per id handed out, and writing leaves the
counter alone. -/
theorem exampleRingBuffer_incrementsByOne :
    IncrementsByOne exampleRingBuffer (fun ring => ring.counter) := by
  refine ⟨fun ring => rfl, ?_⟩
  intro ring msgTypeId buffer srcIndex length
  simp only [exampleRingBuffer]
  split <;> rfl

/-- C34: when the ring write of an add or remove command is made and returns false, the
command throws `IllegalStateException`; and whenever an add or remove command throws,
because that write returned false or because its record did not fit the scratch buffer, it
has drawn exactly one correlation id and has written no record, and on a ring whose
`nextCorrelationId()` adds one to a counter that `write` leaves alone, the counter after
the failed command is one more than before. -/
theorem failed_command_advances_counter {ρ : Type} (rb : ManyToOneRingBuffer ρ)
    (counter : ρ → Int) (hinc : IncrementsByOne rb counter) (proxy : DriverProxy) (ring : ρ)
    (command : DriverCommand) :
    (RingCall.write command.msgTypeId
        (command.record proxy.clientId (rb.nextCorrelationId ring).1) 0
        (command.record proxy.clientId (rb.nextCorrelationId ring).1).length false ∈
        (command.run rb proxy ring).calls →
      (command.run rb proxy ring).outcome =
        CommandOutcome.throws CommandFailure.IllegalStateException) ∧
    ((command.record proxy.clientId (rb.nextCorrelationId ring).1).length ≤
        DriverProxy.COMMAND_BUFFER_LENGTH →
      (rb.write (rb.nextCorrelationId ring).2 command.msgTypeId
        (command.record proxy.clientId (rb.nextCorrelationId ring).1) 0
        (command.record proxy.clientId (rb.nextCorrelationId ring).1).length).1 = false →
      (command.run rb proxy ring).outcome =
        CommandOutcome.throws CommandFailure.IllegalStateException) ∧
    ((∃ failure, (command.run rb proxy ring).outcome = CommandOutcome.throws failure) →
      idsDrawn (command.run rb proxy ring).calls = [(rb.nextCorrelationId ring).1] ∧
      recordsWritten (command.run rb proxy ring).calls = [] ∧
      counter (command.run rb proxy ring).ring = counter ring + 1) := by
  obtain ⟨h1, h2⟩ := hinc
  rw [DriverCommand.run_eq rb proxy ring command]
  by_cases hfit : DriverProxy.COMMAND_BUFFER_LENGTH <
      (command.record proxy.clientId (rb.nextCorrelationId ring).1).length
  · rw [if_pos hfit]
    refine ⟨fun hm => ?_, fun hle => absurd hfit (not_lt.mpr hle), fun _ => ⟨rfl, rfl, h1 ring⟩⟩
    simp at hm
  · rw [if_neg hfit]
    dsimp only
    rcases hw : (rb.write (rb.nextCorrelationId ring).2 command.msgTypeId
      (command.record proxy.clientId (rb.nextCorrelationId ring).1) 0
      (command.record proxy.clientId (rb.nextCorrelationId ring).1).length).1 with _ | _
    · refine ⟨fun _ => rfl, fun _ _ => rfl, fun _ => ⟨rfl, rfl, ?_⟩⟩
      rw [h2, h1]
    · refine ⟨fun hm => ?_, fun _ habs => absurd habs (by simp), fun hthrows => ?_⟩
      · simp at hm
      · obtain ⟨failure, hf⟩ := hthrows
        simp at hf

/-- C34 at the ring without room, whose counter stands at 100: `addPublication` throws,
no record is written, the id 100 is drawn and the counter is left at 101. -/
theorem failed_command_advances_counter_witness :
    IncrementsByOne exampleRingBuffer (fun ring => ring.counter) ∧
    fullRing.counter = 100 ∧
    ((DriverCommand.addPublication exampleChannel 1001).run exampleRingBuffer
      { clientId := 7 } fullRing).outcome =
      CommandOutcome.throws CommandFailure.IllegalStateException ∧
    idsDrawn ((DriverCommand.addPublication exampleChannel 1001).run exampleRingBuffer
      { clientId := 7 } fullRing).calls = [100] ∧
    ((DriverCommand.addPublication exampleChannel 1001).run exampleRingBuffer
      { clientId := 7 } fullRing).ring.counter = 101 ∧
    ((DriverCommand.addPublication exampleChannel 1001).run exampleRingBuffer
      { clientId := 7 } fullRing).ring.records = [] := by
  have H := failed_command_advances_counter exampleRingBuffer (fun ring => ring.counter)
    exampleRingBuffer_incrementsByOne { clientId := 7 } fullRing
    (DriverCommand.addPublication exampleChannel 1001)
  have hthrows := H.2.1 (by decide) (by decide)
  obtain ⟨h1, _, h3⟩ := H.2.2 ⟨_, hthrows⟩
  exact ⟨exampleRingBuffer_incrementsByOne, rfl, hthrows, h1, h3, by decide⟩

end Aeron
